import Mathlib

/-!
# The cgdb scroller (`scroller.cpp`): scrollback navigation and regex search

A shallow embedding of `src/cgdb/scroller.cpp`.  C `int`s are `Int` (no operation
of the scroller relies on wrap-around), `bool`s are `Bool`, C strings are
`List Char`, a null `const char *` is `none`.  The loops `for (;;)` of the two
scans are recursive functions over a fuel argument and return `none` when the
fuel runs out, so a scan that never leaves its loop is `none` for every fuel.

The collaborators of the scroller whose sources are not part of `scroller.cpp`
(the virtual terminal, the regex primitive, the drawing surface, the wrapscan
setting) are modelled from the spec or taken as parameters; each such
definition says so.
-/

namespace Scroller

/-! ## Collaborators -/

/-- Modelled from the spec: the drawing surface `SWINDOW` (sys_win.h is not among
the sources).  The scroller reads only its size, through `swin_getmaxy` and
`swin_getmaxx`. -/
structure SWINDOW where
  maxy : Int
  maxx : Int
deriving DecidableEq, Repr

/-- Modelled from the spec: the height of a drawing surface. -/
def swin_getmaxy (win : SWINDOW) : Int := win.maxy

/-- Modelled from the spec: the width of a drawing surface. -/
def swin_getmaxx (win : SWINDOW) : Int := win.maxx

/-- Modelled from the spec: what the emulator's byte-stream interpretation (out of
scope, §1) makes of the bytes it has been fed: the number of scrollback rows, the
live cursor, and the text of every row, addressed by terminal id (`-S .. H-1`). -/
structure VTScreen where
  sb_num_rows : Int
  cursor_row : Int
  cursor_col : Int
  rows : Int → List Char

/-- Modelled from the spec: the two parts of the emulator that the spec leaves to
the emulator (vterminal.cpp is not among the sources), taken as parameters:
`interp width height bytes` is the screen after feeding `bytes` to a fresh
emulator of that size, and `clamp sb_num_rows n` is the scroll delta the emulator
stores when asked for `n` (the spec: "absolute, clamped ≤ 0", see `spec_clamp`). -/
structure VTermImpl where
  interp : Int → Int → List Char → VTScreen
  clamp : Int → Int → Int

/-- Modelled from the spec: `setScrollDelta(handle, n)` (absolute, clamped ≤ 0). -/
def spec_clamp (_sb_num_rows : Int) (n : Int) : Int := min n 0

/-- A scroll request received by the emulator. -/
inductive VTRequest where
  | scroll_delta (n : Int)
  | scroll_set_delta (n : Int)
deriving DecidableEq, Repr

/-- Modelled from the spec: the virtual-terminal emulator handle (§6, Emulator;
vterminal.h/.cpp are not among the sources).  Its state is its size, the bytes
pushed so far and the current scroll delta.  `requests` is a record of the scroll
requests received, newest first; no operation reads it. -/
structure VTerminal where
  impl : VTermImpl
  width : Int
  height : Int
  input : List Char
  delta : Int
  requests : List VTRequest

/-- The fields of `VTerminalOptions` that have an effect (the three callbacks
have no observable effect, §6). -/
structure VTerminalOptions where
  width : Int
  height : Int
deriving DecidableEq, Repr

/-- Modelled from the spec: the screen the emulator currently holds. -/
def VTerminal.screen (vt : VTerminal) : VTScreen :=
  vt.impl.interp vt.width vt.height vt.input

/-- Modelled from the spec: `create(width, height, callbacks) -> handle`; a fresh
emulator has been fed nothing and shows the live screen (delta 0). -/
def vterminal_new (impl : VTermImpl) (options : VTerminalOptions) : VTerminal :=
  { impl := impl, width := options.width, height := options.height,
    input := [], delta := 0, requests := [] }

/-- Modelled from the spec: `pushBytes(handle, bytes)`. -/
def vterminal_push_bytes (vt : VTerminal) (buf : List Char) : VTerminal :=
  { vt with input := vt.input ++ buf }

/-- Modelled from the spec: `getCursorPos(handle) -> (row, col)`. -/
def vterminal_get_cursor_pos (vt : VTerminal) : Int × Int :=
  (vt.screen.cursor_row, vt.screen.cursor_col)

/-- Modelled from the spec: `getDimensions(handle) -> (height, width)`. -/
def vterminal_get_height_width (vt : VTerminal) : Int × Int :=
  (vt.height, vt.width)

/-- Modelled from the spec: `getScrollbackRowCount(handle) -> int`. -/
def vterminal_get_sb_num_rows (vt : VTerminal) : Int := vt.screen.sb_num_rows

/-- Modelled from the spec: `getScrollDelta(handle) -> int`. -/
def vterminal_scroll_get_delta (vt : VTerminal) : Int := vt.delta

/-- Modelled from the spec: `setScrollDelta(handle, n)` (absolute, clamped). -/
def vterminal_scroll_set_delta (vt : VTerminal) (n : Int) : VTerminal :=
  { vt with delta := vt.impl.clamp vt.screen.sb_num_rows n,
            requests := VTRequest.scroll_set_delta n :: vt.requests }

/-- Modelled from the spec: `scrollByDelta(handle, n)` (relative). -/
def vterminal_scroll_delta (vt : VTerminal) (n : Int) : VTerminal :=
  { vt with delta := vt.impl.clamp vt.screen.sb_num_rows (vt.delta + n),
            requests := VTRequest.scroll_delta n :: vt.requests }

/-- Modelled from the spec: `fetchRow(handle, row, colStart, colEnd)`: the text of
the columns `colStart .. colEnd-1` of viewport row `row` under the current delta.
By §4.1 the row to pass for a search id is `sid − S + delta`, and the terminal id
of that search id is `sid − S`, so viewport row `row` shows terminal id
`row − delta`.  (The attribute that is also returned is not used by the scans.) -/
def vterminal_fetch_row (vt : VTerminal) (row start_col end_col : Int) : List Char :=
  ((vt.screen.rows (row - vt.delta)).drop start_col.toNat).take (end_col - start_col).toNat

/-- Modelled from the spec: a compiled pattern handle (`struct hl_regex_info`,
highlight.h is not among the sources). -/
structure hl_regex_info where
  regex : List Char
  icase : Int
deriving DecidableEq, Repr

/-- What one call of `hl_regex_search` hands back: the updated handle, the return
value, and the offsets written to `*start` and `*end`. -/
structure hl_search_result where
  info : Option hl_regex_info
  result : Int
  start : Int
  end_ : Int
deriving DecidableEq, Repr

/-- The regex primitive (highlight.cpp is not among the sources), taken as a
parameter: `search info line regex icase` is `hl_regex_search(&info, line, regex,
icase, &start, &end)` and `free info` is the handle after `hl_regex_free(&info)`. -/
structure HlRegex where
  search : Option hl_regex_info → List Char → List Char → Int → hl_search_result
  free : Option hl_regex_info → Option hl_regex_info

/-! ## The scroller -/

/-- A saved position (`struct scroller_mark`). -/
structure scroller_mark where
  r : Int
  c : Int
deriving DecidableEq, Repr

/-- The scroller session (`struct scroller`; the fields are those used in
scroller.cpp). -/
structure scroller where
  in_scroll_mode : Bool
  scroll_cursor_row : Int
  scroll_cursor_col : Int
  win : SWINDOW
  in_search_mode : Bool
  last_hlregex : Option hl_regex_info
  hlregex : Option hl_regex_info
  search_row : Int
  search_col_start : Int
  search_col_end : Int
  jump_back_mark : scroller_mark
  marks : List scroller_mark
  vt : VTerminal
  text : List Char
  delta_init : Int
  search_sid_init : Int
  search_col_init : Int

/-- The constructor `scr_new` (lines 69-92).  The struct comes from `cgdb_malloc`
and `scr_new` assigns neither the three search-origin fields nor `text`, which it
does not construct either; what these four fields hold when `scr_new` returns is
given by the arguments.  (Where the memory of `text` does not hold a valid string
the behaviour of the C++ code that uses it is undefined; the model only follows
the runs in which it holds the string `text`.) -/
def scr_new (impl : VTermImpl) (win : SWINDOW)
    (delta_init search_sid_init search_col_init : Int) (text : List Char) : scroller :=
  { in_scroll_mode := false
    scroll_cursor_row := 0
    scroll_cursor_col := 0
    win := win
    in_search_mode := false
    last_hlregex := none
    hlregex := none
    search_row := 0
    search_col_start := 0
    search_col_end := 0
    jump_back_mark := ⟨-1, -1⟩
    marks := List.replicate 26 ⟨-1, -1⟩
    vt := vterminal_new impl ⟨swin_getmaxx win, swin_getmaxy win⟩
    text := text
    delta_init := delta_init
    search_sid_init := search_sid_init
    search_col_init := search_col_init }

/-- The function `scr_set_scroll_mode`. -/
def scr_set_scroll_mode (scr : scroller) (mode : Bool) : scroller :=
  if mode ∧ ¬ scr.in_scroll_mode then
    let scr := { scr with in_scroll_mode := true }
    { scr with scroll_cursor_row := (vterminal_get_cursor_pos scr.vt).1
               scroll_cursor_col := (vterminal_get_cursor_pos scr.vt).2 }
  else if ¬ mode ∧ scr.in_scroll_mode then
    { scr with in_scroll_mode := false }
  else scr

/-- The function `scr_up`. -/
def scr_up (scr : scroller) (nlines : Int) : scroller :=
  if scr.scroll_cursor_row > 0 ∧ nlines = 1 then
    { scr with scroll_cursor_row := scr.scroll_cursor_row - 1 }
  else
    { scr with vt := vterminal_scroll_delta scr.vt nlines }

/-- The function `scr_down`. -/
def scr_down (scr : scroller) (nlines : Int) : scroller :=
  let height := (vterminal_get_height_width scr.vt).1
  if scr.scroll_cursor_row < height - 1 ∧ nlines = 1 then
    { scr with scroll_cursor_row := scr.scroll_cursor_row + 1 }
  else
    { scr with vt := vterminal_scroll_delta scr.vt (-nlines) }

/-- The function `scr_home`. -/
def scr_home (scr : scroller) : scroller :=
  let sb_num_rows := vterminal_get_sb_num_rows scr.vt
  { scr with vt := vterminal_scroll_delta scr.vt sb_num_rows }

/-- The function `scr_end`. -/
def scr_end (scr : scroller) : scroller :=
  let sb_num_rows := vterminal_get_sb_num_rows scr.vt
  { scr with vt := vterminal_scroll_delta scr.vt (-sb_num_rows) }

/-- The function `scr_left`. -/
def scr_left (scr : scroller) : scroller :=
  if scr.scroll_cursor_col > 0 then
    { scr with scroll_cursor_col := scr.scroll_cursor_col - 1 }
  else scr

/-- The function `scr_right`. -/
def scr_right (scr : scroller) : scroller :=
  let width := (vterminal_get_height_width scr.vt).2
  if scr.scroll_cursor_col < width - 1 then
    { scr with scroll_cursor_col := scr.scroll_cursor_col + 1 }
  else scr

/-- The function `scr_beginning_of_row`. -/
def scr_beginning_of_row (scr : scroller) : scroller :=
  { scr with scroll_cursor_col := 0 }

/-- The function `scr_end_of_row`. -/
def scr_end_of_row (scr : scroller) : scroller :=
  let width := (vterminal_get_height_width scr.vt).2
  { scr with scroll_cursor_col := width - 1 }

/-- The function `scr_add`. -/
def scr_add (scr : scroller) (buf : List Char) : scroller :=
  let scr := { scr with text := scr.text ++ buf }
  { scr with vt := vterminal_push_bytes scr.vt buf }

/-- The function `scr_move`: the session is rebound to `win` and the emulator is
recreated with the size of `win` and fed the whole recorded text. -/
def scr_move (scr : scroller) (win : SWINDOW) : scroller :=
  let scr := { scr with win := win }
  let options : VTerminalOptions := ⟨swin_getmaxx scr.win, swin_getmaxy scr.win⟩
  let scr := { scr with vt := vterminal_new scr.vt.impl options }
  { scr with vt := vterminal_push_bytes scr.vt scr.text }

/-! ## Search -/

/-- The conversion of `scr_search_regex_init` (line 551): the search id of a
cursor row. -/
def sid_from_cursor_row (cursor_row delta sb_num_rows : Int) : Int :=
  cursor_row - delta + sb_num_rows

/-- The conversion used by both scans (lines 285, 305, 391, 429): the viewport
row of a search id under a delta. -/
def cursor_row_from_sid (sid sb_num_rows delta : Int) : Int :=
  sid - sb_num_rows + delta

/-- The function `scr_search_regex_init`. -/
def scr_search_regex_init (scr : scroller) : scroller :=
  let delta := vterminal_scroll_get_delta scr.vt
  let sb_num_rows := vterminal_get_sb_num_rows scr.vt
  { scr with in_search_mode := true
             delta_init := delta
             search_sid_init := sid_from_cursor_row scr.scroll_cursor_row delta sb_num_rows
             search_col_init := scr.scroll_cursor_col }

/-- The function `scr_search_regex_final`. -/
def scr_search_regex_final (scr : scroller) : scroller :=
  let scr := { scr with in_search_mode := false }
  { scr with vt := vterminal_scroll_set_delta scr.vt scr.delta_init }

/-- One call of `hl_regex_search` made by a scan: the search id and start column
of the fetched text, and what the primitive answered. -/
structure hl_probe where
  sid : Int
  col : Int
  result : Int
  start : Int
  end_ : Int
deriving DecidableEq, Repr

/-- The record of the call of the primitive on the text fetched for `(sid, col)`
that was answered with `r`. -/
def probe_of (sid col : Int) (r : hl_search_result) : hl_probe :=
  ⟨sid, col, r.result, r.start, r.end_⟩

/-- What a search call leaves behind: the session, the C return value, and the
calls of the regex primitive it made, in order. -/
structure search_outcome where
  scr : scroller
  result : Int
  probes : List hl_probe

/-- The visibility check of both scans (lines 293-302 and 418-427): the session
and the local `delta` after it. -/
def scroll_into_view (scr : scroller) (count height sb_num_rows delta search_row : Int) :
    scroller × Int :=
  if count - delta - height ≤ search_row ∧ search_row < count - delta then
    (scr, delta)
  else
    let delta := search_row - sb_num_rows
    let delta := if delta > 0 then 0 else delta
    let delta := -delta
    ({ scr with vt := vterminal_scroll_set_delta scr.vt delta }, delta)

/-- The value of the local `delta` after the visibility check (lines 293-302 and
418-427): unchanged when the row is in view, else `-(min (search_row - S) 0)`. -/
def delta_after_view_check (count height sb_num_rows delta search_row : Int) : Int :=
  if count - delta - height ≤ search_row ∧ search_row < count - delta then delta
  else
    let delta := search_row - sb_num_rows
    let delta := if delta > 0 then 0 else delta
    let delta := -delta
    delta

/-- The loop of `scr_search_regex_forward` (lines 281-325), entered with the
locals `search_row`, `search_col`. -/
def forward_loop (hl : HlRegex) (regex : List Char) (icase wrapscan_enabled : Int)
    (sb_num_rows height width count delta : Int) :
    Nat → scroller → Int → Int → Option search_outcome
  | 0, _, _, _ => none
  | fuel + 1, scr, search_row, search_col =>
    let vfr := cursor_row_from_sid search_row sb_num_rows delta
    let utf8buf := vterminal_fetch_row scr.vt vfr search_col width
    let r := hl.search scr.hlregex utf8buf regex icase
    let scr := { scr with hlregex := r.info }
    let p := probe_of search_row search_col r
    if r.result > 0 then
      let sd := scroll_into_view scr count height sb_num_rows delta search_row
      some ⟨{ sd.1 with search_row := cursor_row_from_sid search_row sb_num_rows sd.2
                        search_col_start := r.start + search_col
                        search_col_end := r.end_ + search_col }, r.result, [p]⟩
    else if wrapscan_enabled ≠ 0 ∧ search_row = scr.search_sid_init ∧ search_col = 0 then
      some ⟨scr, r.result, [p]⟩
    else if wrapscan_enabled = 0 ∧ search_row = count - 1 then
      some ⟨scr, r.result, [p]⟩
    else
      let search_row := search_row + 1
      let search_row := if search_row ≥ count then 0 else search_row
      match forward_loop hl regex icase wrapscan_enabled sb_num_rows height width count delta
          fuel scr search_row 0 with
      | none => none
      | some o => some { o with probes := p :: o.probes }

/-- The block "Finalized match" that ends both scans (lines 328-345 and
457-472). -/
def search_commit (hl : HlRegex) (scr : scroller) (opt regex_matched : Int) : scroller :=
  if opt = 2 then
    let scr :=
      if regex_matched ≠ 0 then
        let scr := { scr with scroll_cursor_row := scr.search_row
                              scroll_cursor_col := scr.search_col_start }
        let scr := { scr with hlregex := hl.free scr.hlregex }
        let scr := { scr with last_hlregex := scr.hlregex }
        { scr with hlregex := none }
      else
        { scr with vt := vterminal_scroll_set_delta scr.vt scr.delta_init }
    { scr with search_row := 0, search_col_start := 0, search_col_end := 0 }
  else scr

/-- The start position of the forward scan (lines 266-279). -/
def forward_start (scr : scroller) (width count : Int) : Int × Int :=
  let search_row := scr.search_sid_init
  let search_col := scr.search_col_init
  if search_col < width - 1 then
    (search_row, search_col + 1)
  else
    let search_row := search_row + 1
    let search_row := if search_row ≥ count then 0 else search_row
    (search_row, 0)

/-- The function `scr_search_regex_forward`; `wrapscan_enabled` is the value of
`cgdbrc_get_int(CGDBRC_WRAPSCAN)`. -/
def scr_search_regex_forward (hl : HlRegex) (wrapscan_enabled : Int) (fuel : Nat)
    (scr : scroller) (regex : Option (List Char)) (opt icase : Int) : Option search_outcome :=
  let sb_num_rows := vterminal_get_sb_num_rows scr.vt
  let height := (vterminal_get_height_width scr.vt).1
  let width := (vterminal_get_height_width scr.vt).2
  let delta := vterminal_scroll_get_delta scr.vt
  let count := sb_num_rows + height
  match regex with
  | none => some ⟨scr, 0, []⟩
  | some regex =>
    let st := forward_start scr width count
    match forward_loop hl regex icase wrapscan_enabled sb_num_rows height width count delta
        fuel scr st.1 st.2 with
    | none => none
    | some o => some ⟨search_commit hl o.scr opt o.result, o.result, o.probes⟩

/-- The locals of the per-row loop of the backward scan that outlive it. -/
structure row_scan where
  info : Option hl_regex_info
  regex_matched : Int
  start : Int
  end_ : Int
  probes : List hl_probe
deriving DecidableEq, Repr

/-- The per-row loop of `scr_search_regex_backwards` (lines 398-414), entered
with the local `c` and the current `regex_matched`, `start`, `end`. -/
def backward_row_loop (hl : HlRegex) (regex : List Char) (icase : Int) (vt : VTerminal)
    (vfr width search_row search_col : Int) :
    Nat → Int → Option hl_regex_info → Int → Int → Int → Option row_scan
  | 0, _, _, _, _, _ => none
  | fuel + 1, c, info, regex_matched, start, end_ =>
    let utf8buf := vterminal_fetch_row vt vfr c width
    let r := hl.search info utf8buf regex icase
    let p := probe_of search_row c r
    if r.result = 1 ∧ c + r.start ≤ search_col then
      let regex_matched := 1
      let start := c + r.start
      let end_ := c + r.end_
      let c := start + 1
      match backward_row_loop hl regex icase vt vfr width search_row search_col
          fuel c r.info regex_matched start end_ with
      | none => none
      | some rs => some { rs with probes := p :: rs.probes }
    else
      some ⟨r.info, regex_matched, start, end_, [p]⟩

/-- The loop of `scr_search_regex_backwards` (lines 388-454), entered with the
locals `regex_matched`, `search_row`, `search_col`; every per-row loop gets
`row_fuel`. -/
def backward_loop (hl : HlRegex) (regex : List Char) (icase wrapscan_enabled : Int)
    (sb_num_rows height width count delta : Int) (row_fuel : Nat) :
    Nat → scroller → Int → Int → Int → Option search_outcome
  | 0, _, _, _, _ => none
  | fuel + 1, scr, regex_matched, search_row, search_col =>
    let vfr := cursor_row_from_sid search_row sb_num_rows delta
    match backward_row_loop hl regex icase scr.vt vfr width search_row search_col
        row_fuel 0 scr.hlregex regex_matched 0 0 with
    | none => none
    | some rs =>
      let scr := { scr with hlregex := rs.info }
      if rs.regex_matched > 0 then
        let sd := scroll_into_view scr count height sb_num_rows delta search_row
        some ⟨{ sd.1 with search_row := cursor_row_from_sid search_row sb_num_rows sd.2
                          search_col_start := rs.start
                          search_col_end := rs.end_ }, rs.regex_matched, rs.probes⟩
      else if wrapscan_enabled ≠ 0 ∧ search_row = scr.search_sid_init
          ∧ search_col = width - 1 then
        some ⟨scr, rs.regex_matched, rs.probes⟩
      else if wrapscan_enabled = 0 ∧ search_row = 0 then
        some ⟨scr, rs.regex_matched, rs.probes⟩
      else
        let search_row := search_row - 1
        let search_row := if search_row < 0 then count - 1 else search_row
        match backward_loop hl regex icase wrapscan_enabled sb_num_rows height width count
            delta row_fuel fuel scr rs.regex_matched search_row (width - 1) with
        | none => none
        | some o => some { o with probes := rs.probes ++ o.probes }

/-- The start position of the backward scan (lines 373-386). -/
def backward_start (scr : scroller) (width count : Int) : Int × Int :=
  let search_row := scr.search_sid_init
  let search_col := scr.search_col_init
  if search_col > 0 then
    (search_row, search_col - 1)
  else
    let search_row := search_row - 1
    let search_row := if search_row < 0 then count - 1 else search_row
    (search_row, width - 1)

/-- The function `scr_search_regex_backwards`. -/
def scr_search_regex_backwards (hl : HlRegex) (wrapscan_enabled : Int) (fuel : Nat)
    (scr : scroller) (regex : Option (List Char)) (opt icase : Int) : Option search_outcome :=
  let sb_num_rows := vterminal_get_sb_num_rows scr.vt
  let height := (vterminal_get_height_width scr.vt).1
  let width := (vterminal_get_height_width scr.vt).2
  let delta := vterminal_scroll_get_delta scr.vt
  let count := sb_num_rows + height
  let regex_matched := 0
  match regex with
  | none => some ⟨scr, 0, []⟩
  | some regex =>
    let st := backward_start scr width count
    match backward_loop hl regex icase wrapscan_enabled sb_num_rows height width count delta
        fuel fuel scr regex_matched st.1 st.2 with
    | none => none
    | some o => some ⟨search_commit hl o.scr opt o.result, o.result, o.probes⟩

/-- The function `scr_search_regex`: `direction ≠ 0` is forward; `opt = 2` is a
committed search, any other `opt` a preview. -/
def scr_search_regex (hl : HlRegex) (wrapscan_enabled : Int) (fuel : Nat)
    (scr : scroller) (regex : Option (List Char)) (opt direction icase : Int) :
    Option search_outcome :=
  if direction ≠ 0 then
    scr_search_regex_forward hl wrapscan_enabled fuel scr regex opt icase
  else
    scr_search_regex_backwards hl wrapscan_enabled fuel scr regex opt icase

/-! ## Concrete collaborators used to run the definitions -/

/-- The index of the left-most occurrence of `pat` in `line`, if any. -/
def literal_find (pat : List Char) : List Char → Option Nat
  | [] => if pat = [] then some 0 else none
  | ch :: rest =>
    if pat.isPrefixOf (ch :: rest) then some 0
    else (literal_find pat rest).map (· + 1)

/-- A regex primitive for literal patterns: the left-most occurrence of the
pattern in the line is reported with result 1 and its offsets, no occurrence with
result 0, and an empty pattern with the error result -1. -/
def literal_hl : HlRegex where
  search := fun info line regex icase =>
    if regex = [] then ⟨info, -1, -1, -1⟩
    else
      match literal_find regex line with
      | some i => ⟨some ⟨regex, icase⟩, 1, i, i + regex.length⟩
      | none => ⟨some ⟨regex, icase⟩, 0, -1, -1⟩
  free := fun _ => none

/-- The nine rows of the example in `scr_search_regex` (scrollback 6, height 3),
by terminal id -6 .. 2. -/
def demo_rows (tid : Int) : List Char :=
  if tid = -6 then "abc".toList
  else if tid = -5 then "def".toList
  else if tid = -4 then "ghi".toList
  else if tid = -3 then "def".toList
  else if tid = -2 then "jkl".toList
  else if tid = -1 then "def".toList
  else if tid = 0 then "mno".toList
  else if tid = 1 then "def".toList
  else if tid = 2 then "pqr".toList
  else []

/-- An emulator implementation that always holds the example screen, with the
cursor at (2, 0), and clamps the delta as the spec says. -/
def demo_impl : VTermImpl where
  interp := fun _ _ _ => ⟨6, 2, 0, demo_rows⟩
  clamp := spec_clamp

/-- A session on the example screen: height 3, width 3, in scroll mode with the
scroll cursor at `(row, col)`, the search-origin fields 0 and no recorded text. -/
def demo_scr (row col : Int) : scroller :=
  { scr_new demo_impl ⟨3, 3⟩ 0 0 0 [] with
    in_scroll_mode := true, scroll_cursor_row := row, scroll_cursor_col := col }

/-- An emulator implementation whose screen is the single row `"ababab"` (no
scrollback), with the cursor at (0, 0). -/
def abab_impl : VTermImpl where
  interp := fun _ _ _ => ⟨0, 0, 0, fun tid => if tid = 0 then "ababab".toList else []⟩
  clamp := spec_clamp

/-! ## Predicates used in the statements -/

/-- The scroll cursor lies inside the viewport the emulator reports:
`0 ≤ row ≤ H-1` and `0 ≤ col ≤ W-1`. -/
def cursor_in_viewport (scr : scroller) : Prop :=
  0 ≤ scr.scroll_cursor_row
    ∧ scr.scroll_cursor_row ≤ (vterminal_get_height_width scr.vt).1 - 1
    ∧ 0 ≤ scr.scroll_cursor_col
    ∧ scr.scroll_cursor_col ≤ (vterminal_get_height_width scr.vt).2 - 1

instance (scr : scroller) : Decidable (cursor_in_viewport scr) := by
  unfold cursor_in_viewport; infer_instance

/-- The emulator's live cursor lies inside its viewport. -/
def live_cursor_in_viewport (vt : VTerminal) : Prop :=
  0 ≤ (vterminal_get_cursor_pos vt).1
    ∧ (vterminal_get_cursor_pos vt).1 ≤ (vterminal_get_height_width vt).1 - 1
    ∧ 0 ≤ (vterminal_get_cursor_pos vt).2
    ∧ (vterminal_get_cursor_pos vt).2 ≤ (vterminal_get_height_width vt).2 - 1

instance (vt : VTerminal) : Decidable (live_cursor_in_viewport vt) := by
  unfold live_cursor_in_viewport; infer_instance

/-- The regex primitive reports no match (result 0) for `regex` on every text that
can be fetched from the emulator: every row, from every start column. -/
def reports_no_match (hl : HlRegex) (vt : VTerminal) (width : Int) (regex : List Char)
    (icase : Int) : Prop :=
  ∀ (info : Option hl_regex_info) (row c : Int),
    (hl.search info (vterminal_fetch_row vt row c width) regex icase).result = 0

/-- The session a scan leaves on a match at search id `m` with span `[s, e)`:
`scr` with the handle `info`, after the visibility check, with the match
recorded (lines 291-308 and 416-432). -/
def matched_state (scr : scroller) (info : Option hl_regex_info)
    (count height sb_num_rows delta m s e : Int) : scroller :=
  let sd := scroll_into_view { scr with hlregex := info } count height sb_num_rows delta m
  { sd.1 with search_row := cursor_row_from_sid m sb_num_rows sd.2
              search_col_start := s
              search_col_end := e }

/-- The number of calls of the primitive the forward loop makes from
`(search_row, search_col)` when no call reports a match. -/
def forward_steps (wrapscan_enabled count sid_init search_row search_col : Int) : Nat :=
  if wrapscan_enabled = 0 then (count - search_row).toNat
  else if search_col = 0 then
    (if search_row ≤ sid_init then sid_init - search_row + 1
     else sid_init - search_row + count + 1).toNat
  else if search_row + 1 ≥ count then (sid_init + 2).toNat
  else
    (if search_row + 1 ≤ sid_init then sid_init - search_row + 1
     else sid_init - search_row + count + 1).toNat

/-- The number of rows the backward loop visits from `(search_row, search_col)`
when no row yields a match. -/
def backward_steps (wrapscan_enabled width count sid_init search_row search_col : Int) : Nat :=
  if wrapscan_enabled = 0 then (search_row + 1).toNat
  else if search_col = width - 1 then
    (if sid_init ≤ search_row then search_row - sid_init + 1
     else search_row - sid_init + count + 1).toNat
  else if search_row - 1 < 0 then (count - sid_init + 1).toNat
  else
    (if sid_init ≤ search_row - 1 then search_row - sid_init + 1
     else search_row - sid_init + count + 1).toNat

/-- One call of `scr_search_regex` with its arguments, the wrapscan setting in
force and the fuel given to its loops. -/
structure search_call where
  wrapscan_enabled : Int
  fuel : Nat
  regex : Option (List Char)
  opt : Int
  direction : Int
  icase : Int

/-- The session after a sequence of `scr_search_regex` calls, made one after the
other; `none` when one of them does not return. -/
def run_searches (hl : HlRegex) : scroller → List search_call → Option scroller
  | scr, [] => some scr
  | scr, c :: cs =>
    match scr_search_regex hl c.wrapscan_enabled c.fuel scr c.regex c.opt c.direction
        c.icase with
    | none => none
    | some o => run_searches hl o.scr cs

/-- The parts of a session that a scan loop never assigns: everything except the
pattern handle, the recorded match and the emulator's scroll state. -/
structure scan_frame (a b : scroller) : Prop where
  in_scroll_mode : b.in_scroll_mode = a.in_scroll_mode
  scroll_cursor_row : b.scroll_cursor_row = a.scroll_cursor_row
  scroll_cursor_col : b.scroll_cursor_col = a.scroll_cursor_col
  win : b.win = a.win
  in_search_mode : b.in_search_mode = a.in_search_mode
  last_hlregex : b.last_hlregex = a.last_hlregex
  jump_back_mark : b.jump_back_mark = a.jump_back_mark
  marks : b.marks = a.marks
  text : b.text = a.text
  delta_init : b.delta_init = a.delta_init
  search_sid_init : b.search_sid_init = a.search_sid_init
  search_col_init : b.search_col_init = a.search_col_init
  vt_impl : b.vt.impl = a.vt.impl
  vt_width : b.vt.width = a.vt.width
  vt_height : b.vt.height = a.vt.height
  vt_input : b.vt.input = a.vt.input

/-- An emulator clamp that keeps the delta within `0 .. sb_num_rows`, the delta
counting the rows scrolled back (the values the scans compute at lines 296-301
and 421-426 are of this kind). -/
def rows_back_clamp (sb_num_rows : Int) (n : Int) : Int := max 0 (min n sb_num_rows)

/-- The example screen in an emulator that clamps with `rows_back_clamp`. -/
def demo_back_impl : VTermImpl where
  interp := fun _ _ _ => ⟨6, 2, 0, demo_rows⟩
  clamp := rows_back_clamp

/-- A session on the example screen (height 3, width 3) whose emulator clamps
with `rows_back_clamp` and is scrolled back by `delta` rows, in scroll mode with
the scroll cursor at `(row, col)`, the search-origin fields 0 and no recorded
text. -/
def demo_back_scr (row col delta : Int) : scroller :=
  { scr_new demo_back_impl ⟨3, 3⟩ 0 0 0 [] with
    in_scroll_mode := true, scroll_cursor_row := row, scroll_cursor_col := col,
    vt := { vterminal_new demo_back_impl ⟨3, 3⟩ with delta := delta } }

/-- The columns of the row `"ababab"` at which an occurrence of `"ab"` starts. -/
def abab_match (k : Int) : Prop := k = 0 ∨ k = 2 ∨ k = 4

/-! ## Marks and rendering -/

/-- The function `scr_set_mark`; `key` is the character code, 97 is `'a'` and
122 is `'z'`.  The two assignments to `marks[key - 'a']` set its row and column. -/
def scr_set_mark (scr : scroller) (key : Int) : scroller × Int :=
  let cursor_row := (vterminal_get_cursor_pos scr.vt).1
  let cursor_col := (vterminal_get_cursor_pos scr.vt).2
  if key ≥ 97 ∧ key ≤ 122 then
    ({ scr with marks := scr.marks.set (key - 97).toNat ⟨cursor_row, cursor_col⟩ }, 1)
  else
    (scr, 0)

/-- The function `scr_goto_mark`, whose body is compiled out (`#if 0`). -/
def scr_goto_mark (scr : scroller) (_key : Int) : scroller × Int := (scr, 0)

/-- The values of `enum win_refresh` that `scr_refresh` distinguishes. -/
inductive win_refresh where
  | WIN_NO_REFRESH
  | WIN_REFRESH
deriving DecidableEq, Repr

/-- Modelled from the spec: a call on the drawing surface (§6, Drawing surface;
sys_win.h is not among the sources). -/
inductive swin_call where
  | wmove (r c : Int)
  | wattron (attr : Int)
  | wattroff (attr : Int)
  | waddnstr (s : List Char) (n : Nat)
  | wclrtoeol
  | mvwprintw (r c : Int) (s : List Char)
  | curs_set (visibility : Int)
  | wnoutrefresh
  | wrefresh
deriving DecidableEq, Repr

/-- The collaborators of rendering, taken as parameters: the attributes that
`hl_groups_get_attr` gives for `HLG_SCROLL_MODE_STATUS` and `HLG_INCSEARCH`, and
the attribute that `vterminal_fetch_row(vt, r, c, c + 1, ..)` hands back. -/
structure render_env where
  highlight_attr : Int
  search_attr : Int
  cell_attr : VTerminal → Int → Int → Int

/-- The body of the inner loop of `scr_refresh` (lines 657-672): the calls that
draw the cell `(r, c)`. -/
def refresh_cell (env : render_env) (scr : scroller) (r c : Int) : List swin_call :=
  let in_search : Bool := scr.in_search_mode ∧ scr.search_row = r
    ∧ c ≥ scr.search_col_start ∧ c < scr.search_col_end
  let utf8buf := vterminal_fetch_row scr.vt r c (c + 1)
  let attr := env.cell_attr scr.vt r c
  [swin_call.wmove r c, swin_call.wattron attr]
    ++ (if in_search then [swin_call.wattron env.search_attr] else [])
    ++ [swin_call.waddnstr utf8buf utf8buf.length]
    ++ (if in_search then [swin_call.wattroff env.search_attr] else [])
    ++ [swin_call.wattroff attr, swin_call.wclrtoeol]

/-- The scroll-mode status of `scr_refresh` (lines 677-689), drawn after the cells
of row `r`: `"[delta/sb_num_rows]"`, cut to the 63 characters that fit the buffer;
`status_len < width` compares as `size_t`, hence the `% 2 ^ 64`. -/
def refresh_status (env : render_env) (scr : scroller) (r width delta sb_num_rows : Int) :
    List swin_call :=
  if scr.in_scroll_mode ∧ r = 0 then
    let status : List Char :=
      (("[" ++ toString delta ++ "/" ++ toString sb_num_rows ++ "]").toList).take 63
    let status_len : Nat := status.length
    if (status_len : Int) < width % 2 ^ 64 then
      [swin_call.wattron env.highlight_attr,
       swin_call.mvwprintw r (width - status_len) status,
       swin_call.wattroff env.highlight_attr]
    else []
  else []

/-- The function `scr_refresh`: the session it leaves (it assigns no field of the
session) and the calls it makes on the drawing surface, in order. -/
def scr_refresh (env : render_env) (scr : scroller) (focus : Int) (dorefresh : win_refresh) :
    scroller × List swin_call :=
  let height := (vterminal_get_height_width scr.vt).1
  let width := (vterminal_get_height_width scr.vt).2
  let vterm_cursor_row := (vterminal_get_cursor_pos scr.vt).1
  let vterm_cursor_col := (vterminal_get_cursor_pos scr.vt).2
  let sb_num_rows := vterminal_get_sb_num_rows scr.vt
  let delta := vterminal_scroll_get_delta scr.vt
  let cursor_row := if scr.in_scroll_mode then scr.scroll_cursor_row else vterm_cursor_row
  let cursor_col := if scr.in_scroll_mode then scr.scroll_cursor_col else vterm_cursor_col
  let rows : List swin_call :=
    (List.range height.toNat).flatMap (fun r =>
      ((List.range width.toNat).flatMap (fun c => refresh_cell env scr r c))
        ++ refresh_status env scr r width delta sb_num_rows)
  let cursor : List swin_call :=
    if focus ≠ 0 then [swin_call.wmove cursor_row cursor_col, swin_call.curs_set 1]
    else [swin_call.curs_set 0]
  let refresh : List swin_call :=
    match dorefresh with
    | win_refresh.WIN_NO_REFRESH => [swin_call.wnoutrefresh]
    | win_refresh.WIN_REFRESH => [swin_call.wrefresh]
  (scr, rows ++ cursor ++ refresh)

/-- The session after a sequence of `scr_refresh` calls, each given by its
`focus` and `dorefresh` arguments. -/
def run_refreshes (env : render_env) (scr : scroller) (calls : List (Int × win_refresh)) :
    scroller :=
  calls.foldl (fun s c => (scr_refresh env s c.1 c.2).1) scr

/-- An emulator implementation whose screen is empty, without scrollback, with
the live cursor at (2, 5). -/
def mark_impl : VTermImpl where
  interp := fun _ _ _ => ⟨0, 2, 5, fun _ => []⟩
  clamp := spec_clamp

/-- An emulator implementation that shows the bytes it has been fed as its row 0
(no scrollback, cursor at (0, 0)). -/
def echo_impl : VTermImpl where
  interp := fun _ _ bytes => ⟨0, 0, 0, fun tid => if tid = 0 then bytes else []⟩
  clamp := spec_clamp

/-- The scan order of the forward loop: each call of the primitive after the
first is on the next search id (after `count - 1` comes 0), from column 0. -/
def forward_order (count : Int) (probes : List hl_probe) : Prop :=
  List.Chain' (fun a b => b.sid = (if a.sid + 1 ≥ count then 0 else a.sid + 1) ∧ b.col = 0)
    probes

/-- The visibility test of both scans (lines 293-294 and 418-419): the search id
`search_row` is inside the window shown under `delta`. -/
def in_view (count height delta search_row : Int) : Prop :=
  count - delta - height ≤ search_row ∧ search_row < count - delta

instance (count height delta search_row : Int) :
    Decidable (in_view count height delta search_row) := by
  unfold in_view; infer_instance

/-- The viewport row a search call leaves recorded for its match: the match row
field after a preview, the scroll cursor row after a commit (which clears the
match row field). -/
def recorded_row (opt : Int) (scr : scroller) : Int :=
  if opt = 2 then scr.scroll_cursor_row else scr.search_row

/-- Modelled from the spec: the terminal id whose text `vterminal_fetch_row`
returns for viewport row `row`, that is `row − delta` under the emulator's
current delta (§4.1: the row passed for a search id is `sid − S + delta`, and the
terminal id of that search id is `sid − S`). -/
def fetched_tid (vt : VTerminal) (row : Int) : Int := row - vt.delta

/-- A call of the primitive stays in range for the session `scr` a scan was
entered with: its search id is one of `0 .. count-1`; the viewport row passed to
the emulator for it, `sid − S + delta`, is fetched from the terminal id `sid − S`,
which is one of `-S .. H-1`; and its start column is one of `0 .. W`. -/
def probe_in_range (scr : scroller) (p : hl_probe) : Prop :=
  0 ≤ p.sid
  ∧ p.sid ≤ vterminal_get_sb_num_rows scr.vt + (vterminal_get_height_width scr.vt).1 - 1
  ∧ fetched_tid scr.vt (cursor_row_from_sid p.sid (vterminal_get_sb_num_rows scr.vt)
        (vterminal_scroll_get_delta scr.vt)) = p.sid - vterminal_get_sb_num_rows scr.vt
  ∧ -(vterminal_get_sb_num_rows scr.vt) ≤ p.sid - vterminal_get_sb_num_rows scr.vt
  ∧ p.sid - vterminal_get_sb_num_rows scr.vt ≤ (vterminal_get_height_width scr.vt).1 - 1
  ∧ 0 ≤ p.col ∧ p.col ≤ (vterminal_get_height_width scr.vt).2

instance (scr : scroller) (p : hl_probe) : Decidable (probe_in_range scr p) := by
  unfold probe_in_range; infer_instance

/-! ## The two scan loops -/

theorem forward_loop_spec (hl : HlRegex) (regex : List Char)
    (icase w S H W count delta : Int) :
    ∀ (fuel : Nat) (scr : scroller) (row col : Int) (o : search_outcome),
      forward_loop hl regex icase w S H W count delta fuel scr row col = some o →
      ∃ (pre : List hl_probe) (p : hl_probe) (info : Option hl_regex_info),
        o.probes = pre ++ [p] ∧ o.result = p.result ∧ (∀ q ∈ pre, ¬ 0 < q.result)
        ∧ (0 < p.result → o.scr = matched_state scr info count H S delta
              p.sid (p.start + p.col) (p.end_ + p.col))
        ∧ (¬ 0 < p.result → o.scr = { scr with hlregex := info }) := by
  intro fuel
  induction fuel with
  | zero => intro scr row col o h; simp [forward_loop] at h
  | succ n ih =>
    intro scr row col o h
    rw [forward_loop] at h
    simp only at h
    generalize hl.search scr.hlregex
      (vterminal_fetch_row scr.vt (cursor_row_from_sid row S delta) col W) regex icase = r at h
    split_ifs at h with h1 h2 h3
    · cases h
      exact ⟨[], _, _, rfl, rfl, by simp, fun _ => rfl, fun hn => absurd h1 hn⟩
    · cases h
      exact ⟨[], _, _, rfl, rfl, by simp, fun hp => absurd hp h1, fun _ => rfl⟩
    · cases h
      exact ⟨[], _, _, rfl, rfl, by simp, fun hp => absurd hp h1, fun _ => rfl⟩
    all_goals
      split at h
      · simp at h
      · rename_i o2 hrec
        simp only [Option.some.injEq] at h
        subst h
        obtain ⟨pre, p, info, hp, hr, hpre, hm, hn⟩ := ih _ _ _ _ hrec
        refine ⟨probe_of row col r :: pre, p, info, ?_, hr, ?_, ?_, ?_⟩
        · simp [hp]
        · intro q hq
          rcases List.mem_cons.mp hq with rfl | hq
          · exact h1
          · exact hpre q hq
        · intro hp0; exact hm hp0
        · intro hp0; exact hn hp0

theorem forward_steps_pos (w count sid0 row col : Int)
    (h0 : 0 ≤ sid0) (hr : row < count) :
    1 ≤ forward_steps w count sid0 row col := by
  unfold forward_steps
  split_ifs <;> omega

theorem forward_steps_stop (w count sid0 row col : Int)
    (hstop : (w ≠ 0 ∧ row = sid0 ∧ col = 0) ∨ (w = 0 ∧ row = count - 1)) :
    forward_steps w count sid0 row col = 1 := by
  unfold forward_steps
  rcases hstop with ⟨h1, h2, h3⟩ | ⟨h1, h2⟩
  · split_ifs <;> omega
  · split_ifs
    omega

theorem forward_steps_next (w count sid0 row col : Int)
    (h0 : 0 ≤ sid0) (h1 : sid0 < count) (hr0 : 0 ≤ row) (hr : row < count)
    (h2 : ¬ (w ≠ 0 ∧ row = sid0 ∧ col = 0)) (h3 : ¬ (w = 0 ∧ row = count - 1)) :
    forward_steps w count sid0 (if row + 1 ≥ count then 0 else row + 1) 0 + 1
      = forward_steps w count sid0 row col := by
  unfold forward_steps
  by_cases hw : w = 0
  · have hne : row ≠ count - 1 := fun h => h3 ⟨hw, h⟩
    simp only [hw, if_true]
    split_ifs <;> omega
  · simp only [hw, if_false, if_true]
    by_cases hc : col = 0
    · have hne : row ≠ sid0 := fun h => h2 ⟨hw, h, hc⟩
      simp only [hc, if_true]
      split_ifs <;> omega
    · simp only [hc, if_false]
      split_ifs <;> omega

theorem forward_loop_total (hl : HlRegex) (regex : List Char)
    (icase w S H W count delta sid0 : Int) (h0 : 0 ≤ sid0) (h1 : sid0 < count) :
    ∀ (fuel : Nat) (scr : scroller) (row col : Int),
      scr.search_sid_init = sid0 → 0 ≤ row → row < count →
      forward_steps w count sid0 row col ≤ fuel →
      ∃ o, forward_loop hl regex icase w S H W count delta fuel scr row col = some o
        ∧ o.probes.length ≤ forward_steps w count sid0 row col
        ∧ (¬ 0 < o.result → o.probes.length = forward_steps w count sid0 row col)
        ∧ (∀ p ∈ o.probes, 0 ≤ p.sid ∧ p.sid < count) := by
  intro fuel
  induction fuel with
  | zero =>
    intro scr row col _ _ hr hf
    have := forward_steps_pos w count sid0 row col h0 hr
    omega
  | succ n ih =>
    intro scr row col hsid hr0 hr hf
    have hpos := forward_steps_pos w count sid0 row col h0 hr
    rw [forward_loop]
    simp only
    by_cases hm : (hl.search scr.hlregex
        (vterminal_fetch_row scr.vt (cursor_row_from_sid row S delta) col W) regex icase).result > 0
    · rw [if_pos hm]
      refine ⟨_, rfl, ?_, ?_, ?_⟩
      · simpa using hpos
      · intro hn; exact absurd hm hn
      · intro p hp
        simp only [List.mem_singleton] at hp
        subst hp
        exact ⟨hr0, hr⟩
    · rw [if_neg hm]
      by_cases h2 : w ≠ 0 ∧ row = scr.search_sid_init ∧ col = 0
      · rw [if_pos h2]
        have hs := forward_steps_stop w count sid0 row col (Or.inl (hsid ▸ h2))
        refine ⟨_, rfl, ?_, ?_, ?_⟩
        · simp [hs]
        · intro _; simp [hs]
        · intro p hp
          simp only [List.mem_singleton] at hp
          subst hp
          exact ⟨hr0, hr⟩
      · rw [if_neg h2]
        by_cases h3 : w = 0 ∧ row = count - 1
        · rw [if_pos h3]
          have hs := forward_steps_stop w count sid0 row col (Or.inr h3)
          refine ⟨_, rfl, ?_, ?_, ?_⟩
          · simp [hs]
          · intro _; simp [hs]
          · intro p hp
            simp only [List.mem_singleton] at hp
            subst hp
            exact ⟨hr0, hr⟩
        · rw [if_neg h3]
          have hnext := forward_steps_next w count sid0 row col h0 h1 hr0 hr
            (hsid ▸ h2) h3
          have hv : 0 ≤ (if row + 1 ≥ count then 0 else row + 1)
              ∧ (if row + 1 ≥ count then 0 else row + 1) < count := by
            split_ifs <;> omega
          obtain ⟨o2, ho2, hlen, hex, hin⟩ := ih
            { scr with hlregex := (hl.search scr.hlregex
                (vterminal_fetch_row scr.vt (cursor_row_from_sid row S delta) col W)
                regex icase).info }
            (if row + 1 ≥ count then 0 else row + 1) 0 hsid hv.1 hv.2 (by omega)
          rw [ho2]
          refine ⟨_, rfl, ?_, ?_, ?_⟩
          · simp only [List.length_cons]; omega
          · intro hn
            simp only [List.length_cons]
            have := hex hn
            omega
          · intro p hp
            rcases List.mem_cons.mp hp with rfl | hp
            · exact ⟨hr0, hr⟩
            · exact hin p hp

theorem backward_row_loop_spec (hl : HlRegex) (regex : List Char) (icase : Int)
    (vt : VTerminal) (vfr W row col : Int) :
    ∀ (fuel : Nat) (c : Int) (info : Option hl_regex_info) (rm start end_ : Int)
      (rs : row_scan),
      backward_row_loop hl regex icase vt vfr W row col fuel c info rm start end_ = some rs →
      (∀ q ∈ rs.probes, q.sid = row)
      ∧ ((rs.regex_matched = rm ∧ rs.start = start ∧ rs.end_ = end_ ∧ ∃ q, rs.probes = [q])
        ∨ (rs.regex_matched = 1 ∧ ∃ (pre : List hl_probe) (p q : hl_probe),
            rs.probes = pre ++ [p, q] ∧ p.result = 1 ∧ p.col + p.start ≤ col
            ∧ rs.start = p.col + p.start ∧ rs.end_ = p.col + p.end_)) := by
  intro fuel
  induction fuel with
  | zero => intro c info rm start end_ rs h; simp [backward_row_loop] at h
  | succ n ih =>
    intro c info rm start end_ rs h
    rw [backward_row_loop] at h
    simp only at h
    generalize hl.search info (vterminal_fetch_row vt vfr c W) regex icase = r at h
    split_ifs at h with h1
    · split at h
      · simp at h
      · rename_i rs2 hrec
        simp only [Option.some.injEq] at h
        subst h
        obtain ⟨hsid, hcase⟩ := ih _ _ _ _ _ _ hrec
        refine ⟨?_, Or.inr ?_⟩
        · intro q hq
          rcases List.mem_cons.mp hq with rfl | hq
          · rfl
          · exact hsid q hq
        · rcases hcase with ⟨hm, hs, he, q, hq⟩ | ⟨hm, pre, p, q, hp, hres, hle, hs, he⟩
          · exact ⟨hm, [], probe_of row c r, q, by simp [hq], h1.1, h1.2, hs, he⟩
          · exact ⟨hm, probe_of row c r :: pre, p, q, by simp [hp], hres, hle, hs, he⟩
    · cases h
      refine ⟨?_, Or.inl ⟨rfl, rfl, rfl, _, rfl⟩⟩
      intro q hq
      simp only [List.mem_singleton] at hq
      subst hq
      rfl

theorem backward_loop_spec (hl : HlRegex) (regex : List Char)
    (icase w S H W count delta : Int) (row_fuel : Nat) :
    ∀ (fuel : Nat) (scr : scroller) (row col : Int) (o : search_outcome),
      backward_loop hl regex icase w S H W count delta row_fuel fuel scr 0 row col = some o →
      o.probes ≠ [] ∧
      ((o.result = 0 ∧ ∃ info, o.scr = { scr with hlregex := info })
      ∨ (o.result = 1 ∧ ∃ (pre : List hl_probe) (p q : hl_probe) (info : Option hl_regex_info),
          o.probes = pre ++ [p, q] ∧ p.result = 1
          ∧ o.scr = matched_state scr info count H S delta p.sid
              (p.col + p.start) (p.col + p.end_))) := by
  intro fuel
  induction fuel with
  | zero => intro scr row col o h; simp [backward_loop] at h
  | succ n ih =>
    intro scr row col o h
    rw [backward_loop] at h
    simp only at h
    split at h
    · simp at h
    · rename_i rs hrow
      obtain ⟨hsid, hcase⟩ := backward_row_loop_spec hl regex icase scr.vt _ W row col
        _ _ _ _ _ _ rs hrow
      have hne : rs.probes ≠ [] := by
        rcases hcase with ⟨_, _, _, q, hq⟩ | ⟨_, pre, p, q, hp, _⟩
        · simp [hq]
        · simp [hp]
      by_cases hm : rs.regex_matched > 0
      · rw [if_pos hm] at h
        cases h
        refine ⟨hne, Or.inr ?_⟩
        rcases hcase with ⟨hz, _⟩ | ⟨h1, pre, p, q, hp, hres, hle, hs, he⟩
        · omega
        · refine ⟨h1, pre, p, q, rs.info, hp, hres, ?_⟩
          have hps : p.sid = row := hsid p (by simp [hp])
          simp only [matched_state, hps, hs, he]
      · rw [if_neg hm] at h
        have hz : rs.regex_matched = 0 := by
          rcases hcase with ⟨hz, _⟩ | ⟨h1, _⟩
          · exact hz
          · omega
        split_ifs at h with h2 h3 h4
        · cases h
          exact ⟨hne, Or.inl ⟨hz, _, rfl⟩⟩
        · cases h
          exact ⟨hne, Or.inl ⟨hz, _, rfl⟩⟩
        all_goals
          split at h
          · simp at h
          · rename_i o2 hrec
            simp only [Option.some.injEq] at h
            subst h
            rw [hz] at hrec
            obtain ⟨hne2, hc2⟩ := ih _ _ _ _ hrec
            refine ⟨by simp [hne], ?_⟩
            rcases hc2 with ⟨hr, info, hscr⟩ | ⟨hr, pre, p, q, info, hp, hres, hscr⟩
            · exact Or.inl ⟨hr, info, hscr⟩
            · exact Or.inr ⟨hr, rs.probes ++ pre, p, q, info, by simp [hp], hres, hscr⟩

theorem backward_steps_pos (w W count sid0 row col : Int)
    (h1 : sid0 < count) (hr0 : 0 ≤ row) :
    1 ≤ backward_steps w W count sid0 row col := by
  unfold backward_steps
  split_ifs <;> omega

theorem backward_steps_next (w W count sid0 row col : Int)
    (h0 : 0 ≤ sid0) (h1 : sid0 < count) (hr0 : 0 ≤ row) (hr : row < count)
    (h2 : ¬ (w ≠ 0 ∧ row = sid0 ∧ col = W - 1)) (h3 : ¬ (w = 0 ∧ row = 0)) :
    backward_steps w W count sid0 (if row - 1 < 0 then count - 1 else row - 1) (W - 1) + 1
      = backward_steps w W count sid0 row col := by
  unfold backward_steps
  by_cases hw : w = 0
  · have hne : row ≠ 0 := fun h => h3 ⟨hw, h⟩
    simp only [hw, if_true]
    split_ifs
    · omega
    · omega
  · simp only [hw, if_false, if_true]
    by_cases hc : col = W - 1
    · have hne : row ≠ sid0 := fun h => h2 ⟨hw, h, hc⟩
      simp only [hc, if_true]
      split_ifs <;> omega
    · simp only [hc, if_false]
      split_ifs <;> omega

theorem backward_loop_total (hl : HlRegex) (regex : List Char)
    (icase w S H W count delta sid0 : Int) (row_fuel : Nat) (vt : VTerminal)
    (h0 : 0 ≤ sid0) (h1 : sid0 < count) (B : Int) (hB : W - 1 ≤ B)
    (hrow : ∀ (info : Option hl_regex_info) (row col : Int), col ≤ B → ∃ rs,
      backward_row_loop hl regex icase vt (cursor_row_from_sid row S delta) W row col
        row_fuel 0 info 0 0 0 = some rs) :
    ∀ (fuel : Nat) (scr : scroller) (row col : Int),
      scr.vt = vt → scr.search_sid_init = sid0 → 0 ≤ row → row < count → col ≤ B →
      backward_steps w W count sid0 row col ≤ fuel →
      ∃ o, backward_loop hl regex icase w S H W count delta row_fuel fuel scr 0 row col = some o
        ∧ (∀ p ∈ o.probes, 0 ≤ p.sid ∧ p.sid < count) := by
  intro fuel
  induction fuel with
  | zero =>
    intro scr row col _ _ hr0 _ _ hf
    have := backward_steps_pos w W count sid0 row col h1 hr0
    omega
  | succ n ih =>
    intro scr row col hvt hsid hr0 hr hcB hf
    subst hvt
    obtain ⟨rs, hrs⟩ := hrow scr.hlregex row col hcB
    obtain ⟨hpsid, hcase⟩ := backward_row_loop_spec hl regex icase scr.vt _ W row col
      _ _ _ _ _ _ rs hrs
    have hin : ∀ p ∈ rs.probes, 0 ≤ p.sid ∧ p.sid < count := by
      intro p hp
      rw [hpsid p hp]
      exact ⟨hr0, hr⟩
    rw [backward_loop]
    simp only
    rw [hrs]
    simp only
    by_cases hm : rs.regex_matched > 0
    · rw [if_pos hm]
      exact ⟨_, rfl, hin⟩
    · rw [if_neg hm]
      have hz : rs.regex_matched = 0 := by
        rcases hcase with ⟨hz, _⟩ | ⟨h1, _⟩
        · exact hz
        · omega
      by_cases h2 : w ≠ 0 ∧ row = scr.search_sid_init ∧ col = W - 1
      · rw [if_pos h2]
        exact ⟨_, rfl, hin⟩
      · rw [if_neg h2]
        by_cases h3 : w = 0 ∧ row = 0
        · rw [if_pos h3]
          exact ⟨_, rfl, hin⟩
        · rw [if_neg h3]
          have hnext := backward_steps_next w W count sid0 row col h0 h1 hr0 hr
            (hsid ▸ h2) h3
          have hv : 0 ≤ (if row - 1 < 0 then count - 1 else row - 1)
              ∧ (if row - 1 < 0 then count - 1 else row - 1) < count := by
            split_ifs <;> omega
          obtain ⟨o2, ho2, hin2⟩ := ih { scr with hlregex := rs.info }
            (if row - 1 < 0 then count - 1 else row - 1) (W - 1) rfl hsid hv.1 hv.2 hB (by omega)
          rw [hz, ho2]
          refine ⟨_, rfl, ?_⟩
          intro p hp
          rcases List.mem_append.mp hp with hp | hp
          · exact hin p hp
          · exact hin2 p hp
theorem forward_loop_probes (hl : HlRegex) (regex : List Char)
    (icase w S H W count delta : Int) :
    ∀ (fuel : Nat) (scr : scroller) (row col : Int) (o : search_outcome),
      forward_loop hl regex icase w S H W count delta fuel scr row col = some o →
      ∀ p ∈ o.probes, ∃ info, p = probe_of p.sid p.col
        (hl.search info (vterminal_fetch_row scr.vt (cursor_row_from_sid p.sid S delta) p.col W)
          regex icase) := by
  intro fuel
  induction fuel with
  | zero => intro scr row col o h; simp [forward_loop] at h
  | succ n ih =>
    intro scr row col o h
    rw [forward_loop] at h
    simp only at h
    have hthis : ∃ info, probe_of row col (hl.search scr.hlregex
        (vterminal_fetch_row scr.vt (cursor_row_from_sid row S delta) col W) regex icase)
        = probe_of (probe_of row col (hl.search scr.hlregex
        (vterminal_fetch_row scr.vt (cursor_row_from_sid row S delta) col W) regex icase)).sid
          (probe_of row col (hl.search scr.hlregex
        (vterminal_fetch_row scr.vt (cursor_row_from_sid row S delta) col W) regex icase)).col
          (hl.search info (vterminal_fetch_row scr.vt (cursor_row_from_sid
            (probe_of row col (hl.search scr.hlregex
        (vterminal_fetch_row scr.vt (cursor_row_from_sid row S delta) col W) regex icase)).sid
            S delta) (probe_of row col (hl.search scr.hlregex
        (vterminal_fetch_row scr.vt (cursor_row_from_sid row S delta) col W) regex icase)).col W)
            regex icase) := ⟨scr.hlregex, rfl⟩
    generalize hl.search scr.hlregex
      (vterminal_fetch_row scr.vt (cursor_row_from_sid row S delta) col W) regex icase = r
      at h hthis
    have hsingle : ∀ p ∈ [probe_of row col r], ∃ info, p = probe_of p.sid p.col
        (hl.search info (vterminal_fetch_row scr.vt (cursor_row_from_sid p.sid S delta) p.col W)
          regex icase) := by
      intro p hp
      simp only [List.mem_singleton] at hp
      subst hp
      exact hthis
    split_ifs at h with h1 h2 h3
    · cases h; exact hsingle
    · cases h; exact hsingle
    · cases h; exact hsingle
    all_goals
      split at h
      · simp at h
      · rename_i o2 hrec
        simp only [Option.some.injEq] at h
        subst h
        intro p hp
        rcases List.mem_cons.mp hp with rfl | hp
        · exact hthis
        · exact ih _ _ _ _ hrec p hp

theorem backward_row_loop_probes (hl : HlRegex) (regex : List Char) (icase : Int)
    (vt : VTerminal) (vfr W row col : Int) :
    ∀ (fuel : Nat) (c : Int) (info : Option hl_regex_info) (rm start end_ : Int)
      (rs : row_scan),
      backward_row_loop hl regex icase vt vfr W row col fuel c info rm start end_ = some rs →
      ∀ p ∈ rs.probes, ∃ info2, p = probe_of row p.col
        (hl.search info2 (vterminal_fetch_row vt vfr p.col W) regex icase) := by
  intro fuel
  induction fuel with
  | zero => intro c info rm start end_ rs h; simp [backward_row_loop] at h
  | succ n ih =>
    intro c info rm start end_ rs h
    rw [backward_row_loop] at h
    simp only at h
    have hthis : ∃ info2, probe_of row c (hl.search info (vterminal_fetch_row vt vfr c W)
        regex icase) = probe_of row
          (probe_of row c (hl.search info (vterminal_fetch_row vt vfr c W) regex icase)).col
          (hl.search info2 (vterminal_fetch_row vt vfr
            (probe_of row c (hl.search info (vterminal_fetch_row vt vfr c W) regex icase)).col W)
            regex icase) := ⟨info, rfl⟩
    generalize hl.search info (vterminal_fetch_row vt vfr c W) regex icase = r at h hthis
    split_ifs at h with h1
    · split at h
      · simp at h
      · rename_i rs2 hrec
        simp only [Option.some.injEq] at h
        subst h
        intro p hp
        rcases List.mem_cons.mp hp with rfl | hp
        · exact hthis
        · exact ih _ _ _ _ _ _ hrec p hp
    · cases h
      intro p hp
      simp only [List.mem_singleton] at hp
      subst hp
      exact hthis

theorem backward_loop_probes (hl : HlRegex) (regex : List Char)
    (icase w S H W count delta : Int) (row_fuel : Nat) :
    ∀ (fuel : Nat) (scr : scroller) (rm row col : Int) (o : search_outcome),
      backward_loop hl regex icase w S H W count delta row_fuel fuel scr rm row col = some o →
      ∀ p ∈ o.probes, ∃ info, p = probe_of p.sid p.col
        (hl.search info (vterminal_fetch_row scr.vt (cursor_row_from_sid p.sid S delta) p.col W)
          regex icase) := by
  intro fuel
  induction fuel with
  | zero => intro scr rm row col o h; simp [backward_loop] at h
  | succ n ih =>
    intro scr rm row col o h
    rw [backward_loop] at h
    simp only at h
    split at h
    · simp at h
    · rename_i rs hrow
      have hsid := (backward_row_loop_spec hl regex icase scr.vt _ W row col
        _ _ _ _ _ _ rs hrow).1
      have hpr := backward_row_loop_probes hl regex icase scr.vt _ W row col
        _ _ _ _ _ _ rs hrow
      have hrs : ∀ p ∈ rs.probes, ∃ info, p = probe_of p.sid p.col
          (hl.search info (vterminal_fetch_row scr.vt (cursor_row_from_sid p.sid S delta) p.col W)
            regex icase) := by
        intro p hp
        obtain ⟨info2, h2⟩ := hpr p hp
        refine ⟨info2, ?_⟩
        rw [hsid p hp]
        exact h2
      split_ifs at h with h1 h2 h3
      · cases h; exact hrs
      · cases h; exact hrs
      · cases h; exact hrs
      all_goals
        split at h
        · simp at h
        · rename_i o2 hrec
          simp only [Option.some.injEq] at h
          subst h
          intro p hp
          rcases List.mem_append.mp hp with hp | hp
          · exact hrs p hp
          · exact ih _ _ _ _ _ hrec p hp

theorem forward_start_valid (scr : scroller) (w W count : Int)
    (h0 : 0 ≤ scr.search_sid_init) (h1 : scr.search_sid_init < count) :
    0 ≤ (forward_start scr W count).1 ∧ (forward_start scr W count).1 < count
    ∧ (forward_steps w count scr.search_sid_init (forward_start scr W count).1
        (forward_start scr W count).2 : Int) ≤ count + 1
    ∧ (w ≠ 0 → 0 ≤ scr.search_col_init →
        (forward_steps w count scr.search_sid_init (forward_start scr W count).1
          (forward_start scr W count).2 : Int)
          = if scr.search_col_init < W - 1 then count + 1 else count) := by
  unfold forward_start forward_steps
  simp only
  by_cases hc : scr.search_col_init < W - 1
  · simp only [hc, if_true]
    refine ⟨h0, h1, ?_, ?_⟩
    · split_ifs <;> omega
    · intro hw hc0
      split_ifs <;> omega
  · simp only [hc, if_false]
    refine ⟨?_, ?_, ?_, ?_⟩
    · split_ifs <;> omega
    · split_ifs <;> omega
    · split_ifs <;> omega
    · intro hw hc0
      split_ifs <;> omega

theorem backward_start_valid (scr : scroller) (w W count : Int)
    (h0 : 0 ≤ scr.search_sid_init) (h1 : scr.search_sid_init < count) :
    0 ≤ (backward_start scr W count).1 ∧ (backward_start scr W count).1 < count
    ∧ (backward_steps w W count scr.search_sid_init (backward_start scr W count).1
        (backward_start scr W count).2 : Int) ≤ count + 1 := by
  unfold backward_start backward_steps
  simp only
  by_cases hc : scr.search_col_init > 0
  · simp only [hc, if_true]
    refine ⟨h0, h1, ?_⟩
    split_ifs <;> omega
  · simp only [hc, if_false]
    refine ⟨?_, ?_, ?_⟩
    · split_ifs <;> omega
    · split_ifs <;> omega
    · split_ifs <;> omega
theorem backward_start_col_le (scr : scroller) (W count : Int) :
    (backward_start scr W count).2 ≤ max (W - 1) (scr.search_col_init - 1) := by
  unfold backward_start
  simp only
  split
  · exact le_max_right _ _
  · exact le_max_left _ _

theorem backward_row_loop_total (hl : HlRegex) (regex : List Char) (icase : Int)
    (vt : VTerminal) (vfr W row col : Int)
    (hstart : ∀ (info : Option hl_regex_info) (c : Int),
      (hl.search info (vterminal_fetch_row vt vfr c W) regex icase).result = 1 →
      0 ≤ (hl.search info (vterminal_fetch_row vt vfr c W) regex icase).start) :
    ∀ (fuel : Nat) (c : Int) (info : Option hl_regex_info) (rm start end_ : Int),
      col + 2 - c ≤ (fuel : Int) → 1 ≤ fuel →
      ∃ rs, backward_row_loop hl regex icase vt vfr W row col fuel c info rm start end_
        = some rs := by
  intro fuel
  induction fuel with
  | zero => intro c info rm start end_ _ h1; omega
  | succ n ih =>
    intro c info rm start end_ hf _
    rw [backward_row_loop]
    simp only
    have hst := hstart info c
    generalize hl.search info (vterminal_fetch_row vt vfr c W) regex icase = r at hst
    by_cases hq : r.result = 1 ∧ c + r.start ≤ col
    · rw [if_pos hq]
      have h0 := hst hq.1
      obtain ⟨rs, hrs⟩ := ih (c + r.start + 1) r.info 1 (c + r.start) (c + r.end_)
        (by push_cast at hf ⊢; omega) (by push_cast at hf; omega)
      rw [hrs]
      exact ⟨_, rfl⟩
    · rw [if_neg hq]
      exact ⟨_, rfl⟩

theorem forward_loop_no_match (hl : HlRegex) (regex : List Char)
    (icase w S H W count delta : Int) (fuel : Nat) (scr : scroller) (row col : Int)
    (o : search_outcome) (hno : reports_no_match hl scr.vt W regex icase)
    (h : forward_loop hl regex icase w S H W count delta fuel scr row col = some o) :
    o.result = 0 ∧ (∀ p ∈ o.probes, p.result = 0)
      ∧ ∃ info, o.scr = { scr with hlregex := info } := by
  have hall : ∀ p ∈ o.probes, p.result = 0 := by
    intro p hp
    obtain ⟨info, hpe⟩ := forward_loop_probes hl regex icase w S H W count delta
      fuel scr row col o h p hp
    rw [hpe]
    exact hno info _ _
  obtain ⟨pre, p, info, hp, hr, _, _, hn⟩ := forward_loop_spec hl regex icase w S H W count
    delta fuel scr row col o h
  have hp0 : p.result = 0 := hall p (by simp [hp])
  exact ⟨by rw [hr, hp0], hall, info, hn (by omega)⟩

theorem backward_row_loop_no_match (hl : HlRegex) (regex : List Char) (icase : Int)
    (vt : VTerminal) (vfr W row col : Int) (hno : reports_no_match hl vt W regex icase)
    (fuel : Nat) (hfuel : 1 ≤ fuel) (c : Int) (info : Option hl_regex_info)
    (rm start end_ : Int) :
    ∃ rs, backward_row_loop hl regex icase vt vfr W row col fuel c info rm start end_
      = some rs := by
  obtain ⟨n, rfl⟩ : ∃ n, fuel = n + 1 := ⟨fuel - 1, by omega⟩
  rw [backward_row_loop]
  simp only
  have h0 := hno info vfr c
  rw [if_neg (by rw [h0]; omega)]
  exact ⟨_, rfl⟩

theorem backward_loop_no_match (hl : HlRegex) (regex : List Char)
    (icase w S H W count delta : Int) (row_fuel fuel : Nat) (scr : scroller) (row col : Int)
    (o : search_outcome) (hno : reports_no_match hl scr.vt W regex icase)
    (h : backward_loop hl regex icase w S H W count delta row_fuel fuel scr 0 row col
      = some o) :
    o.result = 0 ∧ (∀ p ∈ o.probes, p.result = 0)
      ∧ ∃ info, o.scr = { scr with hlregex := info } := by
  have hall : ∀ p ∈ o.probes, p.result = 0 := by
    intro p hp
    obtain ⟨info, hpe⟩ := backward_loop_probes hl regex icase w S H W count delta row_fuel
      fuel scr 0 row col o h p hp
    rw [hpe]
    exact hno info _ _
  obtain ⟨_, hcase⟩ := backward_loop_spec hl regex icase w S H W count delta row_fuel
    fuel scr row col o h
  rcases hcase with ⟨hr, info, hscr⟩ | ⟨_, pre, p, q, info, hp, hres, _⟩
  · exact ⟨hr, hall, info, hscr⟩
  · have := hall p (by simp [hp])
    omega

theorem forward_search_returns (hl : HlRegex) (w : Int) (fuel : Nat) (scr : scroller)
    (regex : List Char) (opt icase : Int)
    (h0 : 0 ≤ scr.search_sid_init)
    (h1 : scr.search_sid_init
      ≤ vterminal_get_sb_num_rows scr.vt + (vterminal_get_height_width scr.vt).1 - 1)
    (hfuel : vterminal_get_sb_num_rows scr.vt + (vterminal_get_height_width scr.vt).1 + 1
      ≤ (fuel : Int)) :
    ∃ o, forward_loop hl regex icase w (vterminal_get_sb_num_rows scr.vt)
          (vterminal_get_height_width scr.vt).1 (vterminal_get_height_width scr.vt).2
          (vterminal_get_sb_num_rows scr.vt + (vterminal_get_height_width scr.vt).1)
          (vterminal_scroll_get_delta scr.vt) fuel scr
          (forward_start scr (vterminal_get_height_width scr.vt).2
            (vterminal_get_sb_num_rows scr.vt + (vterminal_get_height_width scr.vt).1)).1
          (forward_start scr (vterminal_get_height_width scr.vt).2
            (vterminal_get_sb_num_rows scr.vt + (vterminal_get_height_width scr.vt).1)).2
          = some o
      ∧ scr_search_regex_forward hl w fuel scr (some regex) opt icase
          = some ⟨search_commit hl o.scr opt o.result, o.result, o.probes⟩
      ∧ (o.probes.length : Int)
          ≤ vterminal_get_sb_num_rows scr.vt + (vterminal_get_height_width scr.vt).1 + 1
      ∧ (¬ 0 < o.result → w ≠ 0 → 0 ≤ scr.search_col_init →
          (o.probes.length : Int)
            = if scr.search_col_init < (vterminal_get_height_width scr.vt).2 - 1
              then vterminal_get_sb_num_rows scr.vt + (vterminal_get_height_width scr.vt).1 + 1
              else vterminal_get_sb_num_rows scr.vt + (vterminal_get_height_width scr.vt).1)
      ∧ (∀ p ∈ o.probes, 0 ≤ p.sid
          ∧ p.sid < vterminal_get_sb_num_rows scr.vt + (vterminal_get_height_width scr.vt).1) := by
  obtain ⟨hs0, hs1, hsteps, hexact⟩ := forward_start_valid scr w
    (vterminal_get_height_width scr.vt).2
    (vterminal_get_sb_num_rows scr.vt + (vterminal_get_height_width scr.vt).1) h0 (by omega)
  obtain ⟨o, ho, hlen, hex, hin⟩ := forward_loop_total hl regex icase w
    (vterminal_get_sb_num_rows scr.vt) (vterminal_get_height_width scr.vt).1
    (vterminal_get_height_width scr.vt).2
    (vterminal_get_sb_num_rows scr.vt + (vterminal_get_height_width scr.vt).1)
    (vterminal_scroll_get_delta scr.vt) scr.search_sid_init h0 (by omega) fuel scr
    (forward_start scr (vterminal_get_height_width scr.vt).2
      (vterminal_get_sb_num_rows scr.vt + (vterminal_get_height_width scr.vt).1)).1
    (forward_start scr (vterminal_get_height_width scr.vt).2
      (vterminal_get_sb_num_rows scr.vt + (vterminal_get_height_width scr.vt).1)).2
    rfl hs0 hs1 (by omega)
  refine ⟨o, ho, ?_, by omega, ?_, hin⟩
  · unfold scr_search_regex_forward
    simp only
    rw [ho]
  · intro hn hw hc
    rw [← hexact hw hc, hex hn]

theorem backward_search_returns (hl : HlRegex) (w : Int) (fuel : Nat) (scr : scroller)
    (regex : List Char) (opt icase : Int)
    (h0 : 0 ≤ scr.search_sid_init)
    (h1 : scr.search_sid_init
      ≤ vterminal_get_sb_num_rows scr.vt + (vterminal_get_height_width scr.vt).1 - 1)
    (hfuel : vterminal_get_sb_num_rows scr.vt + (vterminal_get_height_width scr.vt).1 + 1
      ≤ (fuel : Int))
    (hrow : ∀ (info : Option hl_regex_info) (row col : Int),
      col ≤ max ((vterminal_get_height_width scr.vt).2 - 1) (scr.search_col_init - 1) → ∃ rs,
      backward_row_loop hl regex icase scr.vt
        (cursor_row_from_sid row (vterminal_get_sb_num_rows scr.vt)
          (vterminal_scroll_get_delta scr.vt))
        (vterminal_get_height_width scr.vt).2 row col fuel 0 info 0 0 0 = some rs) :
    ∃ o, backward_loop hl regex icase w (vterminal_get_sb_num_rows scr.vt)
          (vterminal_get_height_width scr.vt).1 (vterminal_get_height_width scr.vt).2
          (vterminal_get_sb_num_rows scr.vt + (vterminal_get_height_width scr.vt).1)
          (vterminal_scroll_get_delta scr.vt) fuel fuel scr 0
          (backward_start scr (vterminal_get_height_width scr.vt).2
            (vterminal_get_sb_num_rows scr.vt + (vterminal_get_height_width scr.vt).1)).1
          (backward_start scr (vterminal_get_height_width scr.vt).2
            (vterminal_get_sb_num_rows scr.vt + (vterminal_get_height_width scr.vt).1)).2
          = some o
      ∧ scr_search_regex_backwards hl w fuel scr (some regex) opt icase
          = some ⟨search_commit hl o.scr opt o.result, o.result, o.probes⟩
      ∧ (∀ p ∈ o.probes, 0 ≤ p.sid
          ∧ p.sid < vterminal_get_sb_num_rows scr.vt + (vterminal_get_height_width scr.vt).1) := by
  obtain ⟨hs0, hs1, hsteps⟩ := backward_start_valid scr w
    (vterminal_get_height_width scr.vt).2
    (vterminal_get_sb_num_rows scr.vt + (vterminal_get_height_width scr.vt).1) h0 (by omega)
  obtain ⟨o, ho, hin⟩ := backward_loop_total hl regex icase w
    (vterminal_get_sb_num_rows scr.vt) (vterminal_get_height_width scr.vt).1
    (vterminal_get_height_width scr.vt).2
    (vterminal_get_sb_num_rows scr.vt + (vterminal_get_height_width scr.vt).1)
    (vterminal_scroll_get_delta scr.vt) scr.search_sid_init fuel scr.vt h0 (by omega)
    (max ((vterminal_get_height_width scr.vt).2 - 1) (scr.search_col_init - 1))
    (le_max_left _ _) hrow fuel scr
    (backward_start scr (vterminal_get_height_width scr.vt).2
      (vterminal_get_sb_num_rows scr.vt + (vterminal_get_height_width scr.vt).1)).1
    (backward_start scr (vterminal_get_height_width scr.vt).2
      (vterminal_get_sb_num_rows scr.vt + (vterminal_get_height_width scr.vt).1)).2
    rfl rfl hs0 hs1 (backward_start_col_le scr _ _) (by omega)
  refine ⟨o, ho, ?_, hin⟩
  unfold scr_search_regex_backwards
  simp only
  rw [ho]

theorem search_commit_no_match (hl : HlRegex) (scr : scroller)
    (info : Option hl_regex_info) :
    search_commit hl { scr with hlregex := info } 2 0
      = { scr with hlregex := info
                   vt := vterminal_scroll_set_delta scr.vt scr.delta_init
                   search_row := 0
                   search_col_start := 0
                   search_col_end := 0 } := by
  simp [search_commit]

theorem scan_frame_refl (a : scroller) : scan_frame a a := by
  constructor <;> rfl

theorem scan_frame_trans {a b c : scroller} (h1 : scan_frame a b) (h2 : scan_frame b c) :
    scan_frame a c where
  in_scroll_mode := h2.in_scroll_mode.trans h1.in_scroll_mode
  scroll_cursor_row := h2.scroll_cursor_row.trans h1.scroll_cursor_row
  scroll_cursor_col := h2.scroll_cursor_col.trans h1.scroll_cursor_col
  win := h2.win.trans h1.win
  in_search_mode := h2.in_search_mode.trans h1.in_search_mode
  last_hlregex := h2.last_hlregex.trans h1.last_hlregex
  jump_back_mark := h2.jump_back_mark.trans h1.jump_back_mark
  marks := h2.marks.trans h1.marks
  text := h2.text.trans h1.text
  delta_init := h2.delta_init.trans h1.delta_init
  search_sid_init := h2.search_sid_init.trans h1.search_sid_init
  search_col_init := h2.search_col_init.trans h1.search_col_init
  vt_impl := h2.vt_impl.trans h1.vt_impl
  vt_width := h2.vt_width.trans h1.vt_width
  vt_height := h2.vt_height.trans h1.vt_height
  vt_input := h2.vt_input.trans h1.vt_input

theorem scan_frame_handle (scr : scroller) (info : Option hl_regex_info) :
    scan_frame scr { scr with hlregex := info } := by
  constructor <;> rfl

theorem scan_frame_matched (scr : scroller) (info : Option hl_regex_info)
    (count H S delta m s e : Int) :
    scan_frame scr (matched_state scr info count H S delta m s e) := by
  unfold matched_state scroll_into_view
  simp only
  split
  · constructor <;> rfl
  · constructor <;> rfl

theorem scr_search_regex_frame (hl : HlRegex) (w : Int) (fuel : Nat) (scr : scroller)
    (regex : Option (List Char)) (opt direction icase : Int) (out : search_outcome)
    (hopt : opt ≠ 2)
    (h : scr_search_regex hl w fuel scr regex opt direction icase = some out) :
    scan_frame scr out.scr
      ∧ (¬ 0 < out.result → ∃ info, out.scr = { scr with hlregex := info }) := by
  have hcommit : ∀ (s : scroller) (r : Int), search_commit hl s opt r = s := by
    intro s r
    simp [search_commit, hopt]
  unfold scr_search_regex at h
  split_ifs at h with hd
  · unfold scr_search_regex_forward at h
    simp only at h
    cases regex with
    | none =>
      simp only [Option.some.injEq] at h
      subst h
      exact ⟨scan_frame_refl _, fun _ => ⟨scr.hlregex, rfl⟩⟩
    | some re =>
      simp only at h
      split at h
      · simp at h
      · rename_i o ho
        simp only [Option.some.injEq] at h
        subst h
        simp only [hcommit]
        obtain ⟨pre, p, info, hp, hr, _, hm, hn⟩ := forward_loop_spec hl re icase w _ _ _ _ _
          fuel scr _ _ o ho
        by_cases hpos : 0 < p.result
        · rw [hm hpos]
          exact ⟨scan_frame_matched _ _ _ _ _ _ _ _ _, fun hneg => absurd (hr ▸ hpos) hneg⟩
        · rw [hn hpos]
          exact ⟨scan_frame_handle _ _, fun _ => ⟨info, rfl⟩⟩
  · unfold scr_search_regex_backwards at h
    simp only at h
    cases regex with
    | none =>
      simp only [Option.some.injEq] at h
      subst h
      exact ⟨scan_frame_refl _, fun _ => ⟨scr.hlregex, rfl⟩⟩
    | some re =>
      simp only at h
      split at h
      · simp at h
      · rename_i o ho
        simp only [Option.some.injEq] at h
        subst h
        simp only [hcommit]
        obtain ⟨_, hcase⟩ := backward_loop_spec hl re icase w _ _ _ _ _ fuel fuel scr _ _ o ho
        rcases hcase with ⟨hr, info, hscr⟩ | ⟨hr, pre, p, q, info, hp, hres, hscr⟩
        · rw [hscr]
          exact ⟨scan_frame_handle _ _, fun _ => ⟨info, rfl⟩⟩
        · rw [hscr]
          exact ⟨scan_frame_matched _ _ _ _ _ _ _ _ _, fun hneg => by omega⟩

theorem run_searches_frame (hl : HlRegex) :
    ∀ (calls : List search_call) (scr scr1 : scroller),
      (∀ c ∈ calls, c.opt ≠ 2) → run_searches hl scr calls = some scr1 →
      scan_frame scr scr1 := by
  intro calls
  induction calls with
  | nil =>
    intro scr scr1 _ h
    simp only [run_searches, Option.some.injEq] at h
    subst h
    exact scan_frame_refl _
  | cons c cs ih =>
    intro scr scr1 hopt h
    rw [run_searches] at h
    split at h
    · simp at h
    · rename_i o ho
      have h1 := (scr_search_regex_frame hl _ _ scr _ _ _ _ o
        (hopt c (List.mem_cons_self _ _)) ho).1
      have h2 := ih o.scr scr1 (fun c2 hc2 => hopt c2 (List.mem_cons_of_mem _ hc2)) h
      exact scan_frame_trans h1 h2

theorem scr_search_regex_returns (hl : HlRegex) (w : Int) (fuel : Nat) (scr : scroller)
    (regex : List Char) (opt direction icase : Int)
    (h0 : 0 ≤ scr.search_sid_init)
    (h1 : scr.search_sid_init
      ≤ vterminal_get_sb_num_rows scr.vt + (vterminal_get_height_width scr.vt).1 - 1)
    (hstart : ∀ (info : Option hl_regex_info) (line : List Char),
      (hl.search info line regex icase).result = 1 →
      0 ≤ (hl.search info line regex icase).start)
    (hfuel : vterminal_get_sb_num_rows scr.vt + (vterminal_get_height_width scr.vt).1 + 1
      ≤ (fuel : Int))
    (hfuelW : (vterminal_get_height_width scr.vt).2 + 1 ≤ (fuel : Int))
    (hfuelc : scr.search_col_init + 1 ≤ (fuel : Int)) :
    ∃ out, scr_search_regex hl w fuel scr (some regex) opt direction icase = some out
      ∧ (∀ p ∈ out.probes, 0 ≤ p.sid
          ∧ p.sid < vterminal_get_sb_num_rows scr.vt + (vterminal_get_height_width scr.vt).1) := by
  unfold scr_search_regex
  by_cases hd : direction ≠ 0
  · rw [if_pos hd]
    obtain ⟨o, _, hret, _, _, hin⟩ := forward_search_returns hl w fuel scr regex opt icase
      h0 h1 hfuel
    exact ⟨_, hret, hin⟩
  · rw [if_neg hd]
    obtain ⟨o, _, hret, hin⟩ := backward_search_returns hl w fuel scr regex opt icase
      h0 h1 hfuel
      (fun info row col hcol => backward_row_loop_total hl regex icase scr.vt _ _ row col
        (fun info2 c => hstart info2 _) fuel 0 info 0 0 0
        (by
          rcases max_cases ((vterminal_get_height_width scr.vt).2 - 1)
            (scr.search_col_init - 1) with ⟨hmx, _⟩ | ⟨hmx, _⟩
          · rw [hmx] at hcol; omega
          · rw [hmx] at hcol; omega)
        (by omega))
    exact ⟨_, hret, hin⟩


theorem scroll_into_view_snd (scr : scroller) (count H S delta m : Int) :
    (scroll_into_view scr count H S delta m).2 = delta_after_view_check count H S delta m := by
  unfold scroll_into_view delta_after_view_check
  simp only
  split <;> rfl

theorem matched_state_fields (scr : scroller) (info : Option hl_regex_info)
    (count H S delta m s e : Int) :
    (matched_state scr info count H S delta m s e).search_row
        = cursor_row_from_sid m S (delta_after_view_check count H S delta m)
    ∧ (matched_state scr info count H S delta m s e).search_col_start = s
    ∧ (matched_state scr info count H S delta m s e).search_col_end = e
    ∧ (matched_state scr info count H S delta m s e).vt
        = (if count - delta - H ≤ m ∧ m < count - delta then scr.vt
           else vterminal_scroll_set_delta scr.vt (delta_after_view_check count H S delta m)) := by
  refine ⟨?_, rfl, rfl, ?_⟩
  · simp only [matched_state, scroll_into_view_snd]
  · unfold matched_state scroll_into_view delta_after_view_check
    simp only
    split <;> rfl

theorem search_commit_match (hl : HlRegex) (scr : scroller) (r : Int) (hr : r ≠ 0) :
    (search_commit hl scr 2 r).scroll_cursor_row = scr.search_row
    ∧ (search_commit hl scr 2 r).scroll_cursor_col = scr.search_col_start
    ∧ (search_commit hl scr 2 r).search_row = 0
    ∧ (search_commit hl scr 2 r).search_col_start = 0
    ∧ (search_commit hl scr 2 r).search_col_end = 0
    ∧ (search_commit hl scr 2 r).vt = scr.vt := by
  simp [search_commit, hr]


theorem backward_row_loop_rightmost (hl : HlRegex) (regex : List Char) (icase : Int)
    (vt : VTerminal) (vfr W row b : Int) (isMatch : Int → Prop)
    (hleft : ∀ (info : Option hl_regex_info) (c : Int), 0 ≤ c →
      ((hl.search info (vterminal_fetch_row vt vfr c W) regex icase).result = 1
        ∧ 0 ≤ (hl.search info (vterminal_fetch_row vt vfr c W) regex icase).start
        ∧ isMatch (c + (hl.search info (vterminal_fetch_row vt vfr c W) regex icase).start)
        ∧ ∀ k, c ≤ k →
            k < c + (hl.search info (vterminal_fetch_row vt vfr c W) regex icase).start →
            ¬ isMatch k)
      ∨ ((hl.search info (vterminal_fetch_row vt vfr c W) regex icase).result ≠ 1
        ∧ ∀ k, c ≤ k → ¬ isMatch k)) :
    ∀ (fuel : Nat) (c : Int) (info : Option hl_regex_info) (rm start end_ : Int),
      0 ≤ c → b + 2 - c ≤ (fuel : Int) → 1 ≤ fuel →
      (rm = 0 ∨ rm = 1) →
      (rm = 1 → isMatch start ∧ 0 ≤ start ∧ start ≤ b) →
      (∀ k, 0 ≤ k → k < c → isMatch k → rm = 1 ∧ k ≤ start) →
      ∃ rs, backward_row_loop hl regex icase vt vfr W row b fuel c info rm start end_ = some rs
        ∧ (rs.regex_matched = 0 ∨ rs.regex_matched = 1)
        ∧ (rs.regex_matched = 1 → isMatch rs.start ∧ 0 ≤ rs.start ∧ rs.start ≤ b)
        ∧ (∀ k, 0 ≤ k → k ≤ b → isMatch k → rs.regex_matched = 1 ∧ k ≤ rs.start) := by
  intro fuel
  induction fuel with
  | zero => intro c info rm start end_ _ _ h1; omega
  | succ n ih =>
    intro c info rm start end_ hc hf _ hrm hbest hseen
    rw [backward_row_loop]
    simp only
    have hl0 := hleft info c hc
    generalize hl.search info (vterminal_fetch_row vt vfr c W) regex icase = r at hl0
    by_cases hq : r.result = 1 ∧ c + r.start ≤ b
    · rw [if_pos hq]
      rcases hl0 with ⟨_, hs0, hm, hnone⟩ | ⟨hne, _⟩
      · obtain ⟨rs, hrs, p1, p2, p3⟩ := ih (c + r.start + 1) r.info 1 (c + r.start)
          (c + r.end_) (by omega) (by push_cast at hf ⊢; omega) (by push_cast at hf; omega)
          (Or.inr rfl) (fun _ => ⟨hm, by omega, hq.2⟩)
          (fun k _ hk _ => ⟨rfl, by omega⟩)
        rw [hrs]
        exact ⟨_, rfl, p1, p2, p3⟩
      · exact absurd hq.1 hne
    · rw [if_neg hq]
      refine ⟨_, rfl, hrm, hbest, ?_⟩
      intro k hk0 hkb hmk
      by_cases hkc : k < c
      · exact hseen k hk0 hkc hmk
      · exfalso
        rcases hl0 with ⟨hres, hs0, hm, hnone⟩ | ⟨_, hnone⟩
        · have : ¬ (c + r.start ≤ b) := fun h => hq ⟨hres, h⟩
          exact hnone k (by omega) (by omega) hmk
        · exact hnone k (by omega) hmk

theorem scr_search_regex_init_origin (scr : scroller)
    (hrow : 0 ≤ scr.scroll_cursor_row
      ∧ scr.scroll_cursor_row ≤ (vterminal_get_height_width scr.vt).1 - 1)
    (hdelta : 0 ≤ vterminal_scroll_get_delta scr.vt
      ∧ vterminal_scroll_get_delta scr.vt ≤ vterminal_get_sb_num_rows scr.vt) :
    0 ≤ (scr_search_regex_init scr).search_sid_init
    ∧ (scr_search_regex_init scr).search_sid_init
        ≤ vterminal_get_sb_num_rows scr.vt + (vterminal_get_height_width scr.vt).1 - 1 := by
  simp only [scr_search_regex_init, sid_from_cursor_row]
  omega

theorem scr_add_foldl (bs : List (List Char)) :
    ∀ scr : scroller,
      (bs.foldl scr_add scr).text = scr.text ++ bs.flatten
      ∧ (bs.foldl scr_add scr).vt = bs.foldl vterminal_push_bytes scr.vt
      ∧ (bs.foldl scr_add scr).vt.input = scr.vt.input ++ bs.flatten
      ∧ (bs.foldl scr_add scr).vt.impl = scr.vt.impl := by
  induction bs with
  | nil => intro scr; simp
  | cons b rest ih =>
    intro scr
    obtain ⟨h1, h2, h3, h4⟩ := ih (scr_add scr b)
    simp only [List.foldl_cons, List.flatten_cons]
    refine ⟨?_, ?_, ?_, ?_⟩
    · rw [h1]; simp [scr_add]
    · rw [h2]; rfl
    · rw [h3]; simp [scr_add, vterminal_push_bytes]
    · rw [h4]; rfl

theorem vterminal_push_bytes_foldl (bs : List (List Char)) :
    ∀ vt : VTerminal,
      bs.foldl vterminal_push_bytes vt = vterminal_push_bytes vt bs.flatten := by
  induction bs with
  | nil => intro vt; simp [vterminal_push_bytes]
  | cons b rest ih =>
    intro vt
    simp only [List.foldl_cons, List.flatten_cons]
    rw [ih]
    simp [vterminal_push_bytes]


theorem scr_move_replays (scr : scroller) (win : SWINDOW) :
    (scr_move scr win).text = scr.text
    ∧ (scr_move scr win).vt
        = vterminal_push_bytes
            (vterminal_new scr.vt.impl ⟨swin_getmaxx win, swin_getmaxy win⟩) scr.text
    ∧ vterminal_get_height_width (scr_move scr win).vt = (swin_getmaxy win, swin_getmaxx win)
    ∧ (scr_move scr win).vt.input = scr.text := by
  refine ⟨rfl, rfl, rfl, ?_⟩
  simp [scr_move, vterminal_push_bytes, vterminal_new]

theorem history_replay (scr : scroller) (win : SWINDOW) (bs : List (List Char)) :
    (bs.foldl scr_add scr).text = scr.text ++ bs.flatten
    ∧ (bs.foldl scr_add scr).vt = bs.foldl vterminal_push_bytes scr.vt
    ∧ (scr_move (bs.foldl scr_add scr) win).text = scr.text ++ bs.flatten
    ∧ (scr_move (bs.foldl scr_add scr) win).vt
        = vterminal_push_bytes
            (vterminal_new scr.vt.impl ⟨swin_getmaxx win, swin_getmaxy win⟩)
            (scr.text ++ bs.flatten) := by
  obtain ⟨h1, h2, _, h4⟩ := scr_add_foldl bs scr
  obtain ⟨m1, m2, _, _⟩ := scr_move_replays (bs.foldl scr_add scr) win
  exact ⟨h1, h2, by rw [m1, h1], by rw [m2, h1, h4]⟩

theorem run_refreshes_eq (env : render_env) (calls : List (Int × win_refresh)) :
    ∀ scr : scroller, run_refreshes env scr calls = scr := by
  induction calls with
  | nil => intro scr; rfl
  | cons c rest ih =>
    intro scr
    simp only [run_refreshes, List.foldl_cons]
    exact ih _


theorem scr_search_regex_outcome (hl : HlRegex) (w : Int) (fuel : Nat) (scr : scroller)
    (regex : Option (List Char)) (opt direction icase : Int) (out : search_outcome)
    (h : scr_search_regex hl w fuel scr regex opt direction icase = some out) :
    (regex = none ∧ out.scr = scr ∧ out.result = 0 ∧ out.probes = [])
    ∨ (regex ≠ none ∧ ∃ st : scroller, out.scr = search_commit hl st opt out.result
        ∧ ((¬ 0 < out.result ∧ (∃ info, st = { scr with hlregex := info })
              ∧ (direction = 0 → out.result = 0)
              ∧ (∃ (pre : List hl_probe) (p : hl_probe), out.probes = pre ++ [p]
                  ∧ (direction ≠ 0 → out.result = p.result)))
          ∨ (0 < out.result ∧ ∃ (pre post : List hl_probe) (p : hl_probe)
                (info : Option hl_regex_info),
              out.probes = pre ++ p :: post ∧ 0 < p.result
              ∧ (direction ≠ 0 → post = [] ∧ ∀ q ∈ pre, ¬ 0 < q.result)
              ∧ (direction = 0 → ∃ q, post = [q])
              ∧ st = matched_state scr info
                  (vterminal_get_sb_num_rows scr.vt + (vterminal_get_height_width scr.vt).1)
                  (vterminal_get_height_width scr.vt).1 (vterminal_get_sb_num_rows scr.vt)
                  (vterminal_scroll_get_delta scr.vt) p.sid (p.start + p.col)
                  (p.end_ + p.col)))) := by
  unfold scr_search_regex at h
  split_ifs at h with hd
  · unfold scr_search_regex_forward at h
    simp only at h
    cases regex with
    | none =>
      simp only [Option.some.injEq] at h
      subst h
      exact Or.inl ⟨rfl, rfl, rfl, rfl⟩
    | some re =>
      simp only at h
      split at h
      · simp at h
      · rename_i o ho
        simp only [Option.some.injEq] at h
        subst h
        obtain ⟨pre, p, info, hp, hr, hpre, hm, hn⟩ := forward_loop_spec hl re icase w _ _ _ _ _
          fuel scr _ _ o ho
        refine Or.inr ⟨by simp, o.scr, rfl, ?_⟩
        by_cases hpos : 0 < p.result
        · exact Or.inr ⟨hr ▸ hpos, pre, [], p, info, hp, hpos, fun _ => ⟨rfl, hpre⟩,
            fun h0 => absurd h0 hd, hm hpos⟩
        · exact Or.inl ⟨hr ▸ hpos, ⟨info, hn hpos⟩, fun h0 => absurd h0 hd,
            pre, p, hp, fun _ => hr⟩
  · have hdir : direction = 0 := by
      by_contra hne
      exact hd hne
    unfold scr_search_regex_backwards at h
    simp only at h
    cases regex with
    | none =>
      simp only [Option.some.injEq] at h
      subst h
      exact Or.inl ⟨rfl, rfl, rfl, rfl⟩
    | some re =>
      simp only at h
      split at h
      · simp at h
      · rename_i o ho
        simp only [Option.some.injEq] at h
        subst h
        obtain ⟨hne, hcase⟩ := backward_loop_spec hl re icase w _ _ _ _ _ fuel fuel scr _ _ o ho
        refine Or.inr ⟨by simp, o.scr, rfl, ?_⟩
        rcases hcase with ⟨hr, info, hscr⟩ | ⟨hr, pre, p, q, info, hp, hres, hscr⟩
        · refine Or.inl ⟨by simp only; omega, ⟨info, hscr⟩, fun _ => hr, ?_⟩
          obtain ⟨pre, p, hp⟩ : ∃ pre p, o.probes = pre ++ [p] :=
            ⟨o.probes.dropLast, o.probes.getLast hne, (List.dropLast_append_getLast hne).symm⟩
          exact ⟨pre, p, hp, fun h0 => absurd hdir h0⟩
        · refine Or.inr ⟨by simp only; omega, pre, [q], p, info, hp, by omega,
            fun h0 => absurd hdir h0, fun _ => ⟨q, rfl⟩, ?_⟩
          rw [hscr, add_comm p.col p.start, add_comm p.col p.end_]

theorem search_commit_frame (hl : HlRegex) (st : scroller) (opt r : Int) :
    (search_commit hl st opt r).in_search_mode = st.in_search_mode
    ∧ (search_commit hl st opt r).in_scroll_mode = st.in_scroll_mode
    ∧ (search_commit hl st opt r).delta_init = st.delta_init
    ∧ (search_commit hl st opt r).search_sid_init = st.search_sid_init
    ∧ (search_commit hl st opt r).search_col_init = st.search_col_init
    ∧ (search_commit hl st opt r).marks = st.marks
    ∧ (search_commit hl st opt r).text = st.text := by
  unfold search_commit
  split
  · simp only
    split <;> exact ⟨rfl, rfl, rfl, rfl, rfl, rfl, rfl⟩
  · exact ⟨rfl, rfl, rfl, rfl, rfl, rfl, rfl⟩

theorem search_commit_clears (hl : HlRegex) (st : scroller) (r : Int) :
    (search_commit hl st 2 r).search_row = 0
    ∧ (search_commit hl st 2 r).search_col_start = 0
    ∧ (search_commit hl st 2 r).search_col_end = 0 := by
  simp [search_commit]

theorem search_commit_preview (hl : HlRegex) (st : scroller) (opt r : Int) (hopt : opt ≠ 2) :
    search_commit hl st opt r = st := by
  simp [search_commit, hopt]


theorem search_commit_zero_result (hl : HlRegex) (st : scroller) (opt : Int) :
    (search_commit hl st opt 0).scroll_cursor_row = st.scroll_cursor_row
    ∧ (search_commit hl st opt 0).scroll_cursor_col = st.scroll_cursor_col := by
  unfold search_commit
  split
  · simp
  · exact ⟨rfl, rfl⟩

theorem search_without_match (hl : HlRegex) (w : Int) (fuel : Nat) (scr : scroller)
    (regex : Option (List Char)) (opt direction icase : Int) (out : search_outcome)
    (h : scr_search_regex hl w fuel scr regex opt direction icase = some out)
    (hno : ¬ 0 < out.result) :
    (regex = none → out.scr = scr ∧ out.result = 0)
    ∧ (direction = 0 → out.result = 0)
    ∧ (out.result = 0 →
        out.scr.scroll_cursor_row = scr.scroll_cursor_row
        ∧ out.scr.scroll_cursor_col = scr.scroll_cursor_col) := by
  rcases scr_search_regex_outcome hl w fuel scr regex opt direction icase out h with
    ⟨hnone, hscr, hr, _⟩ | ⟨hsome, st, hst, hcase⟩
  · exact ⟨fun _ => ⟨hscr, hr⟩, fun _ => hr, fun _ => by rw [hscr]; exact ⟨rfl, rfl⟩⟩
  · rcases hcase with ⟨_, ⟨info, hinfo⟩, hback, _⟩ | ⟨hpos, _⟩
    · refine ⟨fun hn => absurd hn hsome, hback, ?_⟩
      intro hz
      rw [hst, hz]
      obtain ⟨c1, c2⟩ := search_commit_zero_result hl st opt
      rw [c1, c2, hinfo]
      exact ⟨rfl, rfl⟩
    · exact absurd hpos hno


theorem forward_loop_order (hl : HlRegex) (regex : List Char)
    (icase w S H W count delta : Int) :
    ∀ (fuel : Nat) (scr : scroller) (row col : Int) (o : search_outcome),
      forward_loop hl regex icase w S H W count delta fuel scr row col = some o →
      (∃ (p : hl_probe) (rest : List hl_probe), o.probes = p :: rest ∧ p.sid = row ∧ p.col = col)
      ∧ forward_order count o.probes := by
  intro fuel
  induction fuel with
  | zero => intro scr row col o h; simp [forward_loop] at h
  | succ n ih =>
    intro scr row col o h
    rw [forward_loop] at h
    simp only at h
    generalize hl.search scr.hlregex
      (vterminal_fetch_row scr.vt (cursor_row_from_sid row S delta) col W) regex icase = r at h
    have hsingle : (∃ (p : hl_probe) (rest : List hl_probe),
        [probe_of row col r] = p :: rest ∧ p.sid = row ∧ p.col = col)
        ∧ forward_order count [probe_of row col r] :=
      ⟨⟨_, [], rfl, rfl, rfl⟩, List.chain'_singleton _⟩
    by_cases h1 : r.result > 0
    · rw [if_pos h1] at h
      cases h
      exact hsingle
    · rw [if_neg h1] at h
      by_cases h2 : w ≠ 0 ∧ row = scr.search_sid_init ∧ col = 0
      · rw [if_pos h2] at h
        cases h
        exact hsingle
      · rw [if_neg h2] at h
        by_cases h3 : w = 0 ∧ row = count - 1
        · rw [if_pos h3] at h
          cases h
          exact hsingle
        · rw [if_neg h3] at h
          split at h
          · simp at h
          · rename_i o2 hrec
            simp only [Option.some.injEq] at h
            subst h
            obtain ⟨⟨p2, rest2, hp2, hsid2, hcol2⟩, hch⟩ := ih _ _ _ _ hrec
            refine ⟨⟨probe_of row col r, o2.probes, rfl, rfl, rfl⟩, ?_⟩
            unfold forward_order at hch ⊢
            simp only
            rw [hp2] at hch ⊢
            refine List.Chain'.cons ?_ hch
            exact ⟨hsid2, hcol2⟩


theorem scr_search_regex_match (hl : HlRegex) (w : Int) (fuel : Nat) (scr : scroller)
    (regex : Option (List Char)) (opt direction icase : Int) (out : search_outcome)
    (h : scr_search_regex hl w fuel scr regex opt direction icase = some out)
    (hfound : 0 < out.result) :
    ∃ (pre post : List hl_probe) (p : hl_probe),
      out.probes = pre ++ p :: post ∧ 0 < p.result
      ∧ (direction ≠ 0 → post = []) ∧ (direction = 0 → ∃ q, post = [q])
      ∧ recorded_row opt out.scr
          = cursor_row_from_sid p.sid (vterminal_get_sb_num_rows scr.vt)
              (delta_after_view_check
                (vterminal_get_sb_num_rows scr.vt + (vterminal_get_height_width scr.vt).1)
                (vterminal_get_height_width scr.vt).1 (vterminal_get_sb_num_rows scr.vt)
                (vterminal_scroll_get_delta scr.vt) p.sid)
      ∧ out.scr.vt
          = (if in_view
                (vterminal_get_sb_num_rows scr.vt + (vterminal_get_height_width scr.vt).1)
                (vterminal_get_height_width scr.vt).1 (vterminal_scroll_get_delta scr.vt) p.sid
             then scr.vt
             else vterminal_scroll_set_delta scr.vt
               (delta_after_view_check
                 (vterminal_get_sb_num_rows scr.vt + (vterminal_get_height_width scr.vt).1)
                 (vterminal_get_height_width scr.vt).1 (vterminal_get_sb_num_rows scr.vt)
                 (vterminal_scroll_get_delta scr.vt) p.sid)) := by
  rcases scr_search_regex_outcome hl w fuel scr regex opt direction icase out h with
    ⟨_, _, hr, _⟩ | ⟨_, st, hst, hcase⟩
  · omega
  · rcases hcase with ⟨hneg, _⟩ | ⟨_, pre, post, p, info, hp, hpos, hfwd, hbwd, hm⟩
    · exact absurd hfound hneg
    · obtain ⟨m1, _, _, m4⟩ := matched_state_fields scr info
        (vterminal_get_sb_num_rows scr.vt + (vterminal_get_height_width scr.vt).1)
        (vterminal_get_height_width scr.vt).1 (vterminal_get_sb_num_rows scr.vt)
        (vterminal_scroll_get_delta scr.vt) p.sid (p.start + p.col) (p.end_ + p.col)
      rw [← hm] at m1 m4
      refine ⟨pre, post, p, hp, hpos, fun hd => (hfwd hd).1, hbwd, ?_, ?_⟩
      · unfold recorded_row
        by_cases hopt : opt = 2
        · subst hopt
          rw [if_pos rfl, hst, (search_commit_match hl st out.result (by omega)).1, m1]
        · rw [if_neg hopt, hst, search_commit_preview hl st opt out.result hopt, m1]
      · by_cases hopt : opt = 2
        · subst hopt
          rw [hst, (search_commit_match hl st out.result (by omega)).2.2.2.2.2, m4]
          rfl
        · rw [hst, search_commit_preview hl st opt out.result hopt, m4]
          rfl

theorem delta_after_view_check_in_view (count H S d m : Int) (h : in_view count H d m) :
    delta_after_view_check count H S d m = d := by
  unfold in_view at h
  unfold delta_after_view_check
  rw [if_pos h]

theorem delta_after_view_check_out_of_view (count H S d m : Int) (h : ¬ in_view count H d m) :
    delta_after_view_check count H S d m = (if m < S then S - m else 0) := by
  unfold in_view at h
  unfold delta_after_view_check
  rw [if_neg h]
  simp only
  split_ifs <;> omega


theorem forward_loop_no_wrap (hl : HlRegex) (regex : List Char)
    (icase S H W count delta : Int) :
    ∀ (fuel : Nat) (scr : scroller) (row col : Int) (o : search_outcome),
      row < count →
      forward_loop hl regex icase 0 S H W count delta fuel scr row col = some o →
      ∀ p ∈ o.probes, row ≤ p.sid := by
  intro fuel
  induction fuel with
  | zero => intro scr row col o _ h; simp [forward_loop] at h
  | succ n ih =>
    intro scr row col o hrow h
    rw [forward_loop] at h
    simp only at h
    generalize hl.search scr.hlregex
      (vterminal_fetch_row scr.vt (cursor_row_from_sid row S delta) col W) regex icase = r at h
    have hsingle : ∀ p ∈ [probe_of row col r], row ≤ p.sid := by
      intro p hp
      simp only [List.mem_singleton] at hp
      subst hp
      exact le_refl _
    by_cases h1 : r.result > 0
    · rw [if_pos h1] at h
      cases h
      exact hsingle
    · rw [if_neg h1] at h
      simp only [ne_eq, not_true_eq_false, false_and, if_false, true_and] at h
      by_cases h3 : row = count - 1
      · rw [if_pos h3] at h
        cases h
        exact hsingle
      · rw [if_neg h3] at h
        have hnext : (if row + 1 ≥ count then 0 else row + 1) = row + 1 := by
          rw [if_neg (by omega)]
        rw [hnext] at h
        split at h
        · simp at h
        · rename_i o2 hrec
          simp only [Option.some.injEq] at h
          subst h
          intro p hp
          rcases List.mem_cons.mp hp with rfl | hp
          · exact le_refl _
          · have := ih _ _ _ _ (by omega) hrec p hp
            omega

theorem backward_loop_no_wrap (hl : HlRegex) (regex : List Char)
    (icase S H W count delta : Int) (row_fuel : Nat) :
    ∀ (fuel : Nat) (scr : scroller) (row col : Int) (o : search_outcome),
      0 ≤ row →
      backward_loop hl regex icase 0 S H W count delta row_fuel fuel scr 0 row col = some o →
      ∀ p ∈ o.probes, p.sid ≤ row := by
  intro fuel
  induction fuel with
  | zero => intro scr row col o _ h; simp [backward_loop] at h
  | succ n ih =>
    intro scr row col o hrow h
    rw [backward_loop] at h
    simp only at h
    split at h
    · simp at h
    · rename_i rs hrs
      obtain ⟨hsid, hcase⟩ := backward_row_loop_spec hl regex icase scr.vt _ W row col
        _ _ _ _ _ _ rs hrs
      have hthis : ∀ p ∈ rs.probes, p.sid ≤ row := by
        intro p hp
        rw [hsid p hp]
      by_cases hm : rs.regex_matched > 0
      · rw [if_pos hm] at h
        cases h
        exact hthis
      · rw [if_neg hm] at h
        simp only [ne_eq, not_true_eq_false, false_and, if_false, true_and] at h
        have hz : rs.regex_matched = 0 := by
          rcases hcase with ⟨hz, _⟩ | ⟨h1, _⟩
          · exact hz
          · omega
        by_cases h3 : row = 0
        · rw [if_pos h3] at h
          cases h
          exact hthis
        · rw [if_neg h3] at h
          have hnext : (if row - 1 < 0 then count - 1 else row - 1) = row - 1 := by
            rw [if_neg (by omega)]
          rw [hnext, hz] at h
          split at h
          · simp at h
          · rename_i o2 hrec
            simp only [Option.some.injEq] at h
            subst h
            intro p hp
            rcases List.mem_append.mp hp with hp | hp
            · exact hthis p hp
            · have := ih _ _ _ _ (by omega) hrec p hp
              omega

theorem search_no_wrap_away_from_the_ends (hl : HlRegex) (fuel : Nat) (scr : scroller)
    (regex : Option (List Char)) (opt direction icase : Int) (out : search_outcome)
    (h0 : 0 ≤ scr.search_sid_init)
    (h1 : scr.search_sid_init
      ≤ vterminal_get_sb_num_rows scr.vt + (vterminal_get_height_width scr.vt).1 - 1)
    (h : scr_search_regex hl 0 fuel scr regex opt direction icase = some out) :
    (direction ≠ 0 →
        ¬ (¬ scr.search_col_init < (vterminal_get_height_width scr.vt).2 - 1
            ∧ scr.search_sid_init
                = vterminal_get_sb_num_rows scr.vt + (vterminal_get_height_width scr.vt).1 - 1) →
        ∀ p ∈ out.probes, scr.search_sid_init ≤ p.sid)
    ∧ (direction = 0 →
        ¬ (¬ scr.search_col_init > 0 ∧ scr.search_sid_init = 0) →
        ∀ p ∈ out.probes, p.sid ≤ scr.search_sid_init) := by
  unfold scr_search_regex at h
  constructor
  · intro hd hedge
    rw [if_pos hd] at h
    unfold scr_search_regex_forward at h
    simp only at h
    cases regex with
    | none =>
      simp only [Option.some.injEq] at h
      subst h
      simp
    | some re =>
      simp only at h
      split at h
      · simp at h
      · rename_i o ho
        simp only [Option.some.injEq] at h
        subst h
        simp only
        have hst : scr.search_sid_init
            ≤ (forward_start scr (vterminal_get_height_width scr.vt).2
                (vterminal_get_sb_num_rows scr.vt + (vterminal_get_height_width scr.vt).1)).1
            ∧ (forward_start scr (vterminal_get_height_width scr.vt).2
                (vterminal_get_sb_num_rows scr.vt + (vterminal_get_height_width scr.vt).1)).1
              < vterminal_get_sb_num_rows scr.vt + (vterminal_get_height_width scr.vt).1 := by
          unfold forward_start
          simp only
          split_ifs <;> constructor <;> omega
        intro p hp
        have := forward_loop_no_wrap hl re icase _ _ _ _ _ fuel scr _ _ o hst.2 ho p hp
        omega
  · intro hd hedge
    rw [if_neg (by simp [hd])] at h
    unfold scr_search_regex_backwards at h
    simp only at h
    cases regex with
    | none =>
      simp only [Option.some.injEq] at h
      subst h
      simp
    | some re =>
      simp only at h
      split at h
      · simp at h
      · rename_i o ho
        simp only [Option.some.injEq] at h
        subst h
        simp only
        have hst : (backward_start scr (vterminal_get_height_width scr.vt).2
                (vterminal_get_sb_num_rows scr.vt + (vterminal_get_height_width scr.vt).1)).1
              ≤ scr.search_sid_init
            ∧ 0 ≤ (backward_start scr (vterminal_get_height_width scr.vt).2
                (vterminal_get_sb_num_rows scr.vt + (vterminal_get_height_width scr.vt).1)).1 := by
          unfold backward_start
          simp only
          split_ifs <;> constructor <;> omega
        intro p hp
        have := backward_loop_no_wrap hl re icase _ _ _ _ _ fuel fuel scr _ _ o hst.2 ho p hp
        omega

/-! ## Facts about the concrete collaborators -/

theorem literal_find_none (z : Char) (pat line : List Char) (hz : z ∉ line) :
    literal_find (z :: pat) line = none := by
  induction line with
  | nil => simp [literal_find]
  | cons ch rest ih =>
    have hne : ¬ z = ch := fun h => hz (by simp [h])
    have hrest : z ∉ rest := fun h => hz (List.mem_cons_of_mem _ h)
    simp [literal_find, List.isPrefixOf, hne, ih hrest]

theorem demo_rows_no_z (tid : Int) : 'z' ∉ demo_rows tid := by
  unfold demo_rows
  split_ifs <;> decide

theorem demo_reports_no_match (row col : Int) (icase : Int) :
    reports_no_match literal_hl (demo_scr row col).vt 3 "zzz".toList icase := by
  intro info r c
  have hz : 'z' ∉ vterminal_fetch_row (demo_scr row col).vt r c 3 := by
    intro h
    exact demo_rows_no_z _ (List.mem_of_mem_drop (List.mem_of_mem_take h))
  have hf := literal_find_none 'z' "zz".toList _ hz
  have hzzz : "zzz".toList = 'z' :: "zz".toList := by decide
  simp only [literal_hl, hzzz, hf]
  rfl


theorem literal_hl_start_nonneg (info : Option hl_regex_info) (line regex : List Char)
    (icase : Int) (_h : (literal_hl.search info line regex icase).result = 1) :
    0 ≤ (literal_hl.search info line regex icase).start := by
  unfold literal_hl
  simp only
  split
  · rename_i hre
    simp [literal_hl, hre] at _h
  · split
    · simp
    · rename_i hnone
      simp [literal_hl, hnone] at _h
      split at _h <;> simp_all


theorem abab_leftmost (info : Option hl_regex_info) (icase c : Int) (hc : 0 ≤ c) :
    ((literal_hl.search info (vterminal_fetch_row (vterminal_new abab_impl ⟨6, 1⟩) 0 c 6)
          "ab".toList icase).result = 1
      ∧ 0 ≤ (literal_hl.search info (vterminal_fetch_row (vterminal_new abab_impl ⟨6, 1⟩) 0 c 6)
          "ab".toList icase).start
      ∧ abab_match (c + (literal_hl.search info
          (vterminal_fetch_row (vterminal_new abab_impl ⟨6, 1⟩) 0 c 6) "ab".toList icase).start)
      ∧ ∀ k, c ≤ k →
          k < c + (literal_hl.search info
            (vterminal_fetch_row (vterminal_new abab_impl ⟨6, 1⟩) 0 c 6) "ab".toList icase).start →
          ¬ abab_match k)
    ∨ ((literal_hl.search info (vterminal_fetch_row (vterminal_new abab_impl ⟨6, 1⟩) 0 c 6)
          "ab".toList icase).result ≠ 1
      ∧ ∀ k, c ≤ k → ¬ abab_match k) := by
  by_cases h6 : 6 ≤ c
  · right
    have hz : (6 - c).toNat = 0 := Int.toNat_eq_zero.mpr (by omega)
    have hr : literal_hl.search info
        (vterminal_fetch_row (vterminal_new abab_impl ⟨6, 1⟩) 0 c 6) "ab".toList icase
        = ⟨some ⟨"ab".toList, icase⟩, 0, -1, -1⟩ := by
      simp only [vterminal_fetch_row, hz, List.take_zero]
      rfl
    rw [hr]
    dsimp only
    refine ⟨by omega, ?_⟩
    intro k hk hm
    unfold abab_match at hm
    omega
  · have h5 : c ≤ 5 := by omega
    interval_cases c
    · left
      have hr : literal_hl.search info
          (vterminal_fetch_row (vterminal_new abab_impl ⟨6, 1⟩) 0 0 6) "ab".toList icase
          = ⟨some ⟨"ab".toList, icase⟩, 1, 0, 2⟩ := rfl
      rw [hr]
      dsimp only
      exact ⟨rfl, by omega, Or.inl rfl, fun k _ _ hm => by unfold abab_match at hm; omega⟩
    · left
      have hr : literal_hl.search info
          (vterminal_fetch_row (vterminal_new abab_impl ⟨6, 1⟩) 0 1 6) "ab".toList icase
          = ⟨some ⟨"ab".toList, icase⟩, 1, 1, 3⟩ := rfl
      rw [hr]
      dsimp only
      exact ⟨rfl, by omega, Or.inr (Or.inl rfl),
        fun k _ _ hm => by unfold abab_match at hm; omega⟩
    · left
      have hr : literal_hl.search info
          (vterminal_fetch_row (vterminal_new abab_impl ⟨6, 1⟩) 0 2 6) "ab".toList icase
          = ⟨some ⟨"ab".toList, icase⟩, 1, 0, 2⟩ := rfl
      rw [hr]
      dsimp only
      exact ⟨rfl, by omega, Or.inr (Or.inl rfl),
        fun k _ _ hm => by unfold abab_match at hm; omega⟩
    · left
      have hr : literal_hl.search info
          (vterminal_fetch_row (vterminal_new abab_impl ⟨6, 1⟩) 0 3 6) "ab".toList icase
          = ⟨some ⟨"ab".toList, icase⟩, 1, 1, 3⟩ := rfl
      rw [hr]
      dsimp only
      exact ⟨rfl, by omega, Or.inr (Or.inr rfl),
        fun k _ _ hm => by unfold abab_match at hm; omega⟩
    · left
      have hr : literal_hl.search info
          (vterminal_fetch_row (vterminal_new abab_impl ⟨6, 1⟩) 0 4 6) "ab".toList icase
          = ⟨some ⟨"ab".toList, icase⟩, 1, 0, 2⟩ := rfl
      rw [hr]
      dsimp only
      exact ⟨rfl, by omega, Or.inr (Or.inr rfl),
        fun k _ _ hm => by unfold abab_match at hm; omega⟩
    · right
      have hr : literal_hl.search info
          (vterminal_fetch_row (vterminal_new abab_impl ⟨6, 1⟩) 0 5 6) "ab".toList icase
          = ⟨some ⟨"ab".toList, icase⟩, 0, -1, -1⟩ := rfl
      rw [hr]
      dsimp only
      exact ⟨by omega, fun k _ hm => by unfold abab_match at hm; omega⟩


/-! ## The rows and columns the scans fetch -/

theorem vterminal_fetch_row_reads (vt : VTerminal) (row start_col end_col : Int) :
    vterminal_fetch_row vt row start_col end_col
      = ((vt.screen.rows (fetched_tid vt row)).drop start_col.toNat).take
          (end_col - start_col).toNat := rfl

theorem fetched_tid_of_sid (vt : VTerminal) (sid : Int) :
    fetched_tid vt (cursor_row_from_sid sid (vterminal_get_sb_num_rows vt)
        (vterminal_scroll_get_delta vt))
      = sid - vterminal_get_sb_num_rows vt := by
  unfold fetched_tid cursor_row_from_sid vterminal_scroll_get_delta
  omega

theorem forward_loop_cols (hl : HlRegex) (regex : List Char)
    (icase w S H W count delta : Int) :
    ∀ (fuel : Nat) (scr : scroller) (row col : Int) (o : search_outcome),
      forward_loop hl regex icase w S H W count delta fuel scr row col = some o →
      ∀ p ∈ o.probes, p.col = col ∨ p.col = 0 := by
  intro fuel
  induction fuel with
  | zero => intro scr row col o h; simp [forward_loop] at h
  | succ n ih =>
    intro scr row col o h
    rw [forward_loop] at h
    simp only at h
    generalize hl.search scr.hlregex
      (vterminal_fetch_row scr.vt (cursor_row_from_sid row S delta) col W) regex icase = r at h
    have hsingle : ∀ p ∈ [probe_of row col r], p.col = col ∨ p.col = 0 := by
      intro p hp
      simp only [List.mem_singleton] at hp
      subst hp
      exact Or.inl rfl
    split_ifs at h with h1 h2 h3
    · cases h; exact hsingle
    · cases h; exact hsingle
    · cases h; exact hsingle
    all_goals
      split at h
      · simp at h
      · rename_i o2 hrec
        simp only [Option.some.injEq] at h
        subst h
        intro p hp
        rcases List.mem_cons.mp hp with rfl | hp
        · exact Or.inl rfl
        · rcases ih _ _ _ _ hrec p hp with h0 | h0
          · exact Or.inr h0
          · exact Or.inr h0

theorem backward_row_loop_cols (hl : HlRegex) (regex : List Char) (icase : Int)
    (vt : VTerminal) (vfr W row col : Int)
    (hstart : ∀ (info : Option hl_regex_info) (line : List Char),
      (hl.search info line regex icase).result = 1 →
      0 ≤ (hl.search info line regex icase).start) :
    ∀ (fuel : Nat) (c : Int) (info : Option hl_regex_info) (rm start end_ : Int)
      (rs : row_scan), 0 ≤ c →
      backward_row_loop hl regex icase vt vfr W row col fuel c info rm start end_ = some rs →
      ∀ p ∈ rs.probes, 0 ≤ p.col ∧ (p.col = c ∨ p.col ≤ col + 1) := by
  intro fuel
  induction fuel with
  | zero => intro c info rm start end_ rs _ h; simp [backward_row_loop] at h
  | succ n ih =>
    intro c info rm start end_ rs hc h
    rw [backward_row_loop] at h
    simp only at h
    have hst := hstart info (vterminal_fetch_row vt vfr c W)
    generalize hl.search info (vterminal_fetch_row vt vfr c W) regex icase = r at h hst
    split_ifs at h with h1
    · split at h
      · simp at h
      · rename_i rs2 hrec
        simp only [Option.some.injEq] at h
        subst h
        have h0 := hst h1.1
        intro p hp
        rcases List.mem_cons.mp hp with rfl | hp
        · exact ⟨hc, Or.inl rfl⟩
        · obtain ⟨hp0, hp1⟩ := ih _ _ _ _ _ _ (by omega) hrec p hp
          refine ⟨hp0, Or.inr ?_⟩
          have h2 := h1.2
          omega
    · cases h
      intro p hp
      simp only [List.mem_singleton] at hp
      subst hp
      exact ⟨hc, Or.inl rfl⟩

theorem backward_loop_cols (hl : HlRegex) (regex : List Char)
    (icase w S H W count delta : Int) (row_fuel : Nat)
    (hstart : ∀ (info : Option hl_regex_info) (line : List Char),
      (hl.search info line regex icase).result = 1 →
      0 ≤ (hl.search info line regex icase).start) :
    ∀ (fuel : Nat) (scr : scroller) (rm row col : Int) (o : search_outcome),
      backward_loop hl regex icase w S H W count delta row_fuel fuel scr rm row col = some o →
      ∀ p ∈ o.probes, 0 ≤ p.col ∧ (p.col = 0 ∨ p.col ≤ col + 1 ∨ p.col ≤ W) := by
  intro fuel
  induction fuel with
  | zero => intro scr rm row col o h; simp [backward_loop] at h
  | succ n ih =>
    intro scr rm row col o h
    rw [backward_loop] at h
    simp only at h
    split at h
    · simp at h
    · rename_i rs hrow
      have hpr := backward_row_loop_cols hl regex icase scr.vt _ W row col hstart
        _ _ _ _ _ _ rs (le_refl 0) hrow
      have hrs : ∀ p ∈ rs.probes, 0 ≤ p.col ∧ (p.col = 0 ∨ p.col ≤ col + 1 ∨ p.col ≤ W) := by
        intro p hp
        obtain ⟨h0, h1⟩ := hpr p hp
        refine ⟨h0, ?_⟩
        rcases h1 with h1 | h1
        · exact Or.inl h1
        · exact Or.inr (Or.inl h1)
      split_ifs at h with h1 h2 h3
      · cases h; exact hrs
      · cases h; exact hrs
      · cases h; exact hrs
      all_goals
        split at h
        · simp at h
        · rename_i o2 hrec
          simp only [Option.some.injEq] at h
          subst h
          intro p hp
          rcases List.mem_append.mp hp with hp | hp
          · exact hrs p hp
          · obtain ⟨h0, h1⟩ := ih _ _ _ _ _ hrec p hp
            refine ⟨h0, ?_⟩
            rcases h1 with h1 | h1 | h1
            · exact Or.inl h1
            · exact Or.inr (Or.inr (by omega))
            · exact Or.inr (Or.inr h1)

theorem forward_scan_probes (hl : HlRegex) (w : Int) (fuel : Nat) (scr : scroller)
    (regex : List Char) (opt icase : Int) (out : search_outcome)
    (h : scr_search_regex_forward hl w fuel scr (some regex) opt icase = some out) :
    ∀ p ∈ out.probes,
      (∃ info, p = probe_of p.sid p.col
        (hl.search info (vterminal_fetch_row scr.vt
          (cursor_row_from_sid p.sid (vterminal_get_sb_num_rows scr.vt)
            (vterminal_scroll_get_delta scr.vt)) p.col (vterminal_get_height_width scr.vt).2)
          regex icase))
      ∧ (p.col = (forward_start scr (vterminal_get_height_width scr.vt).2
            (vterminal_get_sb_num_rows scr.vt + (vterminal_get_height_width scr.vt).1)).2
          ∨ p.col = 0) := by
  unfold scr_search_regex_forward at h
  simp only at h
  split at h
  · simp at h
  · rename_i o ho
    simp only [Option.some.injEq] at h
    subst h
    intro p hp
    exact ⟨forward_loop_probes hl regex icase w _ _ _ _ _ fuel scr _ _ o ho p hp,
      forward_loop_cols hl regex icase w _ _ _ _ _ fuel scr _ _ o ho p hp⟩

theorem backward_scan_probes (hl : HlRegex) (w : Int) (fuel : Nat) (scr : scroller)
    (regex : List Char) (opt icase : Int) (out : search_outcome)
    (hstart : ∀ (info : Option hl_regex_info) (line : List Char),
      (hl.search info line regex icase).result = 1 →
      0 ≤ (hl.search info line regex icase).start)
    (h : scr_search_regex_backwards hl w fuel scr (some regex) opt icase = some out) :
    ∀ p ∈ out.probes,
      (∃ info, p = probe_of p.sid p.col
        (hl.search info (vterminal_fetch_row scr.vt
          (cursor_row_from_sid p.sid (vterminal_get_sb_num_rows scr.vt)
            (vterminal_scroll_get_delta scr.vt)) p.col (vterminal_get_height_width scr.vt).2)
          regex icase))
      ∧ 0 ≤ p.col
      ∧ (p.col = 0
          ∨ p.col ≤ (backward_start scr (vterminal_get_height_width scr.vt).2
              (vterminal_get_sb_num_rows scr.vt + (vterminal_get_height_width scr.vt).1)).2 + 1
          ∨ p.col ≤ (vterminal_get_height_width scr.vt).2) := by
  unfold scr_search_regex_backwards at h
  simp only at h
  split at h
  · simp at h
  · rename_i o ho
    simp only [Option.some.injEq] at h
    subst h
    intro p hp
    exact ⟨backward_loop_probes hl regex icase w _ _ _ _ _ fuel fuel scr _ _ _ o ho p hp,
      backward_loop_cols hl regex icase w _ _ _ _ _ fuel hstart fuel scr _ _ _ o ho p hp⟩

/-! ## Search rollback (C1) -/

/-- C1 (search rollback): on a session on which `scr_search_regex_init` has just
been called, whose origin is a search id (`0 ≤ sid ≤ S+H-1`, §4.1) and whose
emulator keeps its current delta when asked to set it, a committed search
(`opt = 2`) in either direction for a pattern on which the primitive reports no
match (result 0) on any fetched text returns, with `S+H+1` units of fuel or
more, the value 0, and leaves the emulator's scroll delta equal to its value
before the call. -/
theorem C1_search_rollback (hl : HlRegex) (wrapscan_enabled : Int) (fuel : Nat)
    (scr0 : scroller) (regex : List Char) (direction icase : Int)
    (horigin : 0 ≤ (scr_search_regex_init scr0).search_sid_init
      ∧ (scr_search_regex_init scr0).search_sid_init
          ≤ vterminal_get_sb_num_rows scr0.vt + (vterminal_get_height_width scr0.vt).1 - 1)
    (hkeep : vterminal_scroll_get_delta
        (vterminal_scroll_set_delta scr0.vt (vterminal_scroll_get_delta scr0.vt))
      = vterminal_scroll_get_delta scr0.vt)
    (hno : reports_no_match hl scr0.vt (vterminal_get_height_width scr0.vt).2 regex icase)
    (hfuel : vterminal_get_sb_num_rows scr0.vt + (vterminal_get_height_width scr0.vt).1 + 1
      ≤ (fuel : Int)) :
    ∃ out, scr_search_regex hl wrapscan_enabled fuel (scr_search_regex_init scr0)
        (some regex) 2 direction icase = some out
      ∧ out.result = 0
      ∧ vterminal_scroll_get_delta out.scr.vt = vterminal_scroll_get_delta scr0.vt := by
  unfold scr_search_regex
  by_cases hd : direction ≠ 0
  · rw [if_pos hd]
    obtain ⟨o, ho, hret, _⟩ := forward_search_returns hl wrapscan_enabled fuel
      (scr_search_regex_init scr0) regex 2 icase horigin.1 horigin.2 hfuel
    obtain ⟨hr, _, info, hscr⟩ := forward_loop_no_match hl regex icase _ _ _ _ _ _ fuel
      (scr_search_regex_init scr0) _ _ o hno ho
    refine ⟨_, hret, hr, ?_⟩
    rw [hr, hscr, search_commit_no_match]
    exact hkeep
  · rw [if_neg hd]
    obtain ⟨o, ho, hret, _⟩ := backward_search_returns hl wrapscan_enabled fuel
      (scr_search_regex_init scr0) regex 2 icase horigin.1 horigin.2 hfuel
      (fun info row col _ => backward_row_loop_no_match hl regex icase scr0.vt _ _ row col hno
        fuel (by omega) 0 info 0 0 0)
    obtain ⟨hr, _, info, hscr⟩ := backward_loop_no_match hl regex icase _ _ _ _ _ _ fuel fuel
      (scr_search_regex_init scr0) _ _ o hno ho
    refine ⟨_, hret, hr, ?_⟩
    rw [hr, hscr, search_commit_no_match]
    exact hkeep

/-- A run of C1 on the example screen (scrollback 6, height 3, width 3, delta 0,
cursor (1, 1), so origin search id 7): the committed forward search for "zzz",
which occurs nowhere, returns 0 and leaves the delta at 0. -/
theorem C1_search_rollback_witness :
    (0 ≤ (scr_search_regex_init (demo_scr 1 1)).search_sid_init
      ∧ (scr_search_regex_init (demo_scr 1 1)).search_sid_init
          ≤ vterminal_get_sb_num_rows (demo_scr 1 1).vt
            + (vterminal_get_height_width (demo_scr 1 1).vt).1 - 1)
    ∧ reports_no_match literal_hl (demo_scr 1 1).vt 3 "zzz".toList 0
    ∧ ∃ out, scr_search_regex literal_hl 1 10 (scr_search_regex_init (demo_scr 1 1))
        (some "zzz".toList) 2 1 0 = some out
      ∧ out.result = 0
      ∧ vterminal_scroll_get_delta out.scr.vt = 0 :=
  ⟨by decide, demo_reports_no_match 1 1 0,
    C1_search_rollback literal_hl 1 10 (demo_scr 1 1) "zzz".toList 1 0 (by decide) (by decide)
      (demo_reports_no_match 1 1 0) (by decide)⟩

/-! ## Abort rollback (C2) -/

/-- C2 (abort rollback): after `scr_search_regex_init` followed by any sequence of
preview searches (`opt ≠ 2`; any patterns, directions, wrapscan settings and
outcomes) that have returned, `scr_search_regex_final` leaves the session not in
search mode, has asked the emulator for the delta captured by
`scr_search_regex_init`, which is then the emulator's delta provided the
emulator keeps that delta when asked to set it, and the scroll cursor is what it
was before `scr_search_regex_init`. -/
theorem C2_abort_rollback (hl : HlRegex) (scr0 : scroller) (calls : List search_call)
    (scr1 : scroller)
    (hprev : ∀ c ∈ calls, c.opt ≠ 2)
    (hrun : run_searches hl (scr_search_regex_init scr0) calls = some scr1)
    (hkeep : vterminal_scroll_get_delta
        (vterminal_scroll_set_delta scr0.vt (vterminal_scroll_get_delta scr0.vt))
      = vterminal_scroll_get_delta scr0.vt) :
    (scr_search_regex_final scr1).in_search_mode = false
    ∧ (scr_search_regex_final scr1).vt.requests
        = VTRequest.scroll_set_delta (scr_search_regex_init scr0).delta_init
            :: scr1.vt.requests
    ∧ vterminal_scroll_get_delta (scr_search_regex_final scr1).vt
        = (scr_search_regex_init scr0).delta_init
    ∧ (scr_search_regex_init scr0).delta_init = vterminal_scroll_get_delta scr0.vt
    ∧ (scr_search_regex_final scr1).scroll_cursor_row = scr0.scroll_cursor_row
    ∧ (scr_search_regex_final scr1).scroll_cursor_col = scr0.scroll_cursor_col := by
  have hf := run_searches_frame hl calls _ scr1 hprev hrun
  have hdi : scr1.delta_init = vterminal_scroll_get_delta scr0.vt := hf.delta_init
  refine ⟨rfl, ?_, ?_, rfl, hf.scroll_cursor_row, hf.scroll_cursor_col⟩
  · simp only [scr_search_regex_final, vterminal_scroll_set_delta, hdi]
    rfl
  · have h1 : scr1.vt.impl = scr0.vt.impl := hf.vt_impl
    have h2 : scr1.vt.width = scr0.vt.width := hf.vt_width
    have h3 : scr1.vt.height = scr0.vt.height := hf.vt_height
    have h4 : scr1.vt.input = scr0.vt.input := hf.vt_input
    simp only [scr_search_regex_final, vterminal_scroll_set_delta, vterminal_scroll_get_delta,
      VTerminal.screen, hdi, h1, h2, h3, h4] at hkeep ⊢
    rw [hkeep]
    rfl

/-- A run of C2 on the example screen (emulator clamping to `0 .. 6`, delta 0,
cursor (0, 0)): a forward preview for "abc" scrolls the view to delta 6, a
backward preview for "zzz" finds nothing, and `scr_search_regex_final` then
leaves search mode with the delta back at 0 and the cursor still at (0, 0). -/
theorem C2_abort_rollback_witness :
    ∃ scr1, run_searches literal_hl (scr_search_regex_init (demo_back_scr 0 0 0))
        [⟨1, 20, some "abc".toList, 1, 1, 0⟩, ⟨1, 20, some "zzz".toList, 1, 0, 0⟩] = some scr1
      ∧ vterminal_scroll_get_delta scr1.vt = 6
      ∧ (scr_search_regex_final scr1).in_search_mode = false
      ∧ vterminal_scroll_get_delta (scr_search_regex_final scr1).vt = 0
      ∧ (scr_search_regex_final scr1).scroll_cursor_row = 0
      ∧ (scr_search_regex_final scr1).scroll_cursor_col = 0 := by
  have hd : (run_searches literal_hl (scr_search_regex_init (demo_back_scr 0 0 0))
      [⟨1, 20, some "abc".toList, 1, 1, 0⟩, ⟨1, 20, some "zzz".toList, 1, 0, 0⟩]).map
      (fun s => vterminal_scroll_get_delta s.vt) = some 6 := by decide
  obtain ⟨scr1, hrun, hdelta⟩ := Option.map_eq_some'.mp hd
  have h := C2_abort_rollback literal_hl (demo_back_scr 0 0 0) _ scr1 (by decide) hrun
    (by decide)
  exact ⟨scr1, hrun, hdelta, h.1, h.2.2.1, h.2.2.2.2.1, h.2.2.2.2.2⟩

/-! ## Coordinates (C3) -/

/-- C3 (coordinate round trip): for every cursor row `r`, delta `d` and scrollback
size `S` (in particular for `d ≤ 0`, `S ≥ 0`), the search id computed as
`scr_search_regex_init` does, converted back with the fetch-row formula of the
scans, is `r` again; converting a search id to a row and back gives the same
search id; so for fixed `d` and `S` the conversion is a bijection; and the origin
that `scr_search_regex_init` stores converts back to the scroll cursor row. -/
theorem C3_coordinate_round_trip (d S : Int) :
    (∀ r : Int, cursor_row_from_sid (sid_from_cursor_row r d S) S d = r)
    ∧ (∀ sid : Int, sid_from_cursor_row (cursor_row_from_sid sid S d) d S = sid)
    ∧ Function.Bijective (fun r : Int => sid_from_cursor_row r d S)
    ∧ (∀ scr : scroller,
        cursor_row_from_sid (scr_search_regex_init scr).search_sid_init
          (vterminal_get_sb_num_rows scr.vt) (vterminal_scroll_get_delta scr.vt)
          = scr.scroll_cursor_row) := by
  refine ⟨?_, ?_, ⟨?_, ?_⟩, ?_⟩
  · intro r; simp only [cursor_row_from_sid, sid_from_cursor_row]; omega
  · intro sid; simp only [cursor_row_from_sid, sid_from_cursor_row]; omega
  · intro a b h
    simp only [sid_from_cursor_row] at h
    omega
  · intro sid
    refine ⟨cursor_row_from_sid sid S d, ?_⟩
    simp only [cursor_row_from_sid, sid_from_cursor_row]; omega
  · intro scr
    simp only [scr_search_regex_init, cursor_row_from_sid, sid_from_cursor_row]; omega


/-! ## Preview searches (C4) -/

/-- C4 (a preview search leaves the cursor alone): a search call with `opt ≠ 2`, in
either direction, that returns leaves `scroll_cursor_row` and `scroll_cursor_col`
unchanged whatever its outcome, and when it finds no match (its result is not
positive) the emulator is untouched: no request was sent and the scroll delta is
unchanged.  Such a call does return: at once for a null pattern, and for an
origin that is a search id, a primitive whose match offsets are not negative and
enough fuel (more than `S+H`, than `W` and than the origin column). -/
theorem C4_preview_leaves_cursor (hl : HlRegex) (w : Int) (fuel : Nat) (scr : scroller)
    (regex : Option (List Char)) (opt direction icase : Int) (hopt : opt ≠ 2) :
    (∀ out, scr_search_regex hl w fuel scr regex opt direction icase = some out →
        out.scr.scroll_cursor_row = scr.scroll_cursor_row
        ∧ out.scr.scroll_cursor_col = scr.scroll_cursor_col
        ∧ (¬ 0 < out.result →
            out.scr.vt = scr.vt
            ∧ out.scr.vt.requests = scr.vt.requests
            ∧ vterminal_scroll_get_delta out.scr.vt = vterminal_scroll_get_delta scr.vt))
    ∧ (regex = none →
        ∃ out, scr_search_regex hl w fuel scr regex opt direction icase = some out)
    ∧ (∀ re, regex = some re →
        0 ≤ scr.search_sid_init →
        scr.search_sid_init
          ≤ vterminal_get_sb_num_rows scr.vt + (vterminal_get_height_width scr.vt).1 - 1 →
        (∀ (info : Option hl_regex_info) (line : List Char),
          (hl.search info line re icase).result = 1 →
          0 ≤ (hl.search info line re icase).start) →
        vterminal_get_sb_num_rows scr.vt + (vterminal_get_height_width scr.vt).1 + 1
          ≤ (fuel : Int) →
        (vterminal_get_height_width scr.vt).2 + 1 ≤ (fuel : Int) →
        scr.search_col_init + 1 ≤ (fuel : Int) →
        ∃ out, scr_search_regex hl w fuel scr regex opt direction icase = some out) := by
  refine ⟨?_, ?_, ?_⟩
  · intro out hout
    obtain ⟨hf, hn⟩ := scr_search_regex_frame hl w fuel scr regex opt direction icase out
      hopt hout
    refine ⟨hf.scroll_cursor_row, hf.scroll_cursor_col, ?_⟩
    intro hneg
    obtain ⟨info, hscr⟩ := hn hneg
    rw [hscr]
    exact ⟨rfl, rfl, rfl⟩
  · intro hnone
    subst hnone
    unfold scr_search_regex scr_search_regex_forward scr_search_regex_backwards
    split <;> exact ⟨_, rfl⟩
  · intro re hre h0 h1 hstart hf1 hf2 hf3
    subst hre
    obtain ⟨out, hout, _⟩ := scr_search_regex_returns hl w fuel scr re opt direction icase
      h0 h1 hstart hf1 hf2 hf3
    exact ⟨out, hout⟩

/-- A run of C4 on the example screen (delta 0, cursor (1, 2), origin search id
7): the forward preview for "abc" returns 1 after asking the emulator for delta
6 and the backward preview for "zzz" returns 0 and sends the emulator nothing;
both leave the cursor at (1, 2). -/
theorem C4_preview_leaves_cursor_witness :
    (∃ out, scr_search_regex literal_hl 1 20 (scr_search_regex_init (demo_back_scr 1 2 0))
        (some "abc".toList) 1 1 0 = some out
      ∧ out.result = 1
      ∧ out.scr.vt.requests = [VTRequest.scroll_set_delta 6]
      ∧ out.scr.scroll_cursor_row = 1 ∧ out.scr.scroll_cursor_col = 2)
    ∧ (∃ out, scr_search_regex literal_hl 1 20 (scr_search_regex_init (demo_back_scr 1 2 0))
        (some "zzz".toList) 1 0 0 = some out
      ∧ out.result = 0
      ∧ out.scr.vt.requests = []
      ∧ vterminal_scroll_get_delta out.scr.vt = 0
      ∧ out.scr.scroll_cursor_row = 1 ∧ out.scr.scroll_cursor_col = 2) := by
  have ha := C4_preview_leaves_cursor literal_hl 1 20
    (scr_search_regex_init (demo_back_scr 1 2 0)) (some "abc".toList) 1 1 0 (by decide)
  have hz := C4_preview_leaves_cursor literal_hl 1 20
    (scr_search_regex_init (demo_back_scr 1 2 0)) (some "zzz".toList) 1 0 0 (by decide)
  constructor
  · obtain ⟨out, hout⟩ := ha.2.2 _ rfl (by decide) (by decide)
      (fun info line => literal_hl_start_nonneg info line _ _) (by decide) (by decide)
      (by decide)
    have hres : (scr_search_regex literal_hl 1 20 (scr_search_regex_init (demo_back_scr 1 2 0))
        (some "abc".toList) 1 1 0).map (fun o => (o.result, o.scr.vt.requests))
        = some (1, [VTRequest.scroll_set_delta 6]) := by decide
    rw [hout] at hres
    simp only [Option.map_some', Option.some.injEq, Prod.mk.injEq] at hres
    have h := ha.1 out hout
    exact ⟨out, hout, hres.1, hres.2, h.1, h.2.1⟩
  · obtain ⟨out, hout⟩ := hz.2.2 _ rfl (by decide) (by decide)
      (fun info line => literal_hl_start_nonneg info line _ _) (by decide) (by decide)
      (by decide)
    have hres : (scr_search_regex literal_hl 1 20 (scr_search_regex_init (demo_back_scr 1 2 0))
        (some "zzz".toList) 1 0 0).map (fun o => o.result) = some 0 := by decide
    rw [hout] at hres
    simp only [Option.map_some', Option.some.injEq] at hres
    have h := hz.1 out hout
    have h3 := h.2.2 (by omega)
    exact ⟨out, hout, hres, h3.2.1, h3.2.2, h.1, h.2.1⟩

/-! ## Commit on match (C5) -/

/-- C5 (commit on match): a committed search (`opt = 2`), in either direction,
that returns a positive result found its match at a call `p` of the primitive
with a positive result (the last call of a forward search, the last but one of a
backward search); with `m = p.sid` the search id of the match, `s = p.start +
p.col` its absolute start column and `d'` the scan's delta after the visibility
check, afterwards the scroll cursor is `(m - S + d', s)`, the fields
`search_row`, `search_col_start` and `search_col_end` are 0, and the emulator is
the old one if the row was in view and otherwise the old one after the request
`scroll_set_delta d'`. -/
theorem C5_commit_on_match (hl : HlRegex) (w : Int) (fuel : Nat) (scr : scroller)
    (regex : Option (List Char)) (direction icase : Int) (out : search_outcome)
    (hret : scr_search_regex hl w fuel scr regex 2 direction icase = some out)
    (hfound : 0 < out.result) :
    ∃ (pre post : List hl_probe) (p : hl_probe),
      out.probes = pre ++ p :: post ∧ 0 < p.result
      ∧ (direction ≠ 0 → post = []) ∧ (direction = 0 → ∃ q, post = [q])
      ∧ out.scr.scroll_cursor_row
          = p.sid - vterminal_get_sb_num_rows scr.vt
            + delta_after_view_check
                (vterminal_get_sb_num_rows scr.vt + (vterminal_get_height_width scr.vt).1)
                (vterminal_get_height_width scr.vt).1 (vterminal_get_sb_num_rows scr.vt)
                (vterminal_scroll_get_delta scr.vt) p.sid
      ∧ out.scr.scroll_cursor_col = p.start + p.col
      ∧ out.scr.search_row = 0 ∧ out.scr.search_col_start = 0 ∧ out.scr.search_col_end = 0
      ∧ out.scr.vt
          = (if vterminal_get_sb_num_rows scr.vt + (vterminal_get_height_width scr.vt).1
                  - vterminal_scroll_get_delta scr.vt - (vterminal_get_height_width scr.vt).1
                  ≤ p.sid
                ∧ p.sid < vterminal_get_sb_num_rows scr.vt
                    + (vterminal_get_height_width scr.vt).1
                    - vterminal_scroll_get_delta scr.vt
             then scr.vt
             else vterminal_scroll_set_delta scr.vt
               (delta_after_view_check
                 (vterminal_get_sb_num_rows scr.vt + (vterminal_get_height_width scr.vt).1)
                 (vterminal_get_height_width scr.vt).1 (vterminal_get_sb_num_rows scr.vt)
                 (vterminal_scroll_get_delta scr.vt) p.sid)) := by
  unfold scr_search_regex at hret
  split_ifs at hret with hd
  · unfold scr_search_regex_forward at hret
    simp only at hret
    cases regex with
    | none =>
      simp only [Option.some.injEq] at hret
      subst hret
      simp at hfound
    | some re =>
      simp only at hret
      split at hret
      · simp at hret
      · rename_i o ho
        simp only [Option.some.injEq] at hret
        subst hret
        simp only at hfound ⊢
        obtain ⟨pre, p, info, hp, hr, _, hm, _⟩ := forward_loop_spec hl re icase w _ _ _ _ _
          fuel scr _ _ o ho
        have hpos : 0 < p.result := hr ▸ hfound
        obtain ⟨c1, c2, c3, c4, c5, c6⟩ := search_commit_match hl o.scr o.result (by omega)
        obtain ⟨m1, m2, _, m4⟩ := matched_state_fields scr info
          (vterminal_get_sb_num_rows scr.vt + (vterminal_get_height_width scr.vt).1)
          (vterminal_get_height_width scr.vt).1 (vterminal_get_sb_num_rows scr.vt)
          (vterminal_scroll_get_delta scr.vt) p.sid (p.start + p.col) (p.end_ + p.col)
        rw [← hm hpos] at m1 m2 m4
        refine ⟨pre, [], p, hp, hpos, fun _ => rfl, fun h0 => absurd h0 hd, ?_, ?_, c3, c4, c5, ?_⟩
        · rw [c1, m1]; simp only [cursor_row_from_sid]
        · rw [c2, m2]
        · rw [c6, m4]
  · unfold scr_search_regex_backwards at hret
    simp only at hret
    cases regex with
    | none =>
      simp only [Option.some.injEq] at hret
      subst hret
      simp at hfound
    | some re =>
      simp only at hret
      split at hret
      · simp at hret
      · rename_i o ho
        simp only [Option.some.injEq] at hret
        subst hret
        simp only at hfound ⊢
        obtain ⟨_, hcase⟩ := backward_loop_spec hl re icase w _ _ _ _ _ fuel fuel scr _ _ o ho
        rcases hcase with ⟨hr, _⟩ | ⟨hr, pre, p, q, info, hp, hres, hscr⟩
        · omega
        · obtain ⟨c1, c2, c3, c4, c5, c6⟩ := search_commit_match hl o.scr o.result (by omega)
          obtain ⟨m1, m2, _, m4⟩ := matched_state_fields scr info
            (vterminal_get_sb_num_rows scr.vt + (vterminal_get_height_width scr.vt).1)
            (vterminal_get_height_width scr.vt).1 (vterminal_get_sb_num_rows scr.vt)
            (vterminal_scroll_get_delta scr.vt) p.sid (p.col + p.start) (p.col + p.end_)
          rw [← hscr] at m1 m2 m4
          have hdir : direction = 0 := by
            by_contra hne
            exact hd hne
          refine ⟨pre, [q], p, hp, by omega, fun h0 => absurd hdir h0, fun _ => ⟨q, rfl⟩,
            ?_, ?_, c3, c4, c5, ?_⟩
          · rw [c1, m1]; simp only [cursor_row_from_sid]
          · rw [c2, m2]; exact add_comm _ _
          · rw [c6, m4]

/-- A run of C5 on the example screen (delta 0, cursor (1, 2), origin search id
7): the committed forward search for "abc" finds it on search id 0, columns
[0, 3), out of view; the scan's delta becomes 6, the cursor moves to
(0 - 6 + 6, 0) = (0, 0) and the match fields are 0. -/
theorem C5_commit_on_match_witness :
    ∃ out, scr_search_regex literal_hl 1 20 (scr_search_regex_init (demo_back_scr 1 2 0))
        (some "abc".toList) 2 1 0 = some out
      ∧ out.result = 1
      ∧ out.probes.map (fun p => (p.sid, p.col, p.result, p.start, p.end_))
          = [(8, 0, 0, -1, -1), (0, 0, 1, 0, 3)]
      ∧ out.scr.scroll_cursor_row = 0 ∧ out.scr.scroll_cursor_col = 0
      ∧ out.scr.search_row = 0 ∧ out.scr.search_col_start = 0 ∧ out.scr.search_col_end = 0
      ∧ vterminal_scroll_get_delta out.scr.vt = 6 := by
  have hres : (scr_search_regex literal_hl 1 20 (scr_search_regex_init (demo_back_scr 1 2 0))
      (some "abc".toList) 2 1 0).map (fun o => (o.result,
        o.probes.map (fun p => (p.sid, p.col, p.result, p.start, p.end_)),
        o.scr.scroll_cursor_row, o.scr.scroll_cursor_col, vterminal_scroll_get_delta o.scr.vt))
      = some (1, [(8, 0, 0, -1, -1), (0, 0, 1, 0, 3)], 0, 0, 6) := by
    rfl
  obtain ⟨out, hout, hval⟩ := Option.map_eq_some'.mp hres
  simp only [Prod.mk.injEq] at hval
  obtain ⟨pre, post, p, _, _, _, _, _, _, h3, h4, h5, _⟩ :=
    C5_commit_on_match literal_hl 1 20 (scr_search_regex_init (demo_back_scr 1 2 0))
      (some "abc".toList) 1 0 out hout (by omega)
  exact ⟨out, hout, hval.1, hval.2.1, hval.2.2.1, hval.2.2.2.1, h3, h4, h5, hval.2.2.2.2⟩

/-! ## Backward right-most match (C6) -/

/-- C6 (backward right-most match): let `isMatch k` say that a match starts at
column `k` of the row, and let the primitive return the left-most match of the
suffix it is given (from every start column `c ≥ 0`: result 1 with the first
`k ≥ c` that has `isMatch k`, or a result other than 1 when there is none).  Then
the per-row loop of the backward scan with boundary column `b`, entered as the
scan enters it, returns (with `b + 2` units of fuel or more); if some match
starts at a column in `0 .. b` it reports a match whose start column is the
greatest such column, with the end column the primitive gave for it; and if
none does it reports no match. -/
theorem C6_backward_rightmost_match (hl : HlRegex) (regex : List Char) (icase : Int)
    (vt : VTerminal) (vfr W row b : Int) (isMatch : Int → Prop)
    (hleft : ∀ (info : Option hl_regex_info) (c : Int), 0 ≤ c →
      ((hl.search info (vterminal_fetch_row vt vfr c W) regex icase).result = 1
        ∧ 0 ≤ (hl.search info (vterminal_fetch_row vt vfr c W) regex icase).start
        ∧ isMatch (c + (hl.search info (vterminal_fetch_row vt vfr c W) regex icase).start)
        ∧ ∀ k, c ≤ k →
            k < c + (hl.search info (vterminal_fetch_row vt vfr c W) regex icase).start →
            ¬ isMatch k)
      ∨ ((hl.search info (vterminal_fetch_row vt vfr c W) regex icase).result ≠ 1
        ∧ ∀ k, c ≤ k → ¬ isMatch k))
    (fuel : Nat) (hfuel : b + 2 ≤ (fuel : Int)) (hfuel1 : 1 ≤ fuel)
    (info : Option hl_regex_info) :
    ∃ rs, backward_row_loop hl regex icase vt vfr W row b fuel 0 info 0 0 0 = some rs
      ∧ ((∃ k, 0 ≤ k ∧ k ≤ b ∧ isMatch k) →
          rs.regex_matched = 1 ∧ isMatch rs.start ∧ 0 ≤ rs.start ∧ rs.start ≤ b
          ∧ (∀ k, 0 ≤ k → k ≤ b → isMatch k → k ≤ rs.start)
          ∧ ∃ p ∈ rs.probes, p.result = 1 ∧ rs.start = p.col + p.start
              ∧ rs.end_ = p.col + p.end_)
      ∧ ((¬ ∃ k, 0 ≤ k ∧ k ≤ b ∧ isMatch k) → rs.regex_matched = 0) := by
  obtain ⟨rs, hrs, h1, h2, h3⟩ := backward_row_loop_rightmost hl regex icase vt vfr W row b
    isMatch hleft fuel 0 info 0 0 0 (le_refl 0) (by omega) hfuel1 (Or.inl rfl)
    (fun h => absurd h (by decide)) (fun k hk0 hk _ => absurd hk (by omega))
  obtain ⟨_, hcase⟩ := backward_row_loop_spec hl regex icase vt vfr W row b fuel 0 info 0 0 0
    rs hrs
  refine ⟨rs, hrs, ?_, ?_⟩
  · rintro ⟨k, hk0, hkb, hmk⟩
    obtain ⟨hm1, _⟩ := h3 k hk0 hkb hmk
    obtain ⟨hmatch, hs0, hsb⟩ := h2 hm1
    refine ⟨hm1, hmatch, hs0, hsb, fun k2 a b2 c2 => (h3 k2 a b2 c2).2, ?_⟩
    rcases hcase with ⟨hz, _⟩ | ⟨_, pre, p, q, hp, hres, _, hs, he⟩
    · omega
    · exact ⟨p, by simp [hp], hres, hs, he⟩
  · intro hnone
    rcases h1 with h | h
    · exact h
    · exfalso
      obtain ⟨hmatch, hs0, hsb⟩ := h2 h
      exact hnone ⟨rs.start, hs0, hsb, hmatch⟩

/-- The witness of C6: on the row `"ababab"` (width 6), with the literal
primitive and the pattern `"ab"`, the per-row loop with boundary column 5 yields
the match starting at column 4, with span [4, 6), not the one at column 0. -/
theorem C6_backward_rightmost_match_witness :
    abab_match 4 ∧ ¬ abab_match 5
    ∧ ∃ rs, backward_row_loop literal_hl "ab".toList 0 (vterminal_new abab_impl ⟨6, 1⟩)
        0 6 0 5 10 0 none 0 0 0 = some rs
      ∧ rs.regex_matched = 1 ∧ rs.start = 4 ∧ rs.end_ = 6 := by
  obtain ⟨rs, hrs, hyes, _⟩ := C6_backward_rightmost_match literal_hl "ab".toList 0
    (vterminal_new abab_impl ⟨6, 1⟩) 0 6 0 5 abab_match
    (fun info c hc => abab_leftmost info 0 c hc) 10 (by decide) (by decide) none
  obtain ⟨hm, hmatch, _, hb, hmax, _⟩ := hyes ⟨4, by decide, by decide, Or.inr (Or.inr rfl)⟩
  have h4 := hmax 4 (by decide) (by decide) (Or.inr (Or.inr rfl))
  have hstart : rs.start = 4 := by
    unfold abab_match at hmatch
    omega
  have hend : (backward_row_loop literal_hl "ab".toList 0 (vterminal_new abab_impl ⟨6, 1⟩)
      0 6 0 5 10 0 none 0 0 0).map (fun r => r.end_) = some 6 := by decide
  rw [hrs] at hend
  simp only [Option.map_some', Option.some.injEq] at hend
  refine ⟨Or.inr (Or.inr rfl), ?_, rs, hrs, hm, hstart, hend⟩
  unfold abab_match
  omega

/-! ## Wraparound termination bound (C7) -/

/-- C7, as stated, fails: on the example of `scr_search_regex` (scrollback 6,
height 3, so count 9; width 3), with wraparound enabled and the origin at search
id 6, column 0, a forward search for "zzz", which no row contains, returns 0
after 10 calls of the primitive, not at most 9: the origin row is probed first
from column 1 and, after the other eight rows, once more from column 0. -/
theorem C7_wraparound_nine_probes_counterexample :
    vterminal_get_sb_num_rows (scr_search_regex_init (demo_scr 0 0)).vt = 6
    ∧ (vterminal_get_height_width (scr_search_regex_init (demo_scr 0 0)).vt) = (3, 3)
    ∧ (scr_search_regex_init (demo_scr 0 0)).search_sid_init = 6
    ∧ (scr_search_regex_init (demo_scr 0 0)).search_col_init = 0
    ∧ reports_no_match literal_hl (scr_search_regex_init (demo_scr 0 0)).vt 3 "zzz".toList 0
    ∧ (scr_search_regex literal_hl 1 20 (scr_search_regex_init (demo_scr 0 0))
        (some "zzz".toList) 2 1 0).map
          (fun o => (o.result, o.probes.map (fun p => (p.sid, p.col)), o.probes.length))
        = some (0, [(6, 1), (7, 0), (8, 0), (0, 0), (1, 0), (2, 0), (3, 0), (4, 0), (5, 0),
            (6, 0)], 10)
    ∧ ¬ (10 : Nat) ≤ 9 :=
  ⟨rfl, rfl, rfl, rfl, demo_reports_no_match 0 0 0, by rfl, by decide⟩

/-- C7 amended (wraparound termination bound): with wraparound enabled, for an
origin whose row is a search id (`0 ≤ sid ≤ count-1`, `count = S+H`) and whose
column is not negative, a forward search in which the primitive reports no match
on any fetched text returns 0 (given `count+1` units of fuel or more) after
exactly `count + 1` calls of the primitive when the origin column is left of the
last column and exactly `count` calls otherwise; so after at most `count + 1`
calls, all on search ids in `0 .. count-1`, hence on at most `count` rows. -/
theorem C7_wraparound_probe_count (hl : HlRegex) (w : Int) (fuel : Nat) (scr : scroller)
    (regex : List Char) (opt direction icase : Int)
    (hw : w ≠ 0) (hdir : direction ≠ 0)
    (h0 : 0 ≤ scr.search_sid_init)
    (h1 : scr.search_sid_init
      ≤ vterminal_get_sb_num_rows scr.vt + (vterminal_get_height_width scr.vt).1 - 1)
    (hc : 0 ≤ scr.search_col_init)
    (hno : reports_no_match hl scr.vt (vterminal_get_height_width scr.vt).2 regex icase)
    (hfuel : vterminal_get_sb_num_rows scr.vt + (vterminal_get_height_width scr.vt).1 + 1
      ≤ (fuel : Int)) :
    ∃ out, scr_search_regex hl w fuel scr (some regex) opt direction icase = some out
      ∧ out.result = 0
      ∧ (out.probes.length : Int)
          = (if scr.search_col_init < (vterminal_get_height_width scr.vt).2 - 1
             then vterminal_get_sb_num_rows scr.vt + (vterminal_get_height_width scr.vt).1 + 1
             else vterminal_get_sb_num_rows scr.vt + (vterminal_get_height_width scr.vt).1)
      ∧ (out.probes.length : Int)
          ≤ vterminal_get_sb_num_rows scr.vt + (vterminal_get_height_width scr.vt).1 + 1
      ∧ (∀ p ∈ out.probes, 0 ≤ p.sid
          ∧ p.sid ≤ vterminal_get_sb_num_rows scr.vt + (vterminal_get_height_width scr.vt).1 - 1)
      ∧ (((out.probes.map hl_probe.sid).toFinset.card : Nat) : Int)
          ≤ vterminal_get_sb_num_rows scr.vt + (vterminal_get_height_width scr.vt).1 := by
  obtain ⟨o, ho, hret, hlen, hex, hin⟩ := forward_search_returns hl w fuel scr regex opt icase
    h0 h1 hfuel
  obtain ⟨hr, _, _⟩ := forward_loop_no_match hl regex icase _ _ _ _ _ _ fuel scr _ _ o hno ho
  refine ⟨⟨search_commit hl o.scr opt o.result, o.result, o.probes⟩, ?_, hr,
    hex (by omega) hw hc, hlen, ?_, ?_⟩
  · unfold scr_search_regex
    rw [if_pos hdir]
    exact hret
  · intro p hp
    have := hin p hp
    omega
  · have hsub : (o.probes.map hl_probe.sid).toFinset
        ⊆ Finset.Ico 0
          (vterminal_get_sb_num_rows scr.vt + (vterminal_get_height_width scr.vt).1) := by
      intro x hx
      simp only [List.mem_toFinset, List.mem_map] at hx
      obtain ⟨p, hp, rfl⟩ := hx
      exact Finset.mem_Ico.mpr (hin p hp)
    have hcard := Finset.card_le_card hsub
    rw [Int.card_Ico] at hcard
    have hpos : 0 ≤ vterminal_get_sb_num_rows scr.vt + (vterminal_get_height_width scr.vt).1 := by
      omega
    show ((List.map hl_probe.sid o.probes).toFinset.card : Int) ≤ _
    omega

/-- Two runs of C7 amended on the example screen (count 9, width 3, wraparound
enabled, pattern "zzz"): from the origin (6, 0) the forward search makes 10 calls
of the primitive, from the origin (6, 2) it makes 9; both return 0. -/
theorem C7_wraparound_probe_count_witness :
    reports_no_match literal_hl (scr_search_regex_init (demo_scr 0 0)).vt 3 "zzz".toList 0
    ∧ (∃ out, scr_search_regex literal_hl 1 20 (scr_search_regex_init (demo_scr 0 0))
        (some "zzz".toList) 2 1 0 = some out ∧ out.result = 0 ∧ out.probes.length = 10)
    ∧ (∃ out, scr_search_regex literal_hl 1 20 (scr_search_regex_init (demo_scr 0 2))
        (some "zzz".toList) 2 1 0 = some out ∧ out.result = 0 ∧ out.probes.length = 9) := by
  refine ⟨demo_reports_no_match 0 0 0, ?_, ?_⟩
  · obtain ⟨out, hout, hr, hlen, _⟩ := C7_wraparound_probe_count literal_hl 1 20
      (scr_search_regex_init (demo_scr 0 0)) "zzz".toList 2 1 0 (by decide) (by decide)
      (by decide) (by decide) (by decide) (demo_reports_no_match 0 0 0) (by decide)
    refine ⟨out, hout, hr, ?_⟩
    have h10 : (if (scr_search_regex_init (demo_scr 0 0)).search_col_init
          < (vterminal_get_height_width (scr_search_regex_init (demo_scr 0 0)).vt).2 - 1
        then vterminal_get_sb_num_rows (scr_search_regex_init (demo_scr 0 0)).vt
          + (vterminal_get_height_width (scr_search_regex_init (demo_scr 0 0)).vt).1 + 1
        else vterminal_get_sb_num_rows (scr_search_regex_init (demo_scr 0 0)).vt
          + (vterminal_get_height_width (scr_search_regex_init (demo_scr 0 0)).vt).1)
        = (10 : Int) := by decide
    rw [h10] at hlen
    exact_mod_cast hlen
  · obtain ⟨out, hout, hr, hlen, _⟩ := C7_wraparound_probe_count literal_hl 1 20
      (scr_search_regex_init (demo_scr 0 2)) "zzz".toList 2 1 0 (by decide) (by decide)
      (by decide) (by decide) (by decide) (demo_reports_no_match 0 2 0) (by decide)
    refine ⟨out, hout, hr, ?_⟩
    have h9 : (if (scr_search_regex_init (demo_scr 0 2)).search_col_init
          < (vterminal_get_height_width (scr_search_regex_init (demo_scr 0 2)).vt).2 - 1
        then vterminal_get_sb_num_rows (scr_search_regex_init (demo_scr 0 2)).vt
          + (vterminal_get_height_width (scr_search_regex_init (demo_scr 0 2)).vt).1 + 1
        else vterminal_get_sb_num_rows (scr_search_regex_init (demo_scr 0 2)).vt
          + (vterminal_get_height_width (scr_search_regex_init (demo_scr 0 2)).vt).1)
        = (9 : Int) := by decide
    rw [h9] at hlen
    exact_mod_cast hlen

/-! ## Navigation (C8, C9) -/

/-- C8 (single-row move boundary): `scr_up scr n` with `n = 1` and cursor row
`r > 0` sets the row to `r - 1` and leaves the emulator untouched (no scroll
request, delta unchanged); in every other case it leaves the row unchanged and
the emulator is the old one after the request `scroll_delta n`.  `scr_down` is
symmetric with the test `r < H - 1`, the row `r + 1` and the request
`scroll_delta (-n)`.  Neither changes the cursor column. -/
theorem C8_single_row_move (scr : scroller) (n : Int) :
    (scr_up scr n).scroll_cursor_row
        = (if n = 1 ∧ scr.scroll_cursor_row > 0 then scr.scroll_cursor_row - 1
           else scr.scroll_cursor_row)
    ∧ (scr_up scr n).vt
        = (if n = 1 ∧ scr.scroll_cursor_row > 0 then scr.vt
           else vterminal_scroll_delta scr.vt n)
    ∧ (scr_up scr n).vt.requests
        = (if n = 1 ∧ scr.scroll_cursor_row > 0 then scr.vt.requests
           else VTRequest.scroll_delta n :: scr.vt.requests)
    ∧ (scr_up scr n).scroll_cursor_col = scr.scroll_cursor_col
    ∧ (scr_down scr n).scroll_cursor_row
        = (if n = 1 ∧ scr.scroll_cursor_row < (vterminal_get_height_width scr.vt).1 - 1
           then scr.scroll_cursor_row + 1 else scr.scroll_cursor_row)
    ∧ (scr_down scr n).vt
        = (if n = 1 ∧ scr.scroll_cursor_row < (vterminal_get_height_width scr.vt).1 - 1
           then scr.vt else vterminal_scroll_delta scr.vt (-n))
    ∧ (scr_down scr n).vt.requests
        = (if n = 1 ∧ scr.scroll_cursor_row < (vterminal_get_height_width scr.vt).1 - 1
           then scr.vt.requests else VTRequest.scroll_delta (-n) :: scr.vt.requests)
    ∧ (scr_down scr n).scroll_cursor_col = scr.scroll_cursor_col := by
  refine ⟨?_, ?_, ?_, ?_, ?_, ?_, ?_, ?_⟩
  · unfold scr_up
    by_cases h : scr.scroll_cursor_row > 0 ∧ n = 1
    · rw [if_pos h, if_pos ⟨h.2, h.1⟩]
    · rw [if_neg h, if_neg (fun h2 => h ⟨h2.2, h2.1⟩)]
  · unfold scr_up
    by_cases h : scr.scroll_cursor_row > 0 ∧ n = 1
    · rw [if_pos h, if_pos ⟨h.2, h.1⟩]
    · rw [if_neg h, if_neg (fun h2 => h ⟨h2.2, h2.1⟩)]
  · unfold scr_up
    by_cases h : scr.scroll_cursor_row > 0 ∧ n = 1
    · rw [if_pos h, if_pos ⟨h.2, h.1⟩]
    · rw [if_neg h, if_neg (fun h2 => h ⟨h2.2, h2.1⟩)]
      rfl
  · unfold scr_up
    split <;> rfl
  · unfold scr_down
    by_cases h : scr.scroll_cursor_row < (vterminal_get_height_width scr.vt).1 - 1 ∧ n = 1
    · simp only [if_pos h, if_pos (And.intro h.2 h.1)]
    · simp only [if_neg h, if_neg (fun h2 : n = 1 ∧ _ => h ⟨h2.2, h2.1⟩)]
  · unfold scr_down
    by_cases h : scr.scroll_cursor_row < (vterminal_get_height_width scr.vt).1 - 1 ∧ n = 1
    · simp only [if_pos h, if_pos (And.intro h.2 h.1)]
    · simp only [if_neg h, if_neg (fun h2 : n = 1 ∧ _ => h ⟨h2.2, h2.1⟩)]
  · unfold scr_down
    by_cases h : scr.scroll_cursor_row < (vterminal_get_height_width scr.vt).1 - 1 ∧ n = 1
    · simp only [if_pos h, if_pos (And.intro h.2 h.1)]
    · simp only [if_neg h, if_neg (fun h2 : n = 1 ∧ _ => h ⟨h2.2, h2.1⟩)]
      rfl
  · unfold scr_down
    simp only
    split <;> rfl

/-- The witness of C8 in a viewport of height 3: at row 0 `up(1)` keeps the row
and sends the request `scroll_delta 1`; at row 1 `up(1)` gives row 0 and leaves
the delta (and the whole emulator) unchanged. -/
theorem C8_single_row_move_witness :
    (vterminal_get_height_width (demo_scr 0 0).vt).1 = 3
    ∧ (scr_up (demo_scr 0 0) 1).scroll_cursor_row = 0
    ∧ (scr_up (demo_scr 0 0) 1).vt.requests = [VTRequest.scroll_delta 1]
    ∧ (scr_up (demo_scr 1 0) 1).scroll_cursor_row = 0
    ∧ (scr_up (demo_scr 1 0) 1).vt.delta = (demo_scr 1 0).vt.delta
    ∧ (scr_up (demo_scr 1 0) 1).vt.requests = [] := by
  have h0 := C8_single_row_move (demo_scr 0 0) 1
  have h1 := C8_single_row_move (demo_scr 1 0) 1
  refine ⟨rfl, ?_, ?_, ?_, ?_, ?_⟩
  · rw [h0.1]; decide
  · rw [h0.2.2.1]; decide
  · rw [h1.1]; decide
  · rw [h1.2.1]; decide
  · rw [h1.2.2.1]; decide

/-- C9 (cursor-in-viewport invariant under navigation): if the scroll cursor
satisfies `0 ≤ row ≤ H-1` and `0 ≤ col ≤ W-1` (which forces `H ≥ 1`, `W ≥ 1`),
it still does after `scr_up n`, `scr_down n` (every integer `n`), `scr_left`,
`scr_right`, `scr_home`, `scr_end`, `scr_beginning_of_row` and `scr_end_of_row`;
`scr_left` and `scr_right` never change the row; and `scr_set_scroll_mode true`
on a session that is not yet in scroll mode (or whose cursor is already inside)
yields a cursor inside the viewport whenever the emulator's live cursor is. -/
theorem C9_cursor_in_viewport_navigation (scr : scroller) (n : Int) :
    (cursor_in_viewport scr →
        cursor_in_viewport (scr_up scr n) ∧ cursor_in_viewport (scr_down scr n)
        ∧ cursor_in_viewport (scr_left scr) ∧ cursor_in_viewport (scr_right scr)
        ∧ cursor_in_viewport (scr_home scr) ∧ cursor_in_viewport (scr_end scr)
        ∧ cursor_in_viewport (scr_beginning_of_row scr)
        ∧ cursor_in_viewport (scr_end_of_row scr))
    ∧ (scr_left scr).scroll_cursor_row = scr.scroll_cursor_row
    ∧ (scr_right scr).scroll_cursor_row = scr.scroll_cursor_row
    ∧ ((scr.in_scroll_mode = false ∨ cursor_in_viewport scr) →
        live_cursor_in_viewport scr.vt →
        cursor_in_viewport (scr_set_scroll_mode scr true)) := by
  refine ⟨?_, ?_, ?_, ?_⟩
  · rintro ⟨h1, h2, h3, h4⟩
    simp only [vterminal_get_height_width] at h2 h4
    refine ⟨?_, ?_, ?_, ?_, ?_, ?_, ?_, ?_⟩
    · unfold scr_up
      split
      · rename_i h
        simp only [cursor_in_viewport, vterminal_get_height_width]
        omega
      · exact ⟨h1, h2, h3, h4⟩
    · unfold scr_down
      simp only [vterminal_get_height_width]
      split
      · rename_i h
        simp only [cursor_in_viewport, vterminal_get_height_width]
        omega
      · exact ⟨h1, h2, h3, h4⟩
    · unfold scr_left
      split
      · simp only [cursor_in_viewport, vterminal_get_height_width]
        omega
      · exact ⟨h1, h2, h3, h4⟩
    · unfold scr_right
      simp only [vterminal_get_height_width]
      split
      · simp only [cursor_in_viewport, vterminal_get_height_width]
        omega
      · exact ⟨h1, h2, h3, h4⟩
    · exact ⟨h1, h2, h3, h4⟩
    · exact ⟨h1, h2, h3, h4⟩
    · simp only [scr_beginning_of_row, cursor_in_viewport, vterminal_get_height_width]
      omega
    · simp only [scr_end_of_row, cursor_in_viewport, vterminal_get_height_width]
      omega
  · unfold scr_left
    split <;> rfl
  · unfold scr_right
    simp only
    split <;> rfl
  · intro hmode hlive
    unfold scr_set_scroll_mode
    by_cases hm : scr.in_scroll_mode = true
    · have hin : cursor_in_viewport scr := by
        rcases hmode with h | h
        · rw [hm] at h; exact absurd h (by decide)
        · exact h
      simp only [hm, not_true_eq_false, and_false, if_false, true_and]
      exact hin
    · simp only [hm, not_false_eq_true, and_self, if_true]
      exact hlive

/-- A run of C9: the session `demo_scr 1 1` (height 3, width 3) has its cursor in
the viewport and keeps it there under every navigation call; entering scroll mode
from a fresh session puts the cursor at the live cursor (2, 0). -/
theorem C9_cursor_in_viewport_navigation_witness :
    cursor_in_viewport (demo_scr 1 1)
    ∧ cursor_in_viewport (scr_up (demo_scr 1 1) 1)
    ∧ cursor_in_viewport (scr_down (demo_scr 1 1) 7)
    ∧ cursor_in_viewport (scr_right (demo_scr 1 1))
    ∧ cursor_in_viewport (scr_end_of_row (demo_scr 1 1))
    ∧ cursor_in_viewport (scr_set_scroll_mode (scr_new demo_impl ⟨3, 3⟩ 0 0 0 []) true) := by
  have hin : cursor_in_viewport (demo_scr 1 1) := by decide
  have h1 := (C9_cursor_in_viewport_navigation (demo_scr 1 1) 1).1 hin
  have h7 := (C9_cursor_in_viewport_navigation (demo_scr 1 1) 7).1 hin
  have hs := (C9_cursor_in_viewport_navigation (scr_new demo_impl ⟨3, 3⟩ 0 0 0 []) 1).2.2.2
    (Or.inl rfl) (by decide)
  exact ⟨hin, h1.1, h7.2.1, h1.2.2.2.1, h1.2.2.2.2.2.2.2, hs⟩


/-! ## Resize (C10) -/

/-- C10, as stated, fails: the session `demo_scr 2 2` is in scroll mode with its
cursor (2, 2) inside the old 3 × 3 viewport; after `scr_move` to a surface of
height 1 and width 1 the cursor is still (2, 2), outside the new viewport. -/
theorem C10_resize_reclamps_counterexample :
    (demo_scr 2 2).in_scroll_mode = true
    ∧ cursor_in_viewport (demo_scr 2 2)
    ∧ 1 ≤ swin_getmaxy ⟨1, 1⟩ ∧ 1 ≤ swin_getmaxx ⟨1, 1⟩
    ∧ vterminal_get_height_width (scr_move (demo_scr 2 2) ⟨1, 1⟩).vt = (1, 1)
    ∧ (scr_move (demo_scr 2 2) ⟨1, 1⟩).scroll_cursor_row = 2
    ∧ (scr_move (demo_scr 2 2) ⟨1, 1⟩).scroll_cursor_col = 2
    ∧ ¬ cursor_in_viewport (scr_move (demo_scr 2 2) ⟨1, 1⟩) := by
  decide

/-- C10 amended (resize keeps the cursor): `scr_move` leaves the scroll cursor
unchanged and the new emulator has the size of the new surface; so after the
resize the cursor is inside the new viewport exactly when it already satisfied
`0 ≤ row ≤ H'-1` and `0 ≤ col ≤ W'-1`, in particular when it was inside the old
viewport and the new surface is no smaller (`H ≤ H'`, `W ≤ W'`). -/
theorem C10_resize_keeps_cursor (scr : scroller) (win : SWINDOW) :
    (scr_move scr win).scroll_cursor_row = scr.scroll_cursor_row
    ∧ (scr_move scr win).scroll_cursor_col = scr.scroll_cursor_col
    ∧ vterminal_get_height_width (scr_move scr win).vt = (swin_getmaxy win, swin_getmaxx win)
    ∧ (cursor_in_viewport (scr_move scr win) ↔
        (0 ≤ scr.scroll_cursor_row ∧ scr.scroll_cursor_row ≤ swin_getmaxy win - 1
          ∧ 0 ≤ scr.scroll_cursor_col ∧ scr.scroll_cursor_col ≤ swin_getmaxx win - 1))
    ∧ (cursor_in_viewport scr →
        (vterminal_get_height_width scr.vt).1 ≤ swin_getmaxy win →
        (vterminal_get_height_width scr.vt).2 ≤ swin_getmaxx win →
        cursor_in_viewport (scr_move scr win)) := by
  refine ⟨rfl, rfl, rfl, Iff.rfl, ?_⟩
  rintro ⟨h1, h2, h3, h4⟩ hH hW
  simp only [vterminal_get_height_width] at h2 h4 hH hW
  simp only [cursor_in_viewport, scr_move, vterminal_get_height_width, vterminal_push_bytes,
    vterminal_new, swin_getmaxy, swin_getmaxx] at *
  omega

/-- A run of C10 amended: `demo_scr 2 2` (viewport 3 × 3) moved to a surface of
height 5 and width 4 keeps its cursor (2, 2), which is inside the new viewport. -/
theorem C10_resize_keeps_cursor_witness :
    cursor_in_viewport (demo_scr 2 2)
    ∧ (scr_move (demo_scr 2 2) ⟨5, 4⟩).scroll_cursor_row = 2
    ∧ cursor_in_viewport (scr_move (demo_scr 2 2) ⟨5, 4⟩) :=
  ⟨by decide, (C10_resize_keeps_cursor (demo_scr 2 2) ⟨5, 4⟩).1,
    (C10_resize_keeps_cursor (demo_scr 2 2) ⟨5, 4⟩).2.2.2.2 (by decide) (by decide) (by decide)⟩

/-! ## History replay (C11) -/

/-- C11, as stated, fails for the session `scr_new` returns: `scr_new` neither
constructs nor assigns `text`, so the history the appends `b1 .. bn` extend is
whatever that field holds, `t0`.  After the appends the history is
`t0 ++ b1 ++ ... ++ bn`, which is the concatenation `b1 ++ ... ++ bn` only if `t0`
is empty.  Each append does feed exactly `bi` to the emulator, so before a resize
the emulator is the fresh emulator of the first surface fed `b1, .., bn`;
`scr_move` leaves the history unchanged and replaces the emulator by the fresh
emulator of the new surface fed the whole history `t0 ++ b1 ++ ... ++ bn`, which
is the fresh emulator of that size fed `b1, .., bn` only if `t0` is empty.  The
last three parts are a run: a new session on a 2 × 10 surface whose `text` holds
"?" is given "line1\n" and then "line2\n"; its history is "?line1\nline2\n", its
emulator has been fed "line1\nline2\n", and after `scr_move` to a 3 × 10 surface
the new emulator has been fed "?line1\nline2\n". -/
theorem C11_history_starts_unconstructed (impl : VTermImpl) (win0 win : SWINDOW)
    (d0 s0 c0 : Int) (t0 : List Char) (bs : List (List Char)) :
    (bs.foldl scr_add (scr_new impl win0 d0 s0 c0 t0)).text = t0 ++ bs.flatten
    ∧ ((bs.foldl scr_add (scr_new impl win0 d0 s0 c0 t0)).text = bs.flatten ↔ t0 = [])
    ∧ (bs.foldl scr_add (scr_new impl win0 d0 s0 c0 t0)).vt
        = bs.foldl vterminal_push_bytes
            (vterminal_new impl ⟨swin_getmaxx win0, swin_getmaxy win0⟩)
    ∧ (scr_move (bs.foldl scr_add (scr_new impl win0 d0 s0 c0 t0)) win).text
        = t0 ++ bs.flatten
    ∧ (scr_move (bs.foldl scr_add (scr_new impl win0 d0 s0 c0 t0)) win).vt
        = vterminal_push_bytes
            (vterminal_new impl ⟨swin_getmaxx win, swin_getmaxy win⟩) (t0 ++ bs.flatten)
    ∧ ((scr_move (bs.foldl scr_add (scr_new impl win0 d0 s0 c0 t0)) win).vt
        = bs.foldl vterminal_push_bytes
            (vterminal_new impl ⟨swin_getmaxx win, swin_getmaxy win⟩) ↔ t0 = [])
    ∧ (scr_move (["line1\n".toList, "line2\n".toList].foldl scr_add
          (scr_new echo_impl ⟨2, 10⟩ 0 0 0 "?".toList)) ⟨3, 10⟩).text
        = "?line1\nline2\n".toList
    ∧ (["line1\n".toList, "line2\n".toList].foldl scr_add
          (scr_new echo_impl ⟨2, 10⟩ 0 0 0 "?".toList)).vt.input = "line1\nline2\n".toList
    ∧ (scr_move (["line1\n".toList, "line2\n".toList].foldl scr_add
          (scr_new echo_impl ⟨2, 10⟩ 0 0 0 "?".toList)) ⟨3, 10⟩).vt.input
        = "?line1\nline2\n".toList := by
  obtain ⟨h1, h2, h3, h4⟩ := history_replay (scr_new impl win0 d0 s0 c0 t0) win bs
  have ht : (scr_new impl win0 d0 s0 c0 t0).text = t0 := rfl
  have hv : (scr_new impl win0 d0 s0 c0 t0).vt
      = vterminal_new impl ⟨swin_getmaxx win0, swin_getmaxy win0⟩ := rfl
  have hi : (scr_new impl win0 d0 s0 c0 t0).vt.impl = impl := rfl
  rw [ht] at h1 h3 h4
  rw [hv] at h2
  rw [hi] at h4
  refine ⟨h1, ?_, h2, h3, h4, ?_, by decide, by decide, by decide⟩
  · rw [h1]
    exact List.append_left_eq_self
  · rw [h4, vterminal_push_bytes_foldl]
    constructor
    · intro h
      have hin := congrArg VTerminal.input h
      simpa [vterminal_push_bytes, vterminal_new] using hin
    · intro h
      rw [h]
      rfl

/-! ## Marks (C12) -/

/-- C12 (setMark contract): `scr_set_mark scr k` returns 1 exactly when
`'a' ≤ k ≤ 'z'` (codes 97 .. 122) and 0 otherwise.  On success the session is the
old one with only `marks[k - 'a']` replaced by the emulator's live cursor
position `(r, c)`: that mark is `(r, c)` (the table has 26 entries), every other
mark, the jump-back mark, the scroll cursor and the search state are unchanged.
On failure the session is unchanged.  Any number of `scr_refresh` calls leave
the session, hence the marks, unchanged. -/
theorem C12_set_mark_contract (env : render_env) (scr : scroller) (k : Int)
    (calls : List (Int × win_refresh)) :
    ((scr_set_mark scr k).2 = 1 ↔ (97 ≤ k ∧ k ≤ 122))
    ∧ ((scr_set_mark scr k).2 = 0 ↔ ¬ (97 ≤ k ∧ k ≤ 122))
    ∧ ((97 ≤ k ∧ k ≤ 122) →
        (scr_set_mark scr k).1
          = { scr with marks := (scr.marks.set (k - 97).toNat
                (scroller_mark.mk (vterminal_get_cursor_pos scr.vt).1
                  (vterminal_get_cursor_pos scr.vt).2)) }
        ∧ (scr.marks.length = 26 →
            (scr_set_mark scr k).1.marks[(k - 97).toNat]?
              = some ⟨(vterminal_get_cursor_pos scr.vt).1, (vterminal_get_cursor_pos scr.vt).2⟩)
        ∧ (∀ j : Nat, j ≠ (k - 97).toNat →
            (scr_set_mark scr k).1.marks[j]? = scr.marks[j]?)
        ∧ (scr_set_mark scr k).1.marks.length = scr.marks.length
        ∧ (scr_set_mark scr k).1.jump_back_mark = scr.jump_back_mark
        ∧ (scr_set_mark scr k).1.scroll_cursor_row = scr.scroll_cursor_row
        ∧ (scr_set_mark scr k).1.scroll_cursor_col = scr.scroll_cursor_col
        ∧ (scr_set_mark scr k).1.in_search_mode = scr.in_search_mode
        ∧ (scr_set_mark scr k).1.hlregex = scr.hlregex
        ∧ (scr_set_mark scr k).1.last_hlregex = scr.last_hlregex
        ∧ (scr_set_mark scr k).1.search_row = scr.search_row
        ∧ (scr_set_mark scr k).1.search_col_start = scr.search_col_start
        ∧ (scr_set_mark scr k).1.search_col_end = scr.search_col_end
        ∧ (scr_set_mark scr k).1.delta_init = scr.delta_init
        ∧ (scr_set_mark scr k).1.search_sid_init = scr.search_sid_init
        ∧ (scr_set_mark scr k).1.search_col_init = scr.search_col_init
        ∧ (scr_set_mark scr k).1.vt = scr.vt)
    ∧ (¬ (97 ≤ k ∧ k ≤ 122) → (scr_set_mark scr k).1 = scr)
    ∧ run_refreshes env (scr_set_mark scr k).1 calls = (scr_set_mark scr k).1
    ∧ (run_refreshes env (scr_set_mark scr k).1 calls).marks = (scr_set_mark scr k).1.marks := by
  have hrun := run_refreshes_eq env calls (scr_set_mark scr k).1
  by_cases hk : k ≥ 97 ∧ k ≤ 122
  · have hk2 : 97 ≤ k ∧ k ≤ 122 := ⟨hk.1, hk.2⟩
    have hdef : scr_set_mark scr k
        = ({ scr with marks := (scr.marks.set (k - 97).toNat
              (scroller_mark.mk (vterminal_get_cursor_pos scr.vt).1
                (vterminal_get_cursor_pos scr.vt).2)) }, 1) := by
      unfold scr_set_mark
      simp only [if_pos hk]
    refine ⟨?_, ?_, ?_, ?_, hrun, by rw [hrun]⟩
    · rw [hdef]; exact ⟨fun _ => hk2, fun _ => rfl⟩
    · rw [hdef]
      exact ⟨fun h => absurd h (by simp), fun h => absurd hk2 h⟩
    · intro _
      rw [hdef]
      refine ⟨rfl, ?_, ?_, ?_, rfl, rfl, rfl, rfl, rfl, rfl, rfl, rfl, rfl, rfl, rfl, rfl, rfl⟩
      · intro hlen
        have hlt : (k - 97).toNat < scr.marks.length := by omega
        simp [List.getElem?_set, hlt]
      · intro j hj
        simp only
        rw [List.getElem?_set_ne (Ne.symm hj)]
      · simp
    · intro h; exact absurd hk2 h
  · have hk2 : ¬ (97 ≤ k ∧ k ≤ 122) := fun h => hk ⟨h.1, h.2⟩
    have hdef : scr_set_mark scr k = (scr, 0) := by
      unfold scr_set_mark
      simp only [if_neg hk]
    refine ⟨?_, ?_, ?_, ?_, hrun, by rw [hrun]⟩
    · rw [hdef]
      exact ⟨fun h => absurd h (by simp), fun h => absurd h hk2⟩
    · rw [hdef]; exact ⟨fun _ => hk2, fun _ => rfl⟩
    · intro h; exact absurd h hk2
    · intro _; rw [hdef]

/-- The witness of C12: with the live cursor at (2, 5), `scr_set_mark` with `'a'`
(97) returns 1 and stores (2, 5) in the first mark, which three `scr_refresh`
calls leave in place; with `'1'` (49) it returns 0 and leaves the 26 unset marks
as they are. -/
theorem C12_set_mark_contract_witness :
    vterminal_get_cursor_pos (scr_new mark_impl ⟨3, 10⟩ 0 0 0 []).vt = (2, 5)
    ∧ (scr_set_mark (scr_new mark_impl ⟨3, 10⟩ 0 0 0 []) 97).2 = 1
    ∧ (scr_set_mark (scr_new mark_impl ⟨3, 10⟩ 0 0 0 []) 97).1.marks[0]? = some ⟨2, 5⟩
    ∧ (run_refreshes ⟨1, 2, fun _ _ _ => 0⟩
        (scr_set_mark (scr_new mark_impl ⟨3, 10⟩ 0 0 0 []) 97).1
        [(1, win_refresh.WIN_REFRESH), (0, win_refresh.WIN_NO_REFRESH),
          (1, win_refresh.WIN_REFRESH)]).marks[0]? = some ⟨2, 5⟩
    ∧ (scr_set_mark (scr_new mark_impl ⟨3, 10⟩ 0 0 0 []) 49).2 = 0
    ∧ (scr_set_mark (scr_new mark_impl ⟨3, 10⟩ 0 0 0 []) 49).1.marks
        = List.replicate 26 ⟨-1, -1⟩ := by
  have ha := C12_set_mark_contract ⟨1, 2, fun _ _ _ => 0⟩ (scr_new mark_impl ⟨3, 10⟩ 0 0 0 []) 97
    [(1, win_refresh.WIN_REFRESH), (0, win_refresh.WIN_NO_REFRESH), (1, win_refresh.WIN_REFRESH)]
  have h1 := C12_set_mark_contract ⟨1, 2, fun _ _ _ => 0⟩ (scr_new mark_impl ⟨3, 10⟩ 0 0 0 []) 49 []
  obtain ⟨a1, _, a3, _, _, a6⟩ := ha
  obtain ⟨_, b2, _, b4, _, _⟩ := h1
  have hm := (a3 (by decide)).2.1 (by decide)
  refine ⟨rfl, a1.mpr (by decide), hm, ?_, b2.mpr (by decide), ?_⟩
  · rw [a6]; exact hm
  · rw [b4 (by decide)]; rfl

/-! ## Commit and the search mode flag (C13) -/

/-- C13, as stated, fails: on the example screen, after `scr_search_regex_init` a
committed forward search for "abc" (found) and one for "zzz" (not found) both
leave `in_search_mode` true; so does a committed backward search. -/
theorem C13_commit_returns_to_idle_counterexample :
    (scr_search_regex_init (demo_back_scr 1 2 0)).in_search_mode = true
    ∧ (scr_search_regex literal_hl 1 20 (scr_search_regex_init (demo_back_scr 1 2 0))
        (some "abc".toList) 2 1 0).map (fun o => (o.result, o.scr.in_search_mode))
        = some (1, true)
    ∧ (scr_search_regex literal_hl 1 20 (scr_search_regex_init (demo_back_scr 1 2 0))
        (some "zzz".toList) 2 1 0).map (fun o => (o.result, o.scr.in_search_mode))
        = some (0, true)
    ∧ (scr_search_regex literal_hl 1 20 (scr_search_regex_init (demo_back_scr 1 2 0))
        (some "abc".toList) 2 0 0).map (fun o => (o.result, o.scr.in_search_mode))
        = some (1, true) :=
  ⟨rfl, by rfl, by rfl, by rfl⟩

/-- C13 amended (a search never changes the search mode flag): every search
call that returns, in either mode and direction and whether or not it found a
match, leaves `in_search_mode` as it was; so after `scr_search_regex_init` and a
committed search the session is still in search mode, and it is
`scr_search_regex_final` that clears the flag.  A committed search with a
pattern does set the recorded match row and span to 0. -/
theorem C13_search_keeps_search_mode (hl : HlRegex) (w : Int) (fuel : Nat) (scr0 : scroller)
    (regex : Option (List Char)) (opt direction icase : Int) (out : search_outcome)
    (hret : scr_search_regex hl w fuel (scr_search_regex_init scr0) regex opt direction icase
      = some out) :
    out.scr.in_search_mode = (scr_search_regex_init scr0).in_search_mode
    ∧ out.scr.in_search_mode = true
    ∧ (scr_search_regex_final out.scr).in_search_mode = false
    ∧ (opt = 2 → regex ≠ none →
        out.scr.search_row = 0 ∧ out.scr.search_col_start = 0 ∧ out.scr.search_col_end = 0) := by
  have hkey : out.scr.in_search_mode = (scr_search_regex_init scr0).in_search_mode
      ∧ (opt = 2 → regex ≠ none →
        out.scr.search_row = 0 ∧ out.scr.search_col_start = 0 ∧ out.scr.search_col_end = 0) := by
    rcases scr_search_regex_outcome hl w fuel _ regex opt direction icase out hret with
      ⟨hnone, hscr, _, _⟩ | ⟨_, st, hst, hcase⟩
    · rw [hscr]
      exact ⟨rfl, fun _ hne => absurd hnone hne⟩
    · refine ⟨?_, ?_⟩
      · rw [hst, (search_commit_frame hl st opt out.result).1]
        rcases hcase with ⟨_, ⟨info, hinfo⟩, _⟩ | ⟨_, pre, post, p, info, _, _, _, _, hm⟩
        · rw [hinfo]
        · rw [hm]
          exact (scan_frame_matched _ _ _ _ _ _ _ _ _).in_search_mode
      · intro hopt _
        subst hopt
        rw [hst]
        exact search_commit_clears hl st out.result
  exact ⟨hkey.1, hkey.1.trans rfl, rfl, hkey.2⟩

/-- A run of C13 amended: after `scr_search_regex_init`, the committed forward
search for "abc" on the example screen returns 1 with `in_search_mode` still
true and the match fields 0, and `scr_search_regex_final` then clears the flag. -/
theorem C13_search_keeps_search_mode_witness :
    ∃ out, scr_search_regex literal_hl 1 20 (scr_search_regex_init (demo_back_scr 1 2 0))
        (some "abc".toList) 2 1 0 = some out
      ∧ out.result = 1
      ∧ out.scr.in_search_mode = true
      ∧ (scr_search_regex_final out.scr).in_search_mode = false
      ∧ out.scr.search_col_end = 0 := by
  have hres : (scr_search_regex literal_hl 1 20 (scr_search_regex_init (demo_back_scr 1 2 0))
      (some "abc".toList) 2 1 0).map (fun o => o.result) = some 1 := by rfl
  obtain ⟨out, hout, hval⟩ := Option.map_eq_some'.mp hres
  have h := C13_search_keeps_search_mode literal_hl 1 20 (demo_back_scr 1 2 0)
    (some "abc".toList) 2 1 0 out hout
  exact ⟨out, hout, hval, h.2.1, h.2.2.1, (h.2.2.2 rfl (by simp)).2.2⟩

/-! ## The result of a search without a match (C14) -/

/-- C14 at its failing input: on the example screen, with the cursor at (1, 1)
and the match fields 0, a committed forward search for the empty pattern, on
which the primitive answers -1 on every row, returns -1 rather than 0, moves the
scroll cursor to (0, 0) and does not ask the emulator for the initial delta; the
forward preview returns -1 as well.  The backward scan on the same input
returns 0, leaves the cursor at (1, 1) and asks for the initial delta. -/
theorem C14_forward_returns_error_result :
    ((scr_search_regex_init (demo_scr 1 1)).scroll_cursor_row,
        (scr_search_regex_init (demo_scr 1 1)).scroll_cursor_col) = (1, 1)
    ∧ (scr_search_regex literal_hl 1 20 (scr_search_regex_init (demo_scr 1 1))
        (some []) 2 1 0).map (fun o => (o.result, o.probes.map (fun p => p.result),
          o.scr.scroll_cursor_row, o.scr.scroll_cursor_col, o.scr.vt.requests))
        = some (-1, [-1, -1, -1, -1, -1, -1, -1, -1, -1, -1], 0, 0, [])
    ∧ (scr_search_regex literal_hl 1 20 (scr_search_regex_init (demo_scr 1 1))
        (some []) 1 1 0).map (fun o => o.result) = some (-1)
    ∧ (scr_search_regex literal_hl 1 20 (scr_search_regex_init (demo_scr 1 1))
        (some []) 2 0 0).map (fun o => (o.result, o.probes.map (fun p => p.result),
          o.scr.scroll_cursor_row, o.scr.scroll_cursor_col, o.scr.vt.requests))
        = some (0, [-1, -1, -1, -1, -1, -1, -1, -1, -1, -1], 1, 1,
            [VTRequest.scroll_set_delta 0]) :=
  ⟨rfl, by rfl, by rfl, by rfl⟩


/-! ## Mode idempotence (C15) -/

/-- C15 (mode idempotence): for every session, `scr_set_scroll_mode` with `true`
applied twice gives the same session as applied once, and likewise with `false`;
on a session already in scroll mode `scr_set_scroll_mode true` changes nothing
(the cursor is not snapshotted again), and on a session not in scroll mode
`scr_set_scroll_mode false` changes nothing. -/
theorem C15_mode_idempotence (scr : scroller) :
    scr_set_scroll_mode (scr_set_scroll_mode scr true) true = scr_set_scroll_mode scr true
    ∧ scr_set_scroll_mode (scr_set_scroll_mode scr false) false = scr_set_scroll_mode scr false
    ∧ (scr.in_scroll_mode = true → scr_set_scroll_mode scr true = scr)
    ∧ (scr.in_scroll_mode = false → scr_set_scroll_mode scr false = scr)
    ∧ (scr_set_scroll_mode scr true).in_scroll_mode = true
    ∧ (scr_set_scroll_mode scr false).in_scroll_mode = false := by
  have hon : ∀ s : scroller, s.in_scroll_mode = true → scr_set_scroll_mode s true = s := by
    intro s hs
    simp [scr_set_scroll_mode, hs]
  have hoff : ∀ s : scroller, s.in_scroll_mode = false → scr_set_scroll_mode s false = s := by
    intro s hs
    simp [scr_set_scroll_mode, hs]
  have h1 : (scr_set_scroll_mode scr true).in_scroll_mode = true := by
    cases hm : scr.in_scroll_mode
    · simp [scr_set_scroll_mode, hm]
    · simp [scr_set_scroll_mode, hm]
  have h2 : (scr_set_scroll_mode scr false).in_scroll_mode = false := by
    cases hm : scr.in_scroll_mode
    · simp [scr_set_scroll_mode, hm]
    · simp [scr_set_scroll_mode, hm]
  exact ⟨hon _ h1, hoff _ h2, hon scr, hoff scr, h1, h2⟩

/-- A run of C15: a fresh session on the screen whose live cursor is (2, 5)
enters scroll mode with the cursor (2, 5); after `scr_up 1` the cursor row is 1
and a second `scr_set_scroll_mode true` leaves it at 1. -/
theorem C15_mode_idempotence_witness :
    (scr_set_scroll_mode (scr_new mark_impl ⟨3, 10⟩ 0 0 0 []) true).scroll_cursor_row = 2
    ∧ (scr_up (scr_set_scroll_mode (scr_new mark_impl ⟨3, 10⟩ 0 0 0 []) true) 1).scroll_cursor_row
        = 1
    ∧ vterminal_get_cursor_pos
        (scr_up (scr_set_scroll_mode (scr_new mark_impl ⟨3, 10⟩ 0 0 0 []) true) 1).vt = (2, 5)
    ∧ scr_set_scroll_mode
        (scr_up (scr_set_scroll_mode (scr_new mark_impl ⟨3, 10⟩ 0 0 0 []) true) 1) true
        = scr_up (scr_set_scroll_mode (scr_new mark_impl ⟨3, 10⟩ 0 0 0 []) true) 1
    ∧ scr_set_scroll_mode (scr_new mark_impl ⟨3, 10⟩ 0 0 0 []) false
        = scr_new mark_impl ⟨3, 10⟩ 0 0 0 [] :=
  ⟨by decide, by decide, rfl,
    (C15_mode_idempotence
      (scr_up (scr_set_scroll_mode (scr_new mark_impl ⟨3, 10⟩ 0 0 0 []) true) 1)).2.2.1 (by decide),
    (C15_mode_idempotence (scr_new mark_impl ⟨3, 10⟩ 0 0 0 [])).2.2.2.1 rfl⟩

/-! ## The forward scan order (C16) -/

/-- C16 (the forward scan finds the first match in scan order): for an origin
`(sid0, col0)` whose row is a search id, a forward search returns (with `count+1`
units of fuel or more).  Its calls of the primitive are made in the scan order:
the first on the origin row from column `col0 + 1`, or, when `col0` is not left
of the last column, on the next row (row 0 after row `count - 1`) from column 0;
each further one on the next row from column 0, with row 0 after row `count - 1`;
every call is the primitive's answer on the text fetched for that row from that
column.  When the search reports a match, the match is that of the last call and
no earlier call in the order reported one; the recorded span is
`(start + c, end + c)` for that call's start column `c` and offsets (in a preview
in `search_col_start`, `search_col_end`; in a commit the cursor column is
`start + c`), so a match of the first call on the origin row, with a start offset
that is not negative, starts strictly after the origin column. -/
theorem C16_forward_first_match (hl : HlRegex) (w : Int) (fuel : Nat) (scr : scroller)
    (regex : List Char) (opt direction icase : Int) (hdir : direction ≠ 0)
    (h0 : 0 ≤ scr.search_sid_init)
    (h1 : scr.search_sid_init
      ≤ vterminal_get_sb_num_rows scr.vt + (vterminal_get_height_width scr.vt).1 - 1)
    (hfuel : vterminal_get_sb_num_rows scr.vt + (vterminal_get_height_width scr.vt).1 + 1
      ≤ (fuel : Int)) :
    ∃ out, scr_search_regex hl w fuel scr (some regex) opt direction icase = some out
      ∧ (∃ (p0 : hl_probe) (rest : List hl_probe), out.probes = p0 :: rest
          ∧ (p0.sid, p0.col)
              = (if scr.search_col_init < (vterminal_get_height_width scr.vt).2 - 1
                 then (scr.search_sid_init, scr.search_col_init + 1)
                 else ((if scr.search_sid_init + 1
                          ≥ vterminal_get_sb_num_rows scr.vt
                            + (vterminal_get_height_width scr.vt).1
                        then 0 else scr.search_sid_init + 1), 0)))
      ∧ forward_order
          (vterminal_get_sb_num_rows scr.vt + (vterminal_get_height_width scr.vt).1) out.probes
      ∧ (∀ p ∈ out.probes, ∃ info, p = probe_of p.sid p.col
          (hl.search info (vterminal_fetch_row scr.vt
            (cursor_row_from_sid p.sid (vterminal_get_sb_num_rows scr.vt)
              (vterminal_scroll_get_delta scr.vt))
            p.col (vterminal_get_height_width scr.vt).2) regex icase))
      ∧ (0 < out.result →
          ∃ (pre : List hl_probe) (p : hl_probe), out.probes = pre ++ [p]
            ∧ 0 < p.result ∧ out.result = p.result
            ∧ (∀ q ∈ pre, ¬ 0 < q.result)
            ∧ (opt ≠ 2 → out.scr.search_col_start = p.start + p.col
                ∧ out.scr.search_col_end = p.end_ + p.col)
            ∧ (opt = 2 → out.scr.scroll_cursor_col = p.start + p.col)
            ∧ (pre = [] → scr.search_col_init < (vterminal_get_height_width scr.vt).2 - 1 →
                0 ≤ p.start →
                p.sid = scr.search_sid_init ∧ scr.search_col_init < p.start + p.col)) := by
  obtain ⟨o, ho, hret, _, _, _⟩ := forward_search_returns hl w fuel scr regex opt icase
    h0 h1 hfuel
  obtain ⟨⟨p0, rest, hp0, hsid0, hcol0⟩, hord⟩ := forward_loop_order hl regex icase w _ _ _ _ _
    fuel scr _ _ o ho
  have hpr := forward_loop_probes hl regex icase w _ _ _ _ _ fuel scr _ _ o ho
  obtain ⟨pre, p, info, hp, hr, hpre, hm, _⟩ := forward_loop_spec hl regex icase w _ _ _ _ _
    fuel scr _ _ o ho
  have hstart : (p0.sid, p0.col)
      = (if scr.search_col_init < (vterminal_get_height_width scr.vt).2 - 1
         then (scr.search_sid_init, scr.search_col_init + 1)
         else ((if scr.search_sid_init + 1
                  ≥ vterminal_get_sb_num_rows scr.vt + (vterminal_get_height_width scr.vt).1
                then 0 else scr.search_sid_init + 1), 0)) := by
    rw [hsid0, hcol0]
    unfold forward_start
    simp only
  refine ⟨⟨search_commit hl o.scr opt o.result, o.result, o.probes⟩, ?_,
    ⟨p0, rest, hp0, hstart⟩, hord, hpr, ?_⟩
  · unfold scr_search_regex
    rw [if_pos hdir]
    exact hret
  · intro hpos
    simp only at hpos
    have hppos : 0 < p.result := hr ▸ hpos
    obtain ⟨_, m2, m3, _⟩ := matched_state_fields scr info
      (vterminal_get_sb_num_rows scr.vt + (vterminal_get_height_width scr.vt).1)
      (vterminal_get_height_width scr.vt).1 (vterminal_get_sb_num_rows scr.vt)
      (vterminal_scroll_get_delta scr.vt) p.sid (p.start + p.col) (p.end_ + p.col)
    rw [← hm hppos] at m2 m3
    refine ⟨pre, p, hp, hppos, hr, hpre, ?_, ?_, ?_⟩
    · intro hopt
      simp only [search_commit_preview hl o.scr opt o.result hopt]
      exact ⟨m2, m3⟩
    · intro hopt
      subst hopt
      simp only
      rw [(search_commit_match hl o.scr o.result (by omega)).2.1, m2]
    · intro hnil hcol hst
      subst hnil
      rw [hp0] at hp
      simp only [List.nil_append, List.cons.injEq] at hp
      have hpp : p0 = p := hp.1
      subst hpp
      rw [if_pos hcol] at hstart
      simp only [Prod.mk.injEq] at hstart
      refine ⟨hstart.1, ?_⟩
      rw [hstart.2]
      omega

/-- Two runs of C16 on the example screen (count 9, width 3, delta 0, origin
search id 7, column 1): the preview for "abc" probes (7, 2), (8, 0) and, wrapping,
(0, 0), where it finds the match and records the span (0, 3); the preview for
"f" finds its match on the first probe, on the origin row from column 2, and
records the span (2, 3), right of the origin column 1. -/
theorem C16_forward_first_match_witness :
    (∃ out, scr_search_regex literal_hl 1 20 (scr_search_regex_init (demo_back_scr 1 1 0))
        (some "abc".toList) 1 1 0 = some out
      ∧ out.probes = [⟨7, 2, 0, -1, -1⟩, ⟨8, 0, 0, -1, -1⟩, ⟨0, 0, 1, 0, 3⟩]
      ∧ forward_order 9 out.probes
      ∧ out.scr.search_col_start = 0 ∧ out.scr.search_col_end = 3)
    ∧ (∃ out, scr_search_regex literal_hl 1 20 (scr_search_regex_init (demo_back_scr 1 1 0))
        (some "f".toList) 1 1 0 = some out
      ∧ out.probes = [⟨7, 2, 1, 0, 1⟩]
      ∧ out.scr.search_col_start = 2 ∧ out.scr.search_col_end = 3) := by
  constructor
  · obtain ⟨out, hout, _, hord, _, hmatch⟩ := C16_forward_first_match literal_hl 1 20
      (scr_search_regex_init (demo_back_scr 1 1 0)) "abc".toList 1 1 0 (by decide) (by decide)
      (by decide) (by decide)
    have hres : (scr_search_regex literal_hl 1 20 (scr_search_regex_init (demo_back_scr 1 1 0))
        (some "abc".toList) 1 1 0).map (fun o => (o.probes, o.scr.search_col_start,
          o.scr.search_col_end))
        = some ([⟨7, 2, 0, -1, -1⟩, ⟨8, 0, 0, -1, -1⟩, ⟨0, 0, 1, 0, 3⟩], 0, 3) := by rfl
    rw [hout] at hres
    simp only [Option.map_some', Option.some.injEq, Prod.mk.injEq] at hres
    exact ⟨out, hout, hres.1, hord, hres.2.1, hres.2.2⟩
  · obtain ⟨out, hout, _, _, _, hmatch⟩ := C16_forward_first_match literal_hl 1 20
      (scr_search_regex_init (demo_back_scr 1 1 0)) "f".toList 1 1 0 (by decide) (by decide)
      (by decide) (by decide)
    have hres : (scr_search_regex literal_hl 1 20 (scr_search_regex_init (demo_back_scr 1 1 0))
        (some "f".toList) 1 1 0).map (fun o => (o.probes, o.scr.search_col_start,
          o.scr.search_col_end))
        = some ([⟨7, 2, 1, 0, 1⟩], 2, 3) := by rfl
    rw [hout] at hres
    simp only [Option.map_some', Option.some.injEq, Prod.mk.injEq] at hres
    exact ⟨out, hout, hres.1, hres.2.1, hres.2.2⟩

/-! ## Bringing the match into view (C17) -/

/-- C17 (the match is brought into view): a search call, in either direction and
mode, that reports a match found it at a call `p` of the primitive, on the
search id `m = p.sid`, under the delta `d` read at its start.  If `m` is in view
under `d` (`count - d - H ≤ m < count - d`) the emulator is untouched and
`d' = d`; otherwise the emulator has received exactly the request
`scroll_set_delta d'` for the new delta `d'` the scan computed, and for `H ≥ 1`
and `m ≤ count - 1` the row `m` is in view under `d'`.  In both cases the
recorded viewport row is `m - S + d'`, and for `H ≥ 1` and `m ≤ count - 1` it
lies in `0 .. H-1`. -/
theorem C17_match_brought_into_view (hl : HlRegex) (w : Int) (fuel : Nat) (scr : scroller)
    (regex : Option (List Char)) (opt direction icase : Int) (out : search_outcome)
    (hret : scr_search_regex hl w fuel scr regex opt direction icase = some out)
    (hfound : 0 < out.result) :
    ∃ (pre post : List hl_probe) (p : hl_probe),
      out.probes = pre ++ p :: post ∧ 0 < p.result
      ∧ (direction ≠ 0 → post = []) ∧ (direction = 0 → ∃ q, post = [q])
      ∧ (in_view (vterminal_get_sb_num_rows scr.vt + (vterminal_get_height_width scr.vt).1)
            (vterminal_get_height_width scr.vt).1 (vterminal_scroll_get_delta scr.vt) p.sid →
          out.scr.vt = scr.vt
          ∧ delta_after_view_check
              (vterminal_get_sb_num_rows scr.vt + (vterminal_get_height_width scr.vt).1)
              (vterminal_get_height_width scr.vt).1 (vterminal_get_sb_num_rows scr.vt)
              (vterminal_scroll_get_delta scr.vt) p.sid = vterminal_scroll_get_delta scr.vt)
      ∧ (¬ in_view (vterminal_get_sb_num_rows scr.vt + (vterminal_get_height_width scr.vt).1)
            (vterminal_get_height_width scr.vt).1 (vterminal_scroll_get_delta scr.vt) p.sid →
          out.scr.vt.requests
            = VTRequest.scroll_set_delta
                (delta_after_view_check
                  (vterminal_get_sb_num_rows scr.vt + (vterminal_get_height_width scr.vt).1)
                  (vterminal_get_height_width scr.vt).1 (vterminal_get_sb_num_rows scr.vt)
                  (vterminal_scroll_get_delta scr.vt) p.sid) :: scr.vt.requests
          ∧ (1 ≤ (vterminal_get_height_width scr.vt).1 →
              p.sid ≤ vterminal_get_sb_num_rows scr.vt
                + (vterminal_get_height_width scr.vt).1 - 1 →
              in_view (vterminal_get_sb_num_rows scr.vt + (vterminal_get_height_width scr.vt).1)
                (vterminal_get_height_width scr.vt).1
                (delta_after_view_check
                  (vterminal_get_sb_num_rows scr.vt + (vterminal_get_height_width scr.vt).1)
                  (vterminal_get_height_width scr.vt).1 (vterminal_get_sb_num_rows scr.vt)
                  (vterminal_scroll_get_delta scr.vt) p.sid) p.sid))
      ∧ recorded_row opt out.scr
          = p.sid - vterminal_get_sb_num_rows scr.vt
            + delta_after_view_check
                (vterminal_get_sb_num_rows scr.vt + (vterminal_get_height_width scr.vt).1)
                (vterminal_get_height_width scr.vt).1 (vterminal_get_sb_num_rows scr.vt)
                (vterminal_scroll_get_delta scr.vt) p.sid
      ∧ (1 ≤ (vterminal_get_height_width scr.vt).1 →
          p.sid ≤ vterminal_get_sb_num_rows scr.vt + (vterminal_get_height_width scr.vt).1 - 1 →
          0 ≤ recorded_row opt out.scr
          ∧ recorded_row opt out.scr ≤ (vterminal_get_height_width scr.vt).1 - 1) := by
  obtain ⟨pre, post, p, hp, hpos, hfwd, hbwd, hrow, hvt⟩ :=
    scr_search_regex_match hl w fuel scr regex opt direction icase out hret hfound
  refine ⟨pre, post, p, hp, hpos, hfwd, hbwd, ?_, ?_, ?_, ?_⟩
  · intro hin
    rw [if_pos hin] at hvt
    exact ⟨hvt, delta_after_view_check_in_view _ _ _ _ _ hin⟩
  · intro hout
    rw [if_neg hout] at hvt
    refine ⟨by rw [hvt]; rfl, ?_⟩
    intro hH hm
    rw [delta_after_view_check_out_of_view _ _ _ _ _ hout]
    unfold in_view
    split_ifs <;> omega
  · rw [hrow]
    simp only [cursor_row_from_sid]
  · intro hH hm
    rw [hrow]
    simp only [cursor_row_from_sid]
    by_cases hin : in_view
        (vterminal_get_sb_num_rows scr.vt + (vterminal_get_height_width scr.vt).1)
        (vterminal_get_height_width scr.vt).1 (vterminal_scroll_get_delta scr.vt) p.sid
    · rw [delta_after_view_check_in_view _ _ _ _ _ hin]
      unfold in_view at hin
      omega
    · rw [delta_after_view_check_out_of_view _ _ _ _ _ hin]
      split_ifs <;> omega

/-- A run of C17 on the example screen (S = 6, H = 3, delta 0, origin search id
7): the forward preview for "abc" finds it on search id 0, which is not in view
under delta 0 but is in view under the new delta 6 that the scan asks for; the
recorded viewport row is 0 - 6 + 6 = 0. -/
theorem C17_match_brought_into_view_witness :
    ¬ in_view 9 3 0 0 ∧ in_view 9 3 6 0 ∧ delta_after_view_check 9 3 6 0 0 = 6
    ∧ ∃ out, scr_search_regex literal_hl 1 20 (scr_search_regex_init (demo_back_scr 1 2 0))
        (some "abc".toList) 1 1 0 = some out
      ∧ out.result = 1
      ∧ out.scr.vt.requests = [VTRequest.scroll_set_delta 6]
      ∧ out.scr.search_row = 0
      ∧ ∃ p ∈ out.probes, 0 < p.result
          ∧ recorded_row 1 out.scr = p.sid - 6 + delta_after_view_check 9 3 6 0 p.sid := by
  have hres : (scr_search_regex literal_hl 1 20 (scr_search_regex_init (demo_back_scr 1 2 0))
      (some "abc".toList) 1 1 0).map (fun o => (o.result, o.scr.vt.requests, o.scr.search_row))
      = some (1, [VTRequest.scroll_set_delta 6], 0) := by rfl
  obtain ⟨out, hout, hval⟩ := Option.map_eq_some'.mp hres
  simp only [Prod.mk.injEq] at hval
  obtain ⟨pre, post, p, hp, hpos, _, _, _, _, hrow, _⟩ :=
    C17_match_brought_into_view literal_hl 1 20 (scr_search_regex_init (demo_back_scr 1 2 0))
      (some "abc".toList) 1 1 0 out hout (by omega)
  exact ⟨by decide, by decide, by decide, out, hout, hval.1, hval.2.1, hval.2.2,
    p, by simp [hp], hpos, hrow⟩


/-! ## The sign of the new delta (C18) -/

/-- C18, as stated, fails: with S = 6, H = 3 (count 9) and delta 0, the match
search id 0 is in `0 .. count-1` and outside the visible window, and the new
delta the scan computes is 6, which is not `≤ 0`; the forward preview for "abc"
on the example screen passes exactly this 6 to `vterminal_scroll_set_delta`. -/
theorem C18_new_delta_nonpositive_counterexample :
    (0 : Int) ≤ 0 ∧ (0 : Int) ≤ 9 - 1 ∧ (0 : Int) ≤ 6
    ∧ ¬ in_view 9 3 0 0
    ∧ delta_after_view_check 9 3 6 0 0 = 6
    ∧ ¬ delta_after_view_check 9 3 6 0 0 ≤ 0
    ∧ (scr_search_regex literal_hl 1 20 (scr_search_regex_init (demo_back_scr 1 2 0))
        (some "abc".toList) 1 1 0).map
          (fun o => (o.result, o.probes.map (fun p => (p.sid, p.result)), o.scr.vt.requests))
        = some (1, [(8, 0), (0, 1)], [VTRequest.scroll_set_delta 6]) :=
  ⟨by decide, by decide, by decide, by decide, by decide, by decide, by rfl⟩

/-- C18 amended (the new delta is never negative): whenever the matched search id
`m` lies outside the visible window, the visibility check of the scans passes to
`vterminal_scroll_set_delta` the new delta `d' = S - m` when `m < S` and `d' = 0`
otherwise; so `d' ≥ 0`, `d' ≤ S` for every `m ≥ 0`, and `d' ≤ 0` only when
`m ≥ S`. -/
theorem C18_new_delta_nonnegative (scr : scroller) (count H S d m : Int)
    (hout : ¬ in_view count H d m) :
    (scroll_into_view scr count H S d m).2 = delta_after_view_check count H S d m
    ∧ (scroll_into_view scr count H S d m).1.vt
        = vterminal_scroll_set_delta scr.vt (delta_after_view_check count H S d m)
    ∧ (scroll_into_view scr count H S d m).1.vt.requests
        = VTRequest.scroll_set_delta (delta_after_view_check count H S d m) :: scr.vt.requests
    ∧ delta_after_view_check count H S d m = (if m < S then S - m else 0)
    ∧ 0 ≤ delta_after_view_check count H S d m
    ∧ (0 ≤ m → 0 ≤ S → delta_after_view_check count H S d m ≤ S)
    ∧ (delta_after_view_check count H S d m ≤ 0 ↔ S ≤ m) := by
  have hval := delta_after_view_check_out_of_view count H S d m hout
  have hvt : (scroll_into_view scr count H S d m).1.vt
      = vterminal_scroll_set_delta scr.vt (delta_after_view_check count H S d m) := by
    unfold in_view at hout
    unfold scroll_into_view delta_after_view_check
    rw [if_neg hout, if_neg hout]
  refine ⟨scroll_into_view_snd scr count H S d m, hvt, by rw [hvt]; rfl, hval, ?_, ?_, ?_⟩
  · rw [hval]; split_ifs <;> omega
  · intro hm hS; rw [hval]; split_ifs <;> omega
  · rw [hval]; split_ifs <;> constructor <;> intro h <;> omega

/-- A run of C18 amended with S = 6, H = 3, delta 0: for the match search id 0 the
new delta is 6 = S - 0, and for the match search id 7 under delta 6 (window
`0 .. 2`) the new delta is 0. -/
theorem C18_new_delta_nonnegative_witness :
    ¬ in_view 9 3 0 0
    ∧ delta_after_view_check 9 3 6 0 0 = 6
    ∧ (scroll_into_view (demo_back_scr 1 2 0) 9 3 6 0 0).1.vt.requests
        = [VTRequest.scroll_set_delta 6]
    ∧ ¬ in_view 9 3 6 7
    ∧ delta_after_view_check 9 3 6 6 7 = 0 := by
  have h0 := C18_new_delta_nonnegative (demo_back_scr 1 2 0) 9 3 6 0 0 (by decide)
  have h7 := C18_new_delta_nonnegative (demo_back_scr 1 2 6) 9 3 6 6 7 (by decide)
  refine ⟨by decide, ?_, ?_, by decide, ?_⟩
  · rw [h0.2.2.2.1]; decide
  · rw [h0.2.2.1, h0.2.2.2.1]; decide
  · rw [h7.2.2.2.1]; decide

/-! ## Wraparound disabled (C19) -/

/-- C19 at its failing inputs, on the example screen (count 9, width 3) with
wraparound disabled.  Forward: from the origin (8, 2), the last column of the
last search id, the start position wraps to search id 0, and the preview for
"abc" probes and reports search id 0, below the origin row 8.  Backward: from
the origin (0, 0) the start position wraps to search id 8, and the preview for
"pqr" probes and reports search id 8, above the origin row 0. -/
theorem C19_start_position_wraps :
    ((scr_search_regex_init (demo_back_scr 2 2 0)).search_sid_init,
        (scr_search_regex_init (demo_back_scr 2 2 0)).search_col_init) = (8, 2)
    ∧ forward_start (scr_search_regex_init (demo_back_scr 2 2 0)) 3 9 = (0, 0)
    ∧ (scr_search_regex literal_hl 0 20 (scr_search_regex_init (demo_back_scr 2 2 0))
        (some "abc".toList) 1 1 0).map
          (fun o => (o.result, o.probes.map (fun p => (p.sid, p.col, p.result))))
        = some (1, [(0, 0, 1)])
    ∧ ((scr_search_regex_init (demo_back_scr 0 0 6)).search_sid_init,
        (scr_search_regex_init (demo_back_scr 0 0 6)).search_col_init) = (0, 0)
    ∧ backward_start (scr_search_regex_init (demo_back_scr 0 0 6)) 3 9 = (8, 2)
    ∧ (scr_search_regex literal_hl 0 20 (scr_search_regex_init (demo_back_scr 0 0 6))
        (some "pqr".toList) 1 0 0).map
          (fun o => (o.result, o.probes.map (fun p => (p.sid, p.col, p.result))))
        = some (1, [(8, 0, 1), (8, 1, 0)]) :=
  ⟨by rfl, by rfl, by rfl, by rfl, by rfl, by rfl⟩


/-! ## The match span after a search without a match (C20) -/

/-- C20, as stated, fails: on the example screen, after `scr_search_regex_init`
and a forward preview for "def" that records the span (0, 3), a forward preview
for "zzz" finds no match (result 0) and leaves `search_col_start = 0` and
`search_col_end = 3`. -/
theorem C20_span_unset_counterexample :
    (run_searches literal_hl (scr_search_regex_init (demo_back_scr 1 2 0))
        [⟨1, 20, some "def".toList, 1, 1, 0⟩]).bind
      (fun s => (scr_search_regex literal_hl 1 20 s (some "zzz".toList) 1 1 0).map
        (fun o => (s.search_col_start, s.search_col_end, o.result,
          o.scr.search_col_start, o.scr.search_col_end)))
      = some (0, 3, 0, 0, 3)
    ∧ ¬ (3 : Int) = 0 :=
  ⟨by rfl, by decide⟩

/-- C20 amended (the span after a search without a match): after a search call
that returns without a match (its result is not positive), in commit mode with a
pattern `search_row`, `search_col_start` and `search_col_end` are all 0; in
preview mode, and for a null pattern, the three fields are what they were before
the call, so they are 0 exactly when they were 0 before. -/
theorem C20_span_after_no_match (hl : HlRegex) (w : Int) (fuel : Nat) (scr : scroller)
    (regex : Option (List Char)) (opt direction icase : Int) (out : search_outcome)
    (hret : scr_search_regex hl w fuel scr regex opt direction icase = some out)
    (hno : ¬ 0 < out.result) :
    (opt = 2 → regex ≠ none →
        out.scr.search_row = 0 ∧ out.scr.search_col_start = 0 ∧ out.scr.search_col_end = 0)
    ∧ ((opt ≠ 2 ∨ regex = none) →
        out.scr.search_row = scr.search_row
        ∧ out.scr.search_col_start = scr.search_col_start
        ∧ out.scr.search_col_end = scr.search_col_end)
    ∧ (scr.search_col_start = 0 → scr.search_col_end = 0 →
        out.scr.search_col_start = 0 ∧ out.scr.search_col_end = 0) := by
  rcases scr_search_regex_outcome hl w fuel scr regex opt direction icase out hret with
    ⟨hnone, hscr, _, _⟩ | ⟨hsome, st, hst, hcase⟩
  · rw [hscr]
    exact ⟨fun _ hne => absurd hnone hne, fun _ => ⟨rfl, rfl, rfl⟩, fun h1 h2 => ⟨h1, h2⟩⟩
  · rcases hcase with ⟨_, ⟨info, hinfo⟩, _⟩ | ⟨hpos, _⟩
    · have hcommit : opt = 2 →
          out.scr.search_row = 0 ∧ out.scr.search_col_start = 0
            ∧ out.scr.search_col_end = 0 := by
        intro hopt
        subst hopt
        rw [hst]
        exact search_commit_clears hl st out.result
      have hprev : opt ≠ 2 →
          out.scr.search_row = scr.search_row
          ∧ out.scr.search_col_start = scr.search_col_start
          ∧ out.scr.search_col_end = scr.search_col_end := by
        intro hopt
        rw [hst, search_commit_preview hl st opt out.result hopt, hinfo]
        exact ⟨rfl, rfl, rfl⟩
      refine ⟨fun hopt _ => hcommit hopt, ?_, ?_⟩
      · rintro (hopt | hnone)
        · exact hprev hopt
        · exact absurd hnone hsome
      · intro h1 h2
        by_cases hopt : opt = 2
        · exact (hcommit hopt).2
        · obtain ⟨_, e1, e2⟩ := hprev hopt
          exact ⟨e1.trans h1, e2.trans h2⟩
    · exact absurd hpos hno

/-- A run of C20 amended: after the forward preview for "def" has recorded the
span (0, 3), the committed forward search for "zzz" returns 0 with the span
fields 0, while the preview for "zzz" returns 0 with the span still (0, 3). -/
theorem C20_span_after_no_match_witness :
    ∃ s, run_searches literal_hl (scr_search_regex_init (demo_back_scr 1 2 0))
        [⟨1, 20, some "def".toList, 1, 1, 0⟩] = some s
      ∧ s.search_col_start = 0 ∧ s.search_col_end = 3
      ∧ (∃ out, scr_search_regex literal_hl 1 20 s (some "zzz".toList) 2 1 0 = some out
          ∧ out.result = 0 ∧ out.scr.search_col_start = 0 ∧ out.scr.search_col_end = 0)
      ∧ (∃ out, scr_search_regex literal_hl 1 20 s (some "zzz".toList) 1 1 0 = some out
          ∧ out.result = 0 ∧ out.scr.search_col_start = 0 ∧ out.scr.search_col_end = 3) := by
  have hs : (run_searches literal_hl (scr_search_regex_init (demo_back_scr 1 2 0))
      [⟨1, 20, some "def".toList, 1, 1, 0⟩]).bind (fun s =>
        (scr_search_regex literal_hl 1 20 s (some "zzz".toList) 2 1 0).bind (fun o2 =>
          (scr_search_regex literal_hl 1 20 s (some "zzz".toList) 1 1 0).map (fun o1 =>
            (s.search_col_start, s.search_col_end, o2.result, o1.result))))
      = some (0, 3, 0, 0) := by rfl
  obtain ⟨s, hrun, hs2⟩ := Option.bind_eq_some.mp hs
  obtain ⟨o2, ho2, hs3⟩ := Option.bind_eq_some.mp hs2
  obtain ⟨o1, ho1, hval⟩ := Option.map_eq_some'.mp hs3
  simp only [Prod.mk.injEq] at hval
  obtain ⟨v1, v2, v3, v4⟩ := hval
  have hc := C20_span_after_no_match literal_hl 1 20 s (some "zzz".toList) 2 1 0 o2 ho2
    (by omega)
  have hp := C20_span_after_no_match literal_hl 1 20 s (some "zzz".toList) 1 1 0 o1 ho1
    (by omega)
  obtain ⟨_, c2, c3⟩ := hc.1 rfl (by simp)
  obtain ⟨_, p2, p3⟩ := hp.2.1 (Or.inl (by decide))
  exact ⟨s, hrun, v1, v2, ⟨o2, ho2, v3, c2, c3⟩, ⟨o1, ho1, v4, p2.trans v1, p3.trans v2⟩⟩

/-! ## Termination and range of the scans (C21) -/

/-- C21 (scans terminate and stay in range): for a session whose search origin
is valid (`0 ≤ search_sid_init ≤ count - 1`, `0 ≤ search_col_init ≤ W - 1`, with
`W ≥ 1` and `count = S + H`), any wrapscan setting, any `opt` (preview or commit),
any case flag and any pattern, and a primitive whose start offset is `≥ 0`
whenever it reports a match (result 1), the forward scan and the backward scan
both return as soon as the fuel is at least `count + 1` and `W + 1`, and the
per-row loop of the backward scan returns for every row and every boundary column
up to `W - 1`.  Every call of the primitive they make is on the text fetched for a
search id in `0 .. count-1` at the viewport row `sid − S + delta` of the emulator
the scan was entered with, which is terminal id `sid − S`, in `-S .. H-1`, from a
start column in `0 .. W`. -/
theorem C21_scans_terminate_in_range (hl : HlRegex) (w : Int) (fuel : Nat) (scr : scroller)
    (regex : List Char) (opt icase : Int)
    (hW : 1 ≤ (vterminal_get_height_width scr.vt).2)
    (h0 : 0 ≤ scr.search_sid_init)
    (h1 : scr.search_sid_init
      ≤ vterminal_get_sb_num_rows scr.vt + (vterminal_get_height_width scr.vt).1 - 1)
    (hc0 : 0 ≤ scr.search_col_init)
    (hc1 : scr.search_col_init ≤ (vterminal_get_height_width scr.vt).2 - 1)
    (hstart : ∀ (info : Option hl_regex_info) (line : List Char),
      (hl.search info line regex icase).result = 1 →
      0 ≤ (hl.search info line regex icase).start)
    (hfuel : vterminal_get_sb_num_rows scr.vt + (vterminal_get_height_width scr.vt).1 + 1
      ≤ (fuel : Int))
    (hfuelW : (vterminal_get_height_width scr.vt).2 + 1 ≤ (fuel : Int)) :
    (∃ out, scr_search_regex_forward hl w fuel scr (some regex) opt icase = some out
      ∧ ∀ p ∈ out.probes, probe_in_range scr p
        ∧ ∃ info, p = probe_of p.sid p.col
            (hl.search info (vterminal_fetch_row scr.vt
              (cursor_row_from_sid p.sid (vterminal_get_sb_num_rows scr.vt)
                (vterminal_scroll_get_delta scr.vt)) p.col
              (vterminal_get_height_width scr.vt).2) regex icase))
    ∧ (∃ out, scr_search_regex_backwards hl w fuel scr (some regex) opt icase = some out
      ∧ ∀ p ∈ out.probes, probe_in_range scr p
        ∧ ∃ info, p = probe_of p.sid p.col
            (hl.search info (vterminal_fetch_row scr.vt
              (cursor_row_from_sid p.sid (vterminal_get_sb_num_rows scr.vt)
                (vterminal_scroll_get_delta scr.vt)) p.col
              (vterminal_get_height_width scr.vt).2) regex icase))
    ∧ (∀ (vt : VTerminal) (vfr search_row search_col : Int) (info : Option hl_regex_info)
        (regex_matched start end_ : Int),
        search_col ≤ (vterminal_get_height_width scr.vt).2 - 1 →
        ∃ rs, backward_row_loop hl regex icase vt vfr (vterminal_get_height_width scr.vt).2
          search_row search_col fuel 0 info regex_matched start end_ = some rs) := by
  have hrow : ∀ (vt : VTerminal) (vfr search_row search_col : Int)
      (info : Option hl_regex_info) (regex_matched start end_ : Int),
      search_col ≤ (vterminal_get_height_width scr.vt).2 - 1 →
      ∃ rs, backward_row_loop hl regex icase vt vfr (vterminal_get_height_width scr.vt).2
        search_row search_col fuel 0 info regex_matched start end_ = some rs := by
    intro vt vfr search_row search_col info regex_matched start end_ hcol
    exact backward_row_loop_total hl regex icase vt vfr _ search_row search_col
      (fun info2 c => hstart info2 _) fuel 0 info regex_matched start end_
      (by omega) (by omega)
  refine ⟨?_, ?_, hrow⟩
  · obtain ⟨o, _, hret, _, _, hin⟩ := forward_search_returns hl w fuel scr regex opt icase
      h0 h1 hfuel
    refine ⟨_, hret, ?_⟩
    intro p hp
    obtain ⟨hlink, hcol⟩ := forward_scan_probes hl w fuel scr regex opt icase _ hret p hp
    obtain ⟨hs0, hs1⟩ := hin p hp
    have hst : 0 ≤ (forward_start scr (vterminal_get_height_width scr.vt).2
          (vterminal_get_sb_num_rows scr.vt + (vterminal_get_height_width scr.vt).1)).2
        ∧ (forward_start scr (vterminal_get_height_width scr.vt).2
          (vterminal_get_sb_num_rows scr.vt + (vterminal_get_height_width scr.vt).1)).2
          ≤ (vterminal_get_height_width scr.vt).2 := by
      unfold forward_start
      simp only
      split_ifs <;> refine ⟨?_, ?_⟩ <;> dsimp only <;> omega
    refine ⟨⟨hs0, by omega, fetched_tid_of_sid scr.vt p.sid, by omega, by omega, ?_, ?_⟩,
      hlink⟩
    · rcases hcol with h | h <;> omega
    · rcases hcol with h | h <;> omega
  · obtain ⟨o, _, hret, hin⟩ := backward_search_returns hl w fuel scr regex opt icase
      h0 h1 hfuel
      (fun info row col hcol => backward_row_loop_total hl regex icase scr.vt _ _ row col
        (fun info2 c => hstart info2 _) fuel 0 info 0 0 0
        (by
          rcases max_cases ((vterminal_get_height_width scr.vt).2 - 1)
            (scr.search_col_init - 1) with ⟨hmx, _⟩ | ⟨hmx, _⟩
          · rw [hmx] at hcol; omega
          · rw [hmx] at hcol; omega)
        (by omega))
    refine ⟨_, hret, ?_⟩
    intro p hp
    obtain ⟨hlink, hc, hcol⟩ := backward_scan_probes hl w fuel scr regex opt icase _ hstart
      hret p hp
    obtain ⟨hs0, hs1⟩ := hin p hp
    have hst : (backward_start scr (vterminal_get_height_width scr.vt).2
          (vterminal_get_sb_num_rows scr.vt + (vterminal_get_height_width scr.vt).1)).2 + 1
          ≤ (vterminal_get_height_width scr.vt).2 := by
      unfold backward_start
      simp only
      split_ifs <;> dsimp only <;> omega
    refine ⟨⟨hs0, by omega, fetched_tid_of_sid scr.vt p.sid, by omega, by omega, hc, ?_⟩,
      hlink⟩
    rcases hcol with h | h | h <;> omega

/-- C21 at a concrete input: the example screen (S = 6, H = 3, W = 3) scrolled
back by 4 rows, origin (3, 1) taken from the scroll cursor (1, 1), wrapscan
enabled, pattern "def", preview, with the literal primitive and fuel 20.  The
forward scan probes (3, 2), (4, 0) and (5, 0), where it finds "def"; the backward
scan probes search id 3 at the columns 0 and 1 and reports the match at column
0. -/
theorem C21_scans_terminate_in_range_witness :
    (scr_search_regex_init (demo_back_scr 1 1 4)).search_sid_init = 3
    ∧ (scr_search_regex_init (demo_back_scr 1 1 4)).search_col_init = 1
    ∧ (∃ out, scr_search_regex_forward literal_hl 1 20
          (scr_search_regex_init (demo_back_scr 1 1 4)) (some "def".toList) 1 0 = some out
        ∧ ∀ p ∈ out.probes, probe_in_range (scr_search_regex_init (demo_back_scr 1 1 4)) p)
    ∧ (∃ out, scr_search_regex_backwards literal_hl 1 20
          (scr_search_regex_init (demo_back_scr 1 1 4)) (some "def".toList) 1 0 = some out
        ∧ ∀ p ∈ out.probes, probe_in_range (scr_search_regex_init (demo_back_scr 1 1 4)) p)
    ∧ (scr_search_regex_forward literal_hl 1 20
          (scr_search_regex_init (demo_back_scr 1 1 4)) (some "def".toList) 1 0).map
        (fun o => o.probes.map (fun p => (p.sid, p.col))) = some [(3, 2), (4, 0), (5, 0)]
    ∧ (scr_search_regex_backwards literal_hl 1 20
          (scr_search_regex_init (demo_back_scr 1 1 4)) (some "def".toList) 1 0).map
        (fun o => o.probes.map (fun p => (p.sid, p.col))) = some [(3, 0), (3, 1)] := by
  obtain ⟨⟨o1, h1, hp1⟩, ⟨o2, h2, hp2⟩, _⟩ := C21_scans_terminate_in_range literal_hl 1 20
    (scr_search_regex_init (demo_back_scr 1 1 4)) "def".toList 1 0 (by decide) (by decide)
    (by decide) (by decide) (by decide)
    (fun info line h => literal_hl_start_nonneg info line "def".toList 0 h)
    (by decide) (by decide)
  exact ⟨by decide, by decide, ⟨o1, h1, fun p hp => (hp1 p hp).1⟩,
    ⟨o2, h2, fun p hp => (hp2 p hp).1⟩, by rfl, by rfl⟩

end Scroller
